import Mathlib

/-! Agente_Schwefel: live-session registry and throttle gate of `src/index.js`.

A shallow embedding of the Socket.io part of the server: the `userStats` object
(`activeUsers`, `lastEmitTime`, `activity`, `history`, the counters), the throttle
function `shouldThrottleEvent`, the handlers registered in `io.on('connection')`
(`userAction`, `userConnected`, `disconnect`, `requestUserStats`, `ping`,
`requestActiveUsers`, `recommendation`), `handleUserAction`, `updateUserHistory`,
the `cleanupInterval` sweep, the `updateInterval` broadcast, `gracefulShutdown` and
the validation of `POST /guardar-recomendacion`; and of two parts of the client:
`handleReconnection` of `users-counter.js` and the chart histories of `main.js`.

The handlers are embedded as functions on `userStats`; `Server` runs them in any
order, and `Runtime` runs them as the transport delivers them: the handlers of a
socket are registered when the query of its connection handler has settled, and
the transport closes a socket once, taking it out of `io.sockets.sockets` and
firing `disconnect` in the same step.

Conventions of the embedding:

* A JavaScript `Map` is an insertion-ordered association list (`JsMap`).
* `Date.now()` / `new Date()` are read from a `Clock` value handed to each handler
  run: `now` is the epoch-millisecond reading, `label` is what `formatTime` returns
  for it (the locale decides that string, so it is an input).
* A handler returns an `Outcome`: the new `userStats`, the messages it emitted in
  order, and whether an exception left the handler.
* `io.emit` targets every connected socket (`Target.all`), `socket.emit` only the
  socket of the handler (`Target.only`).
-/

namespace AgenteSchwefel

/-! ## JavaScript values that reach the handlers -/

/-- The JavaScript values a client payload field or a socket property can hold.
`object` stands for any object or array (none of them carries a callable
`substring` after transport); a fractional number behaves like a nonzero `num`. -/
inductive JsVal where
  | undefined : JsVal
  | null : JsVal
  | bool (b : Bool) : JsVal
  | num (n : Int) : JsVal
  | str (s : String) : JsVal
  | object : JsVal
  deriving DecidableEq

/-- JavaScript truthiness. -/
def JsVal.truthy : JsVal → Bool
  | .undefined => false
  | .null => false
  | .bool b => b
  | .num n => n != 0
  | .str s => s != ""
  | .object => true

/-- The operator `a || b`. -/
def jsOr (a b : JsVal) : JsVal := if a.truthy then a else b

/-- The number of UTF-16 code units of a character: 2 outside the basic plane. -/
def utf16Units (c : Char) : Nat := if c.toNat < 0x10000 then 1 else 2

/-- The longest prefix of `l` that takes at most `n` UTF-16 code units. -/
def takeUnits : Nat → List Char → List Char
  | _, [] => []
  | n, c :: r => if utf16Units c ≤ n then c :: takeUnits (n - utf16Units c) r else []

/-- The call `s.substring(0, 8)` on a string: JavaScript counts UTF-16 code units,
so these are the characters that fit in the first 8 units. When the cut falls
inside a surrogate pair JavaScript keeps its first half, a lone surrogate that no
`String` holds; the embedding ends the result before that character. -/
def substring8 (s : String) : String := String.mk (takeUnits 8 s.data)

/-- The call `v.substring(0, 8)` on an arbitrary value: `none` is the `TypeError`
raised when `v` is not a string. -/
def JsVal.substring8 : JsVal → Option String
  | .str s => some (AgenteSchwefel.substring8 s)
  | _ => none

/-- The call `key.startsWith(pre)`. -/
def startsWith (key pre : String) : Bool := pre.data.isPrefixOf key.data

/-! ## JavaScript `Map` -/

/-- An insertion-ordered map with string keys. -/
abbrev JsMap (β : Type) := List (String × β)

namespace JsMap

variable {β : Type}

/-- The call `m.get(k)`; `none` is `undefined`. -/
def get : JsMap β → String → Option β
  | [], _ => none
  | (k', v) :: m, k => if k' = k then some v else get m k

/-- The call `m.has(k)`. -/
def has (m : JsMap β) (k : String) : Bool := (get m k).isSome

/-- The call `m.set(k, v)`: an existing key keeps its position. -/
def set : JsMap β → String → β → JsMap β
  | [], k, v => [(k, v)]
  | (k', v') :: m, k, v => if k' = k then (k', v) :: m else (k', v') :: set m k v

/-- The call `m.delete(k)`. -/
def delete (m : JsMap β) (k : String) : JsMap β := m.filter (fun e => e.1 != k)

/-- The keys of `m`, in iteration order (`m.keys()`). -/
def keys (m : JsMap β) : List String := m.map Prod.fst

/-- The values of `m`, in iteration order (`m.values()`). -/
def values (m : JsMap β) : List β := m.map Prod.snd

/-- The property `m.size`. -/
def size (m : JsMap β) : Nat := m.length

end JsMap

/-! ## The throttle gate -/

/-- The table `userStats.lastEmitTime`. -/
abbrev ThrottleTable := JsMap Int

/-- The template string that builds the key of the throttle table from
`socketId` and `eventType`. -/
def lastEmitKey (socketId eventType : String) : String := socketId ++ ":" ++ eventType

/-- The expression `userStats.lastEmitTime.get(lastEmitKey) || 0`. -/
def lastOrZero : Option Int → Int
  | none => 0
  | some v => if v = 0 then 0 else v

/-- The function `shouldThrottleEvent(socketId, eventType, minIntervalMs)` run on
table `tbl` when `Date.now()` reads `now`. Returns the boolean result (`true`:
throttle, `false`: let through) and the table afterwards. The callers in the
source always pass `minIntervalMs` (300, 1000, 2000). -/
def shouldThrottleEvent (tbl : ThrottleTable) (now : Int) (socketId eventType : String)
    (minIntervalMs : Int) : Bool × ThrottleTable :=
  let key := lastEmitKey socketId eventType
  let lastEmitTime := lastOrZero (JsMap.get tbl key)
  if now - lastEmitTime < minIntervalMs then
    (true, tbl)
  else
    (false, JsMap.set tbl key now)

/-! ## The `userStats` object, sockets and messages -/

/-- The readings of the clock during one handler run: `now` is `Date.now()` (also
the instant of every `new Date()` of the run), `label` is `formatTime(new Date())`. -/
structure Clock where
  now : Int
  label : String
  deriving DecidableEq

/-- A value of `userStats.activeUsers`: the object stored at connection, with the
properties `customId` and `clientInfo` that `userConnected` may add
(`undefined` while not set). -/
structure UserInfo where
  userId : String
  connectTime : Int
  ip : String
  userAgent : String
  customId : JsVal
  clientInfo : JsVal
  deriving DecidableEq

/-- An element of `userStats.activity`. -/
structure ActivityRecord where
  type : JsVal
  userId : String
  time : JsVal
  timestamp : Int
  data : JsVal
  reason : Option String
  deriving DecidableEq

/-- An element of `userStats.history`. -/
structure HistoryPoint where
  time : String
  count : Int
  timestamp : Int
  deriving DecidableEq

/-- The object `userStats`. -/
structure UserStats where
  currentUsers : Int
  todayUsers : Nat
  totalUsers : List String
  history : List HistoryPoint
  activity : List ActivityRecord
  activeUsers : JsMap UserInfo
  lastEmitTime : ThrottleTable
  deriving DecidableEq

/-- The object `userStats` as the module creates it. -/
def UserStats.init : UserStats :=
  { currentUsers := 0, todayUsers := 0, totalUsers := [], history := [], activity := [],
    activeUsers := [], lastEmitTime := [] }

/-- The properties of a `socket` object that the handlers read or assign. -/
structure Socket where
  id : String
  userId : String
  customId : JsVal
  deriving DecidableEq

/-- An element of the list sent as `activeUsers`. -/
structure PresenceEntry where
  id : String
  connectTime : Int
  deriving DecidableEq

/-- Who receives an emitted message: `all` for `io.emit`, `only s` for
`socket.emit` on the socket with id `s`. -/
inductive Target where
  | all : Target
  | only (socketId : String) : Target
  deriving DecidableEq

/-- The event name and payload of an emitted message. -/
inductive Payload where
  | connectionStatus (connected : Bool) (socketId userId : String) : Payload
  | userCount (count : Int) : Payload
  | activeUsers (users : List PresenceEntry) : Payload
  | userStats (current : Int) (today total : Nat) (history : List HistoryPoint)
      (activity : List ActivityRecord) : Payload
  | initialRecommendations (rows : Nat) : Payload
  | userHistory (history : List HistoryPoint) : Payload
  | userActivity (actionData : ActivityRecord) : Payload
  | stateUpdate (actionData : ActivityRecord) (timestamp : Int) : Payload
  | serverPing (timestamp : Int) : Payload
  | pong (timestamp : Int) (activeUsers : Int) : Payload
  deriving DecidableEq

/-- One emitted message. -/
structure Msg where
  target : Target
  payload : Payload
  deriving DecidableEq

/-- The sockets a message with target `t` is delivered to, when `live` are the ids
of the sockets connected to the server. -/
def Target.recipients (live : List String) : Target → List String
  | .all => live
  | .only s => [s]

/-- What one handler run did: `userStats` afterwards, the messages emitted in
order, and whether an exception left the handler. -/
structure Outcome where
  stats : UserStats
  emitted : List Msg
  threw : Bool
  deriving DecidableEq

/-! ## Helpers of the handlers -/

/-- The statement `if (userStats.activity.length > 50) userStats.activity.pop()`. -/
def capActivity (activity : List ActivityRecord) : List ActivityRecord :=
  if activity.length > 50 then activity.dropLast else activity

/-- The assignment `userStats.history[existingIndex].count = count` at the first
point whose `time` is `label` (the index `findIndex` returns). -/
def setCountAtLabel (label : String) (count : Int) : List HistoryPoint → List HistoryPoint
  | [] => []
  | p :: ps =>
    if p.time = label then { p with count := count } :: ps
    else p :: setCountAtLabel label count ps

/-- The function `updateUserHistory()`: the new `userStats` and the `userHistory`
message it sends to everyone. -/
def updateUserHistory (us : UserStats) (clk : Clock) : UserStats × Msg :=
  let history :=
    if us.history.any (fun item => item.time = clk.label) then
      setCountAtLabel clk.label us.currentUsers us.history
    else
      let pushed := us.history ++
        [{ time := clk.label, count := us.currentUsers, timestamp := clk.now }]
      if pushed.length > 24 then pushed.tail else pushed
  ({ us with history := history }, ⟨.all, .userHistory history⟩)

/-- The list the connection handler sends as `activeUsers`:
`user.userId.substring(0, 8)` and `connectTime` of every registry value. -/
def activeUsersListAtConnect (activeUsers : JsMap UserInfo) : List PresenceEntry :=
  (JsMap.values activeUsers).map
    (fun user => { id := substring8 user.userId, connectTime := user.connectTime })

/-- The list every other path sends as `activeUsers`:
`(user.customId || user.userId).substring(0, 8)` and `connectTime` of every
registry value; `none` when `substring` raises a `TypeError` on one of them. -/
def activeUsersList (activeUsers : JsMap UserInfo) : Option (List PresenceEntry) :=
  (JsMap.values activeUsers).mapM
    (fun user => (jsOr user.customId (.str user.userId)).substring8.map
      (fun id => { id := id, connectTime := user.connectTime }))

/-- The loop of the disconnect handler over `userStats.lastEmitTime.keys()` that
deletes each key starting with the socket id followed by a colon. -/
def clearThrottleKeys (tbl : ThrottleTable) (socketId : String) : ThrottleTable :=
  (JsMap.keys tbl).foldl
    (fun t key => if startsWith key (socketId ++ ":") then JsMap.delete t key else t) tbl

/-! ## The handlers -/

/-- What a new connection brings: the transport's socket id and handshake data,
the identifier `uuidv4()` draws for `socket.userId`, and the outcome of the query
for the latest recommendations (`none`: the query failed, `some n`: `n` rows). -/
structure Handshake where
  socketId : String
  userId : String
  clientIp : String
  userAgent : String
  latest : Option Nat
  deriving DecidableEq

/-- The body of `io.on('connection', ...)` up to the registration of the socket's
handlers. It runs inside `try`/`catch`, and nothing in it raises. -/
def onConnection (us : UserStats) (hs : Handshake) (clk : Clock) : Outcome :=
  let us1 := { us with
    activeUsers := JsMap.set us.activeUsers hs.socketId
      { userId := hs.userId, connectTime := clk.now, ip := hs.clientIp,
        userAgent := hs.userAgent, customId := .undefined, clientInfo := .undefined } }
  let us2 := { us1 with
    currentUsers := us1.currentUsers + 1
    todayUsers := us1.todayUsers + 1
    totalUsers :=
      if hs.userId ∈ us1.totalUsers then us1.totalUsers else us1.totalUsers ++ [hs.userId] }
  let us3 := { us2 with
    activity := capActivity
      ({ type := .str "connect", userId := substring8 hs.userId, time := .str clk.label,
         timestamp := clk.now, data := .undefined, reason := none } :: us2.activity) }
  let (us4, historyMsg) := updateUserHistory us3 clk
  let initial : List Msg :=
    match hs.latest with
    | some rows =>
      if rows > 0 then [⟨.only hs.socketId, .initialRecommendations rows⟩] else []
    | none => []
  { stats := us4
    emitted :=
      [ historyMsg,
        ⟨.only hs.socketId, .connectionStatus true hs.socketId hs.userId⟩,
        ⟨.all, .userCount us4.currentUsers⟩,
        ⟨.all, .activeUsers (activeUsersListAtConnect us4.activeUsers)⟩,
        ⟨.only hs.socketId, .userStats us4.currentUsers us4.todayUsers us4.totalUsers.length
          us4.history us4.activity⟩ ] ++ initial
    threw := false }

/-- The fields of a `userAction` payload that the server reads (`undefined` for a
missing field; a payload that is a primitive has all four `undefined`). -/
structure ActionData where
  type : JsVal
  userId : JsVal
  time : JsVal
  payload : JsVal
  deriving DecidableEq

/-- The function `handleUserAction(data, socket)`. Its body is one `try` block:
the `TypeError` of `substring` on a non-string is caught there and logged. -/
def handleUserAction (us : UserStats) (data : ActionData) (socket : Socket) (clk : Clock) :
    Outcome :=
  match (jsOr data.userId (jsOr socket.customId (.str socket.userId))).substring8 with
  | none => { stats := us, emitted := [], threw := false }
  | some uid =>
    let actionData : ActivityRecord :=
      { type := jsOr data.type (.str "action"), userId := uid,
        time := jsOr data.time (.str clk.label), timestamp := clk.now,
        data := jsOr data.payload .object, reason := none }
    let us1 := { us with activity := capActivity (actionData :: us.activity) }
    let activityMsg : Msg := ⟨.all, .userActivity actionData⟩
    let stateMsg : Msg := ⟨.all, .stateUpdate actionData clk.now⟩
    if data.type = .str "slider" then
      let r1 := shouldThrottleEvent us1.lastEmitTime clk.now socket.id "broadcast_slider" 1000
      let m1 := if r1.1 then [] else [activityMsg]
      let r2 := shouldThrottleEvent r1.2 clk.now socket.id "state_update" 2000
      let m2 := if r2.1 then [] else [stateMsg]
      { stats := { us1 with lastEmitTime := r2.2 }, emitted := m1 ++ m2, threw := false }
    else
      { stats := us1, emitted := [activityMsg, stateMsg], threw := false }

/-- The handler `socket.on('userAction', ...)`; `data = none` is a `null` or
`undefined` payload, on which reading `data.type` raises. -/
def onUserAction (us : UserStats) (socket : Socket) (data : Option ActionData) (clk : Clock) :
    Outcome :=
  match data with
  | none => { stats := us, emitted := [], threw := true }
  | some d =>
    if d.type = .str "slider" then
      let r := shouldThrottleEvent us.lastEmitTime clk.now socket.id "slider" 300
      if r.1 then { stats := { us with lastEmitTime := r.2 }, emitted := [], threw := false }
      else handleUserAction { us with lastEmitTime := r.2 } d socket clk
    else handleUserAction us d socket clk

/-- The fields of a `userConnected` payload that the server reads. -/
structure AnnounceData where
  userId : JsVal
  clientInfo : JsVal
  deriving DecidableEq

/-- The handler `socket.on('userConnected', ...)`; `data = none` is a payload that
is falsy or has no properties. Returns the outcome and the socket object, whose
`customId` the handler assigns. -/
def onUserConnected (us : UserStats) (socket : Socket) (data : Option AnnounceData) :
    Outcome × Socket :=
  match data with
  | none => ({ stats := us, emitted := [], threw := false }, socket)
  | some d =>
    if d.userId.truthy then
      let socket1 := { socket with customId := d.userId }
      let us1 :=
        match JsMap.get us.activeUsers socket.id with
        | none => us
        | some userInfo =>
          let userInfo1 := { userInfo with customId := d.userId }
          let userInfo2 :=
            if d.clientInfo.truthy then { userInfo1 with clientInfo := d.clientInfo }
            else userInfo1
          { us with activeUsers := JsMap.set us.activeUsers socket.id userInfo2 }
      match activeUsersList us1.activeUsers with
      | none => ({ stats := us1, emitted := [], threw := true }, socket1)
      | some users =>
        ({ stats := us1, emitted := [⟨.all, .activeUsers users⟩], threw := false }, socket1)
    else ({ stats := us, emitted := [], threw := false }, socket)

/-- The handler `socket.on('disconnect', ...)`. -/
def onDisconnect (us : UserStats) (socket : Socket) (reason : String) (clk : Clock) : Outcome :=
  let us1 := { us with currentUsers := max 0 (us.currentUsers - 1) }
  let us2 := { us1 with activeUsers := JsMap.delete us1.activeUsers socket.id }
  let us3 := { us2 with lastEmitTime := clearThrottleKeys us2.lastEmitTime socket.id }
  match (jsOr socket.customId (.str socket.userId)).substring8 with
  | none => { stats := us3, emitted := [], threw := true }
  | some uid =>
    let us4 := { us3 with
      activity :=
        { type := .str "disconnect", userId := uid, time := .str clk.label,
          timestamp := clk.now, data := .undefined, reason := some reason } :: us3.activity }
    let countMsg : Msg := ⟨.all, .userCount us4.currentUsers⟩
    match activeUsersList us4.activeUsers with
    | none => { stats := us4, emitted := [countMsg], threw := true }
    | some users =>
      let (us5, historyMsg) := updateUserHistory us4 clk
      { stats := us5, emitted := [countMsg, ⟨.all, .activeUsers users⟩, historyMsg],
        threw := false }

/-- One iteration of the loop of the cleanup sweep over
`userStats.activeUsers.entries()`; `transport` is `io.sockets.sockets` with the
`connected` flag of each socket, `acc` is `userStats` and `socketsCleaned`. -/
def sweepEntry (transport : JsMap Bool) (currentTime : Int) (acc : UserStats × Nat)
    (entry : String × UserInfo) : UserStats × Nat :=
  let timeoutThreshold : Int := 2 * 60 * 1000
  let ghost : Bool :=
    match JsMap.get transport entry.1 with
    | none => true
    | some connected =>
      decide (currentTime - entry.2.connectTime > timeoutThreshold) && !connected
  if ghost then
    ({ acc.1 with
        activeUsers := JsMap.delete acc.1.activeUsers entry.1
        currentUsers := max 0 (acc.1.currentUsers - 1) },
      acc.2 + 1)
  else acc

/-- The callback of `cleanupInterval`. -/
def cleanupSweep (us : UserStats) (transport : JsMap Bool) (clk : Clock) : Outcome :=
  let swept := us.activeUsers.foldl (sweepEntry transport clk.now) (us, 0)
  let us1 := swept.1
  let pingMsg : Msg := ⟨.all, .serverPing clk.now⟩
  if swept.2 > 0 then
    let countMsg : Msg := ⟨.all, .userCount us1.currentUsers⟩
    match activeUsersList us1.activeUsers with
    | none => { stats := us1, emitted := [countMsg], threw := true }
    | some users =>
      let (us2, historyMsg) := updateUserHistory us1 clk
      { stats := us2, emitted := [countMsg, ⟨.all, .activeUsers users⟩, historyMsg, pingMsg],
        threw := false }
  else { stats := us1, emitted := [pingMsg], threw := false }

/-- The test of the cleanup sweep on one registry entry: the socket is missing from
`io.sockets.sockets`, or the entry's `connectTime` is more than two minutes before
`currentTime` and the socket is not connected. -/
def isGhost (transport : JsMap Bool) (currentTime : Int) (entry : String × UserInfo) : Bool :=
  match JsMap.get transport entry.1 with
  | none => true
  | some connected => decide (currentTime - entry.2.connectTime > 2 * 60 * 1000) && !connected

/-- The handler `socket.on('requestUserStats', ...)`. -/
def onRequestUserStats (us : UserStats) (socket : Socket) : Outcome :=
  let statsMsg : Msg :=
    ⟨.only socket.id,
      .userStats us.currentUsers us.todayUsers us.totalUsers.length us.history us.activity⟩
  match activeUsersList us.activeUsers with
  | none => { stats := us, emitted := [statsMsg], threw := true }
  | some users =>
    { stats := us, emitted := [statsMsg, ⟨.only socket.id, .activeUsers users⟩], threw := false }

/-- The handler `socket.on('ping', ...)`. -/
def onPing (us : UserStats) (socket : Socket) (clk : Clock) : Outcome :=
  { stats := us, emitted := [⟨.only socket.id, .pong clk.now us.currentUsers⟩], threw := false }

/-- The handler `socket.on('requestActiveUsers', ...)`. -/
def onRequestActiveUsers (us : UserStats) (socket : Socket) : Outcome :=
  match activeUsersList us.activeUsers with
  | none => { stats := us, emitted := [], threw := true }
  | some users =>
    { stats := us, emitted := [⟨.only socket.id, .activeUsers users⟩], threw := false }

/-- The callback of `updateInterval`. -/
def periodicUpdate (us : UserStats) : Outcome :=
  if us.currentUsers > 0 then
    let countMsg : Msg := ⟨.all, .userCount us.currentUsers⟩
    match activeUsersList us.activeUsers with
    | none => { stats := us, emitted := [countMsg], threw := true }
    | some users =>
      { stats := us, emitted := [countMsg, ⟨.all, .activeUsers users⟩], threw := false }
  else { stats := us, emitted := [], threw := false }

/-! ## The server as a transition system -/

/-- The state of the server: `userStats` and the socket objects the connection
handler has set up (the handlers of a socket close over its object, which
outlives its registry entry). -/
structure Server where
  userStats : UserStats
  sockets : JsMap Socket
  deriving DecidableEq

/-- The server before any connection. -/
def Server.init : Server := { userStats := UserStats.init, sockets := [] }

/-- The events the server reacts to. An event of a socket names it by its id. -/
inductive Event where
  | connection (hs : Handshake) (clk : Clock) : Event
  | userConnected (socketId : String) (data : Option AnnounceData) : Event
  | userAction (socketId : String) (data : Option ActionData) (clk : Clock) : Event
  | disconnect (socketId : String) (reason : String) (clk : Clock) : Event
  | cleanup (transport : JsMap Bool) (clk : Clock) : Event
  | requestUserStats (socketId : String) : Event
  | ping (socketId : String) (clk : Clock) : Event
  | requestActiveUsers (socketId : String) : Event
  | periodicUpdate : Event
  deriving DecidableEq

/-- The run of one handler: the state afterwards and the outcome of the run. Any
handler of a socket may run once the connection handler of the socket has started,
in any order and any number of times, and the sweep may find any transport state:
these are all the handler runs there can be, more than the transport delivers
(`Runtime` below keeps to those). An event of a socket for which no connection
handler has run finds no handler and does nothing. -/
def Server.handle (sv : Server) : Event → Server × Outcome
  | .connection hs clk =>
    let out := onConnection sv.userStats hs clk
    ({ userStats := out.stats,
       sockets := JsMap.set sv.sockets hs.socketId
         { id := hs.socketId, userId := hs.userId, customId := .undefined } }, out)
  | .userConnected socketId data =>
    match JsMap.get sv.sockets socketId with
    | none => (sv, { stats := sv.userStats, emitted := [], threw := false })
    | some socket =>
      let r := onUserConnected sv.userStats socket data
      ({ userStats := r.1.stats, sockets := JsMap.set sv.sockets socketId r.2 }, r.1)
  | .userAction socketId data clk =>
    match JsMap.get sv.sockets socketId with
    | none => (sv, { stats := sv.userStats, emitted := [], threw := false })
    | some socket =>
      let out := onUserAction sv.userStats socket data clk
      ({ sv with userStats := out.stats }, out)
  | .disconnect socketId reason clk =>
    match JsMap.get sv.sockets socketId with
    | none => (sv, { stats := sv.userStats, emitted := [], threw := false })
    | some socket =>
      let out := onDisconnect sv.userStats socket reason clk
      ({ sv with userStats := out.stats }, out)
  | .cleanup transport clk =>
    let out := cleanupSweep sv.userStats transport clk
    ({ sv with userStats := out.stats }, out)
  | .requestUserStats socketId =>
    match JsMap.get sv.sockets socketId with
    | none => (sv, { stats := sv.userStats, emitted := [], threw := false })
    | some socket =>
      let out := onRequestUserStats sv.userStats socket
      ({ sv with userStats := out.stats }, out)
  | .ping socketId clk =>
    match JsMap.get sv.sockets socketId with
    | none => (sv, { stats := sv.userStats, emitted := [], threw := false })
    | some socket =>
      let out := onPing sv.userStats socket clk
      ({ sv with userStats := out.stats }, out)
  | .requestActiveUsers socketId =>
    match JsMap.get sv.sockets socketId with
    | none => (sv, { stats := sv.userStats, emitted := [], threw := false })
    | some socket =>
      let out := onRequestActiveUsers sv.userStats socket
      ({ sv with userStats := out.stats }, out)
  | .periodicUpdate =>
    let out := periodicUpdate sv.userStats
    ({ sv with userStats := out.stats }, out)

/-- The state after one event. -/
def Server.step (sv : Server) (ev : Event) : Server := (sv.handle ev).1

/-- The state after a sequence of events. -/
def Server.run (sv : Server) (evs : List Event) : Server := evs.foldl Server.step sv

/-! ## Sequences of calls and events -/

/-- A call of `shouldThrottleEvent`: its arguments and the reading of `Date.now()`
when it runs. -/
structure ThrottleCall where
  socketId : String
  eventType : String
  minIntervalMs : Int
  now : Int
  deriving DecidableEq

/-- The throttle table after a sequence of `shouldThrottleEvent` calls. -/
def runCalls (tbl : ThrottleTable) (calls : List ThrottleCall) : ThrottleTable :=
  calls.foldl
    (fun t c => (shouldThrottleEvent t c.now c.socketId c.eventType c.minIntervalMs).2) tbl

/-! ## Concrete inputs -/

/-- A slider `userAction` payload with only `type` set. -/
def sliderAction : ActionData :=
  { type := .str "slider", userId := .undefined, time := .undefined, payload := .undefined }

/-- The handshake of a connection with the given socket id and drawn `userId`. -/
def handshakeOf (socketId userId : String) : Handshake :=
  { socketId := socketId, userId := userId, clientIp := "203.0.113.7",
    userAgent := "Mozilla/5.0", latest := none }

/-- The connections of `n` sockets `s0`, `s1`, ... one millisecond apart. -/
def connections : Nat → List Event
  | 0 => []
  | n + 1 =>
    connections n ++
      [.connection (handshakeOf ("s" ++ toString n) ("user-" ++ toString n)) ⟨1000 + n, "10:00"⟩]

/-- Fifty connections, then the first socket disconnects. -/
def overflowTrace : List Event :=
  connections 50 ++ [.disconnect "s0" "transport close" ⟨5000, "10:00"⟩]

/-- A `userConnected` payload whose `userId` is the number 42. -/
def numericAnnounce : AnnounceData := { userId := .num 42, clientInfo := .undefined }

/-- One session connects and its disconnect handler runs. -/
def endedSessionTrace : List Event :=
  [ .connection (handshakeOf "a" "0a1b2c3d-0000") ⟨1000, "10:00"⟩,
    .disconnect "a" "transport close" ⟨9000, "10:00"⟩ ]

/-- The sessions `S1`, `S2` and `S3` connect. -/
def threeSessions : List Event :=
  [ .connection (handshakeOf "S1" "0a1b2c3d-0000") ⟨1000, "10:00"⟩,
    .connection (handshakeOf "S2" "4e5f6a7b-0000") ⟨1100, "10:00"⟩,
    .connection (handshakeOf "S3" "8c9d0e1f-0000") ⟨1200, "10:00"⟩ ]

/-- The activity record of the slider action `S2` sends at reading 5000. -/
def sliderRecord : ActivityRecord :=
  { type := .str "slider", userId := "4e5f6a7b", time := .str "10:00", timestamp := 5000,
    data := .object, reason := none }

/-! ## Bursts of actions and further concrete inputs -/

/-- What a sequence of `userAction` events of one socket did: `userStats`
afterwards, the messages emitted in order, and how many of the events were passed
to `handleUserAction`. -/
structure BurstOutcome where
  stats : UserStats
  emitted : List Msg
  handled : Nat
  deriving DecidableEq

/-- Whether the `userAction` handler, run in state `us`, passes the event on to
`handleUserAction` (it returns early for a throttled slider event). -/
def reachesHandler (us : UserStats) (socket : Socket) (d : ActionData) (clk : Clock) : Bool :=
  !(decide (d.type = .str "slider") &&
    (shouldThrottleEvent us.lastEmitTime clk.now socket.id "slider" 300).1)

/-- The `userAction` handler of one socket run on a sequence of payloads, each with
the clock readings of its run. -/
def runUserActions (us : UserStats) (socket : Socket) : List (ActionData × Clock) → BurstOutcome
  | [] => { stats := us, emitted := [], handled := 0 }
  | e :: rest =>
    let out := onUserAction us socket (some e.1) e.2
    let r := runUserActions out.stats socket rest
    { stats := r.stats, emitted := out.emitted ++ r.emitted,
      handled := (if reachesHandler us socket e.1 e.2 then 1 else 0) + r.handled }

/-- A `userAction` payload of type `click` with only `type` set. -/
def clickAction : ActionData :=
  { type := .str "click", userId := .undefined, time := .undefined, payload := .undefined }

/-- A slider `userAction` payload whose `userId` is the number 42. -/
def numericSliderAction : ActionData :=
  { type := .str "slider", userId := .num 42, time := .undefined, payload := .undefined }

/-- A `click` `userAction` payload whose `userId` is the number 42. -/
def numericClickAction : ActionData :=
  { type := .str "click", userId := .num 42, time := .undefined, payload := .undefined }

/-- The socket object of session `S2` of `threeSessions`. -/
def socketS2 : Socket := { id := "S2", userId := "4e5f6a7b-0000", customId := .undefined }

/-- Session `a` connects at reading 1000 and sends a `click` action at 5000. -/
def recentActivityTrace : List Event :=
  [ .connection (handshakeOf "a" "0a1b2c3d-0000") ⟨1000, "10:00"⟩,
    .userAction "a" (some clickAction) ⟨5000, "10:00"⟩ ]

/-- Session `a` connects at reading 1000 and sends a `click` action at 190000. -/
def longSessionTrace : List Event :=
  [ .connection (handshakeOf "a" "0a1b2c3d-0000") ⟨1000, "10:00"⟩,
    .userAction "a" (some clickAction) ⟨190000, "10:03"⟩ ]

/-- Sessions `a` and `b` connect and `b` announces the number 42 as its identity. -/
def numericPeerTrace : List Event :=
  [ .connection (handshakeOf "a" "0a1b2c3d-0000") ⟨1000, "10:00"⟩,
    .connection (handshakeOf "b" "4e5f6a7b-0000") ⟨2000, "10:00"⟩,
    .userConnected "b" (some numericAnnounce) ]

/-- A `userConnected` payload that announces the identity `alice-01234`. -/
def aliceAnnounce : AnnounceData := { userId := .str "alice-01234", clientInfo := .undefined }

/-- The entry of the presence snapshot for a registry value whose announced
identity is absent or a string: the first 8 characters of `customId` if it is a
non-empty string, otherwise of `userId`, and `connectTime`. -/
def presenceEntryOf (user : UserInfo) : PresenceEntry :=
  match user.customId with
  | .str s =>
    if s = "" then { id := substring8 user.userId, connectTime := user.connectTime }
    else { id := substring8 s, connectTime := user.connectTime }
  | _ => { id := substring8 user.userId, connectTime := user.connectTime }

/-- The registry value of session `S2` of `threeSessions`. -/
def infoS2 : UserInfo :=
  { userId := "4e5f6a7b-0000", connectTime := 1100, ip := "203.0.113.7",
    userAgent := "Mozilla/5.0", customId := .undefined, clientInfo := .undefined }

/-! ## History of user counts, shutdown and recommendations -/

/-- A sequence of `updateUserHistory()` calls, each made when `userStats.currentUsers`
holds the given count and the clock gives the given readings. -/
def runHistoryCalls (us : UserStats) : List (Int × Clock) → UserStats
  | [] => us
  | call :: rest =>
    runHistoryCalls (updateUserHistory { us with currentUsers := call.1 } call.2).1 rest

/-- The calls of `updateUserHistory()` in the `n` consecutive time labels `t0`,
`t1`, ..., one minute apart. -/
def minuteCalls : Nat → List (Int × Clock)
  | 0 => []
  | n + 1 => minuteCalls n ++ [(3, ⟨60000 * n, "t" ++ toString n⟩)]

/-- The calls `shouldThrottleEvent(socketId, eventType, minIntervalMs)` made at the
given clock readings. -/
def keyCalls (socketId eventType : String) (minIntervalMs : Int) (times : List Int) :
    List ThrottleCall :=
  times.map (fun t => ⟨socketId, eventType, minIntervalMs, t⟩)

/-- The resources `gracefulShutdown()` acts on: whether each interval is still
set, whether the Socket.io server is open, whether the HTTP server listens, and
whether the database pool is open. -/
structure Resources where
  cleanupIntervalSet : Bool
  updateIntervalSet : Bool
  socketServerOpen : Bool
  httpListening : Bool
  poolOpen : Bool
  deriving DecidableEq

/-- What a statement of `gracefulShutdown()` brings about. -/
inductive ShutdownEffect where
  | cleanupLoopCancelled : ShutdownEffect
  | updateLoopCancelled : ShutdownEffect
  | noticeSent : ShutdownEffect
  | socketServerClosed : ShutdownEffect
  | httpListenerClosed : ShutdownEffect
  | poolClosed : ShutdownEffect
  | processExit : ShutdownEffect
  deriving DecidableEq

/-- The resources during a shutdown, with the effects brought about so far, in
order. -/
structure ShutdownRun where
  resources : Resources
  effects : List ShutdownEffect
  deriving DecidableEq

/-- The server in operation: both intervals set, everything open. -/
def ShutdownRun.running : ShutdownRun :=
  { resources :=
      { cleanupIntervalSet := true, updateIntervalSet := true, socketServerOpen := true,
        httpListening := true, poolOpen := true }
    effects := [] }

/-- The statement `clearInterval(cleanupInterval)`. -/
def clearCleanupInterval (r : ShutdownRun) : ShutdownRun :=
  if r.resources.cleanupIntervalSet then
    { resources := { r.resources with cleanupIntervalSet := false }
      effects := r.effects ++ [.cleanupLoopCancelled] }
  else r

/-- The statement `clearInterval(updateInterval)`. -/
def clearUpdateInterval (r : ShutdownRun) : ShutdownRun :=
  if r.resources.updateIntervalSet then
    { resources := { r.resources with updateIntervalSet := false }
      effects := r.effects ++ [.updateLoopCancelled] }
  else r

/-- The statement `io.emit('serverShutdown', ...)`: the notice reaches the sessions
while the Socket.io server is open. -/
def emitServerShutdown (r : ShutdownRun) : ShutdownRun :=
  if r.resources.socketServerOpen then { r with effects := r.effects ++ [.noticeSent] }
  else r

/-- The statement `io.close()`: it disconnects the sessions and closes the Socket.io
server; `closesHttpServer` tells whether the library then closes the HTTP server
the Socket.io server is attached to. -/
def ioClose (closesHttpServer : Bool) (r : ShutdownRun) : ShutdownRun :=
  if r.resources.socketServerOpen then
    let r1 : ShutdownRun :=
      { resources := { r.resources with socketServerOpen := false }
        effects := r.effects ++ [.socketServerClosed] }
    if closesHttpServer && r1.resources.httpListening then
      { resources := { r1.resources with httpListening := false }
        effects := r1.effects ++ [.httpListenerClosed] }
    else r1
  else r

/-- The statement `await pool.end()` inside its `try`: `endOk` tells whether the
pool closes; a failure is caught and logged. -/
def poolEnd (endOk : Bool) (r : ShutdownRun) : ShutdownRun :=
  if r.resources.poolOpen && endOk then
    { resources := { r.resources with poolOpen := false }
      effects := r.effects ++ [.poolClosed] }
  else r

/-- The statement `server.close(() => process.exit(0))`: the listener is closed if
it still listens, and the callback, which ignores its error argument, ends the
process. -/
def serverClose (r : ShutdownRun) : ShutdownRun :=
  let r1 : ShutdownRun :=
    if r.resources.httpListening then
      { resources := { r.resources with httpListening := false }
        effects := r.effects ++ [.httpListenerClosed] }
    else r
  { r1 with effects := r1.effects ++ [.processExit] }

/-- The function `gracefulShutdown()`: its statements in their order. -/
def gracefulShutdown (closesHttpServer endOk : Bool) (r : ShutdownRun) : ShutdownRun :=
  serverClose (poolEnd endOk (ioClose closesHttpServer
    (emitServerShutdown (clearUpdateInterval (clearCleanupInterval r)))))

/-- Whether effect `a` comes about before effect `b` in the list `effects`. -/
def cameBefore (a b : ShutdownEffect) (effects : List ShutdownEffect) : Bool :=
  decide (a ∈ effects) && decide (b ∈ effects) &&
    decide (effects.indexOf a < effects.indexOf b)

/-- The fields of a recommendation payload that both paths validate: `none` is a
missing field (`undefined`), `some n` the finite number `n` (a fractional number
behaves like a nonzero one). -/
structure RecommendationData where
  percepcion : Option Int
  accion1 : Option Int
  accion2 : Option Int
  accion3 : Option Int
  accion4 : Option Int
  deriving DecidableEq

/-- JavaScript truthiness of a payload field. -/
def fieldTruthy : Option Int → Bool
  | none => false
  | some n => n != 0

/-- The validation of `POST /guardar-recomendacion`: no field is `undefined`, and
no converted value is `NaN` (`parseFloat(String(n))` of a finite number never
is). -/
def guardarRecomendacionValidates (d : RecommendationData) : Bool :=
  !(d.percepcion.isNone || d.accion1.isNone || d.accion2.isNone || d.accion3.isNone ||
    d.accion4.isNone)

/-- Whether `c` is one of the white-space or line-terminator characters that
`Number(string)` strips from both ends of the string. -/
def isStrWhiteSpaceChar (c : Char) : Bool :=
  c.toNat = 0x09 || c.toNat = 0x0A || c.toNat = 0x0B || c.toNat = 0x0C || c.toNat = 0x0D ||
  c.toNat = 0x20 || c.toNat = 0xA0 || c.toNat = 0x1680 ||
  (decide (0x2000 ≤ c.toNat) && decide (c.toNat ≤ 0x200A)) ||
  c.toNat = 0x2028 || c.toNat = 0x2029 || c.toNat = 0x202F || c.toNat = 0x205F ||
  c.toNat = 0x3000 || c.toNat = 0xFEFF

/-- The exponent part of a decimal literal after its `e` or `E`: an optional sign
and at least one digit. -/
def isExponentDigits (l : List Char) : Bool :=
  match l with
  | [] => false
  | c :: r =>
    if c = '+' ∨ c = '-' then !r.isEmpty && r.all Char.isDigit
    else l.all Char.isDigit

/-- The rest of a decimal literal after its dot; `seen` tells whether a digit of
the mantissa has been read. -/
def isFractionRest (seen : Bool) : List Char → Bool
  | [] => seen
  | c :: r =>
    if c.isDigit then isFractionRest true r
    else if c = 'e' ∨ c = 'E' then seen && isExponentDigits r
    else false

/-- The rest of a decimal literal before its dot; `seen` tells whether a digit has
been read. -/
def isDecimalRest (seen : Bool) : List Char → Bool
  | [] => seen
  | c :: r =>
    if c.isDigit then isDecimalRest true r
    else if c = '.' then isFractionRest seen r
    else if c = 'e' ∨ c = 'E' then seen && isExponentDigits r
    else false

/-- Whether `l` is a decimal literal of `Number(string)`: an optional sign, then
`Infinity` or digits with an optional fraction and exponent. -/
def isStrDecimalLiteral (l : List Char) : Bool :=
  let unsigned : List Char :=
    match l with
    | [] => []
    | c :: r => if c = '+' ∨ c = '-' then r else l
  unsigned == "Infinity".data || isDecimalRest false unsigned

/-- Whether `l` is a binary, octal or hexadecimal integer literal of
`Number(string)`. -/
def isNonDecimalLiteral (l : List Char) : Bool :=
  match l with
  | z :: x :: r =>
    z = '0' && !r.isEmpty &&
      (((x = 'x' || x = 'X') &&
          r.all (fun c => c.isDigit || (decide ('a' ≤ c) && decide (c ≤ 'f')) ||
            (decide ('A' ≤ c) && decide (c ≤ 'F')))) ||
        ((x = 'o' || x = 'O') && r.all (fun c => decide ('0' ≤ c) && decide (c ≤ '7'))) ||
        ((x = 'b' || x = 'B') && r.all (fun c => c = '0' || c = '1')))
  | _ => false

/-- The call `isNaN(s)` on a string: `Number(s)` is `NaN` unless `s`, stripped of
white space at both ends, is empty or a numeric literal. -/
def isNaNString (s : String) : Bool :=
  let stripped :=
    ((s.data.dropWhile isStrWhiteSpaceChar).reverse.dropWhile isStrWhiteSpaceChar).reverse
  !(stripped.isEmpty || isNonDecimalLiteral stripped || isStrDecimalLiteral stripped)

/-- The function `formatTimestampForMySQL(isoTimestamp)` on a string that
`toISOString()` produced (`new Date(s).toISOString()` gives such a string back):
its first 19 characters with the first `T` replaced by a space. -/
def formatTimestampForMySQL (isoTimestamp : String) : String :=
  let sliced := isoTimestamp.data.take 19
  String.mk (sliced.takeWhile (fun c => c != 'T') ++
    (match sliced.dropWhile (fun c => c != 'T') with
      | [] => []
      | _ :: r => ' ' :: r))

/-- An element of the array `values` of `handleNewRecommendation`: the result of
`Number(field)` (`none` is `NaN`, which `Number(undefined)` gives) or the timestamp
string. -/
inductive InsertValue where
  | number (n : Option Int) : InsertValue
  | text (s : String) : InsertValue
  deriving DecidableEq

/-- The test `isNaN(val) || val === null` of `handleNewRecommendation` on one
element of `values`; no element is `null`. -/
def InsertValue.isNaNOrNull : InsertValue → Bool
  | .number n => n.isNone
  | .text s => isNaNString s

/-- The function `handleNewRecommendation(data)`: `true` when the record was stored
and broadcast. `currentTime` is the reading `new Date().toISOString()`, `insertOk`
tells whether `pool.execute` succeeds. A falsy field raises inside the `try` block
and so does an element of `values` (the five numbers and the timestamp string) on
which `isNaN` is true; the `catch` returns `false`. -/
def handleNewRecommendation (d : RecommendationData) (currentTime : String) (insertOk : Bool) :
    Bool :=
  if !fieldTruthy d.percepcion || !fieldTruthy d.accion1 || !fieldTruthy d.accion2 ||
      !fieldTruthy d.accion3 || !fieldTruthy d.accion4 then false
  else
    let mysqlTimestamp := formatTimestampForMySQL currentTime
    let values : List InsertValue :=
      [.number d.accion1, .number d.accion2, .number d.accion3, .number d.accion4,
       .number d.percepcion, .text mysqlTimestamp]
    if values.any InsertValue.isNaNOrNull then false
    else insertOk

/-- The handler `socket.on('recommendation', ...)`: `none` when it does not call
`handleNewRecommendation`, otherwise the value that call returns. -/
def onRecommendation (data : Option RecommendationData) (currentTime : String)
    (insertOk : Bool) : Option Bool :=
  match data with
  | none => none
  | some d =>
    if fieldTruthy d.percepcion then some (handleNewRecommendation d currentTime insertOk)
    else none

/-- A recommendation whose five fields are nonzero numbers. -/
def plainRecommendation : RecommendationData :=
  { percepcion := some 7, accion1 := some 1, accion2 := some 2, accion3 := some 3,
    accion4 := some 4 }

/-! ## The client: reconnection and the perception chart -/

/-- The function `handleReconnection()` of `users-counter.js`, run when
`reconnectAttempts` holds the given value: the new value and the delay in ms of
the reconnection attempt it schedules (`none`: it schedules none). -/
def handleReconnection (reconnectAttempts : Nat) : Nat × Option Nat :=
  let attempts := reconnectAttempts + 1
  if attempts > 10 then (attempts, none)
  else (attempts, some (min (1000 * attempts) 5000))

/-- The variables of `users-counter.js` that reconnection reads and assigns. -/
structure ReconnectState where
  reconnectAttempts : Nat
  pendingReconnect : Bool
  deriving DecidableEq

/-- The variables as the script initialises them. -/
def ReconnectState.init : ReconnectState := { reconnectAttempts := 0, pendingReconnect := false }

/-- The socket events of the client whose listeners touch those variables. -/
inductive SocketEvent where
  | connect : SocketEvent
  | disconnect (reason : String) : SocketEvent
  | connectError : SocketEvent
  deriving DecidableEq

/-- The statement `if (!pendingReconnect) { pendingReconnect = true;
handleReconnection(); }` of both call sites: the variables afterwards and, when
`handleReconnection` was called, what it scheduled. -/
def reconnectOnce (st : ReconnectState) : ReconnectState × Option (Option Nat) :=
  if !st.pendingReconnect then
    let r := handleReconnection st.reconnectAttempts
    ({ reconnectAttempts := r.1, pendingReconnect := true }, some r.2)
  else (st, none)

/-- The listeners of `connect`, `disconnect` (through `handleDisconnection`) and
`connect_error`: the variables afterwards and, when `handleReconnection` was
called, the delay of the attempt it scheduled (`some none`: called, none
scheduled). -/
def ReconnectState.handle (st : ReconnectState) :
    SocketEvent → ReconnectState × Option (Option Nat)
  | .connect => ({ reconnectAttempts := 0, pendingReconnect := false }, none)
  | .disconnect reason =>
    if reason ≠ "io client disconnect" ∧ reason ≠ "io server disconnect" then reconnectOnce st
    else (st, none)
  | .connectError => reconnectOnce st

/-- The variables after a sequence of socket events, with the number of calls of
`handleReconnection` made since the last `connect` event (since the page was
loaded when there was none). -/
def runClient (evs : List SocketEvent) : ReconnectState × Nat :=
  evs.foldl (fun acc ev =>
    let out := acc.1.handle ev
    (out.1,
      match ev with
      | .connect => 0
      | _ => if out.2.isSome then acc.2 + 1 else acc.2)) (ReconnectState.init, 0)

/-- An element of `actionHistory`, reduced to what `filterChartByTimeFrame` reads:
the instant of its `timestamp` (`none`: the string is not a date). -/
structure ActionPoint where
  timestamp : Option Int
  deriving DecidableEq

/-- The histories and the chart data of `main.js`, for an initialised
`perceptionChart`; a label is `none` when it is `undefined`. -/
structure ChartState where
  perceptionHistory : List Int
  actionHistory : List ActionPoint
  labels : List (Option String)
  data : List Int
  originalData : Option (List (Option String) × List Int)
  deriving DecidableEq

/-- The state when the chart has been created and no point added. -/
def ChartState.init : ChartState :=
  { perceptionHistory := [], actionHistory := [], labels := [], data := [],
    originalData := none }

/-- The call `l.slice(-n)`. -/
def sliceLast {α : Type} (n : Nat) (l : List α) : List α := l.drop (l.length - n)

/-- The function `addNewDataPoint(perception, actions, options)` on an initialised
chart; `timestamp` is the instant of the point's timestamp and `label` its
`toLocaleTimeString()`. -/
def addNewDataPoint (st : ChartState) (perception : Int) (timestamp : Option Int)
    (label : String) : ChartState :=
  let perceptionHistory := st.perceptionHistory ++ [perception]
  let actionHistory := st.actionHistory ++ [{ timestamp := timestamp }]
  let labels := st.labels ++ [some label]
  let data := st.data ++ [perception]
  let maxVisiblePoints := 100
  if labels.length > maxVisiblePoints then
    { st with
      perceptionHistory := sliceLast maxVisiblePoints perceptionHistory
      actionHistory := sliceLast maxVisiblePoints actionHistory
      labels := sliceLast maxVisiblePoints labels
      data := sliceLast maxVisiblePoints data }
  else
    { st with
      perceptionHistory := perceptionHistory, actionHistory := actionHistory,
      labels := labels, data := data }

/-- The instant `limitTime` of `filterChartByTimeFrame` for a time frame other than
`all`, when the clock reads `now`. -/
def limitTime (timeFrame : String) (now : Int) : Int :=
  if timeFrame = "10m" then now - 10 * 60 * 1000
  else if timeFrame = "30m" then now - 30 * 60 * 1000
  else if timeFrame = "1h" then now - 60 * 60 * 1000
  else if timeFrame = "2h" then now - 2 * 60 * 60 * 1000
  else 0

/-- The function `filterChartByTimeFrame(timeFrame)` on an initialised chart when
the clock reads `now`. The histories are read, never assigned; when the loop
reads an index that `actionHistory` lacks, the `TypeError` leaves the chart data
as they were. -/
def filterChartByTimeFrame (st : ChartState) (timeFrame : String) (now : Int) : ChartState :=
  if st.perceptionHistory.length = 0 then st
  else
    let st1 : ChartState :=
      match st.originalData with
      | none => { st with originalData := some (st.labels, st.data) }
      | some _ => st
    if timeFrame = "all" then st1
    else
      let limit := limitTime timeFrame now
      let maxPoints := 100
      let startIdx := st1.perceptionHistory.length - maxPoints
      let visited := (List.range st1.perceptionHistory.length).filter
        (fun i => decide (startIdx ≤ i))
      if visited.any (fun i => (st1.actionHistory.get? i).isNone) then st1
      else
        let kept := visited.filter (fun i =>
          match st1.actionHistory.get? i with
          | some point =>
            (match point.timestamp with
              | some pointTime => decide (pointTime ≥ limit)
              | none => false)
          | none => false)
        { st1 with
          labels := kept.map (fun i => st1.labels.getD i none)
          data := kept.map (fun i => st1.perceptionHistory.getD i 0) }

/-- A call of one of the two chart functions. -/
inductive ChartCall where
  | add (perception : Int) (timestamp : Option Int) (label : String) : ChartCall
  | filter (timeFrame : String) (now : Int) : ChartCall
  deriving DecidableEq

/-- The chart state after a sequence of calls. -/
def runChart (st : ChartState) (calls : List ChartCall) : ChartState :=
  calls.foldl (fun s c =>
    match c with
    | .add perception timestamp label => addNewDataPoint s perception timestamp label
    | .filter timeFrame now => filterChartByTimeFrame s timeFrame now) st

/-- The additions of `n` points, one second apart from instant `start`. -/
def addPoints (start : Int) : Nat → List ChartCall
  | 0 => []
  | n + 1 => addPoints start n ++ [.add 5 (some (start + 1000 * n)) "12:00:00"]

/-- One point is added at instant 0, the ten-minute filter is applied eleven minutes
later and empties the chart, then 100 points are added. -/
def staleFilterCalls : List ChartCall :=
  [.add 5 (some 0) "00:00:00", .filter "10m" 660000] ++ addPoints 660000 100

/-- Session `S1` connects and announces the identity `alice-01234`. -/
def announcedTrace : List Event :=
  [ .connection (handshakeOf "S1" "0a1b2c3d-0000") ⟨1000, "10:00"⟩,
    .userConnected "S1" (some aliceAnnounce) ]

/-- A `click` payload that names `mallory-000` as its `userId`. -/
def spoofedClickAction : ActionData :=
  { type := .str "click", userId := .str "mallory-000", time := .undefined,
    payload := .undefined }

/-! ## The server with its transport -/

/-- What the server and the transport hold of one socket: the socket object,
whether the connection handler has got past `await pool.query` and registered the
socket's handlers, and whether the transport still holds the socket (it is in
`io.sockets.sockets`, with `connected` true, from its connection until the
transport closes it). -/
structure Link where
  socket : Socket
  listening : Bool
  connected : Bool
  deriving DecidableEq

/-- The server at run time: `userStats` and the sockets that have connected. -/
structure Runtime where
  userStats : UserStats
  links : JsMap Link
  deriving DecidableEq

/-- The server before any connection. -/
def Runtime.init : Runtime := { userStats := UserStats.init, links := [] }

/-- What the transport, the database and the timers deliver to the server.
`connection` starts the connection handler, which runs up to `await pool.query`;
`querySettled` resumes it when the query has settled (`latest` as in `Handshake`);
`disconnect` is the transport closing the socket. The events `recommendation` and
`userLeaving` neither read nor assign `userStats` and are left out. -/
inductive Delivery where
  | connection (hs : Handshake) (clk : Clock) : Delivery
  | querySettled (socketId : String) (latest : Option Nat) : Delivery
  | disconnect (socketId : String) (reason : String) (clk : Clock) : Delivery
  | userConnected (socketId : String) (data : Option AnnounceData) : Delivery
  | userAction (socketId : String) (data : Option ActionData) (clk : Clock) : Delivery
  | requestUserStats (socketId : String) : Delivery
  | ping (socketId : String) (clk : Clock) : Delivery
  | requestActiveUsers (socketId : String) : Delivery
  | cleanup (clk : Clock) : Delivery
  | periodicUpdate : Delivery
  deriving DecidableEq

/-- The map `io.sockets.sockets` with the `connected` flag of each socket: the
transport holds exactly the sockets it has not closed, and each of them is
connected. -/
def Runtime.transport (rt : Runtime) : JsMap Bool :=
  (rt.links.filter (fun e => e.2.connected)).map (fun e => (e.1, true))

/-- The socket whose handlers an event named `socketId` reaches: the handlers are
registered and the transport has not closed the socket. -/
def Runtime.listener (rt : Runtime) (socketId : String) : Option Link :=
  match JsMap.get rt.links socketId with
  | none => none
  | some link => if link.listening && link.connected then some link else none

/-- The outcome when no handler runs. -/
def Outcome.idle (us : UserStats) : Outcome := { stats := us, emitted := [], threw := false }

/-- The server's reaction to one delivery: the state afterwards and the outcome of
the handler run. `connection` runs the connection handler up to its `await`
(`onConnection` without the message that follows the query) and `querySettled`
the rest of it: the message `initialRecommendations` when the query gave rows,
and the registration of the socket's handlers. An event of a socket whose handlers
are not registered yet, or which the transport has closed, runs no handler; the
transport closes a socket once. -/
def Runtime.handle (rt : Runtime) : Delivery → Runtime × Outcome
  | .connection hs clk =>
    let out := onConnection rt.userStats { hs with latest := none } clk
    ({ userStats := out.stats,
       links := JsMap.set rt.links hs.socketId
         { socket := { id := hs.socketId, userId := hs.userId, customId := .undefined },
           listening := false, connected := true } }, out)
  | .querySettled socketId latest =>
    match JsMap.get rt.links socketId with
    | none => (rt, Outcome.idle rt.userStats)
    | some link =>
      if link.listening then (rt, Outcome.idle rt.userStats)
      else
        ({ rt with links := JsMap.set rt.links socketId { link with listening := true } },
         { stats := rt.userStats,
           emitted :=
             match latest with
             | some rows =>
               if rows > 0 then [⟨.only socketId, .initialRecommendations rows⟩] else []
             | none => [],
           threw := false })
  | .disconnect socketId reason clk =>
    match JsMap.get rt.links socketId with
    | none => (rt, Outcome.idle rt.userStats)
    | some link =>
      if link.connected then
        let links := JsMap.set rt.links socketId { link with connected := false }
        if link.listening then
          let out := onDisconnect rt.userStats link.socket reason clk
          ({ userStats := out.stats, links := links }, out)
        else ({ rt with links := links }, Outcome.idle rt.userStats)
      else (rt, Outcome.idle rt.userStats)
  | .userConnected socketId data =>
    match rt.listener socketId with
    | none => (rt, Outcome.idle rt.userStats)
    | some link =>
      let r := onUserConnected rt.userStats link.socket data
      ({ userStats := r.1.stats,
         links := JsMap.set rt.links socketId { link with socket := r.2 } }, r.1)
  | .userAction socketId data clk =>
    match rt.listener socketId with
    | none => (rt, Outcome.idle rt.userStats)
    | some link =>
      let out := onUserAction rt.userStats link.socket data clk
      ({ rt with userStats := out.stats }, out)
  | .requestUserStats socketId =>
    match rt.listener socketId with
    | none => (rt, Outcome.idle rt.userStats)
    | some link =>
      let out := onRequestUserStats rt.userStats link.socket
      ({ rt with userStats := out.stats }, out)
  | .ping socketId clk =>
    match rt.listener socketId with
    | none => (rt, Outcome.idle rt.userStats)
    | some link =>
      let out := onPing rt.userStats link.socket clk
      ({ rt with userStats := out.stats }, out)
  | .requestActiveUsers socketId =>
    match rt.listener socketId with
    | none => (rt, Outcome.idle rt.userStats)
    | some link =>
      let out := onRequestActiveUsers rt.userStats link.socket
      ({ rt with userStats := out.stats }, out)
  | .cleanup clk =>
    let out := cleanupSweep rt.userStats rt.transport clk
    ({ rt with userStats := out.stats }, out)
  | .periodicUpdate =>
    let out := periodicUpdate rt.userStats
    ({ rt with userStats := out.stats }, out)

/-- The state after one delivery. -/
def Runtime.step (rt : Runtime) (ev : Delivery) : Runtime := (rt.handle ev).1

/-- The state after a sequence of deliveries. -/
def Runtime.run (rt : Runtime) (evs : List Delivery) : Runtime := evs.foldl Runtime.step rt

/-- Whether delivery `ev`, arriving in state `rt`, is one the transport can make:
the id of a new connection has not been the id of an earlier socket and holds no
colon. -/
def Runtime.admits (rt : Runtime) : Delivery → Bool
  | .connection hs _ => !JsMap.has rt.links hs.socketId && decide (':' ∉ hs.socketId.data)
  | _ => true

/-- Whether every delivery of a sequence, run from state `rt`, is one the transport
can make. -/
def Runtime.admitsAll : Runtime → List Delivery → Bool
  | _, [] => true
  | rt, ev :: evs => rt.admits ev && Runtime.admitsAll (rt.step ev) evs

/-- What holds of the server in every state it reaches: no key occurs twice in the
registry or among the sockets; the counter is the size of the registry; a socket
is stored under its own id, which holds no colon; every registered session has its
socket; the session of a socket the transport holds is registered; and every key
of the throttle table is built from the id of a socket the transport holds and
whose handlers are registered. -/
structure Runtime.Sound (rt : Runtime) : Prop where
  nodup : (JsMap.keys rt.userStats.activeUsers).Nodup
  linkKeys : (JsMap.keys rt.links).Nodup
  counter : rt.userStats.currentUsers = JsMap.size rt.userStats.activeUsers
  ids : ∀ k l, JsMap.get rt.links k = some l → l.socket.id = k ∧ ':' ∉ k.data
  known : ∀ k, JsMap.has rt.userStats.activeUsers k = true → JsMap.has rt.links k = true
  live : ∀ k l, JsMap.get rt.links k = some l → l.connected = true →
    JsMap.has rt.userStats.activeUsers k = true
  owned : ∀ key ∈ JsMap.keys rt.userStats.lastEmitTime,
    ∃ s eventType l, key = lastEmitKey s eventType ∧ JsMap.get rt.links s = some l ∧
      l.connected = true ∧ l.listening = true

/-- The values an outcome shows to clients as the number of users are the counter
it leaves: `userCount`, the `activeUsers` field of `pong` and the `current` field
of `userStats`. -/
def Outcome.countsAgree (out : Outcome) : Prop :=
  ∀ msg ∈ out.emitted,
    (∀ n, msg.payload = .userCount n → n = out.stats.currentUsers) ∧
    (∀ ts n, msg.payload = .pong ts n → n = out.stats.currentUsers) ∧
    (∀ cur today total history activity,
      msg.payload = .userStats cur today total history activity →
        cur = out.stats.currentUsers)

/-- Whether a delivery is a connection. -/
def Delivery.isConnection : Delivery → Bool
  | .connection _ _ => true
  | _ => false

/-- Whether a delivery is the settling of the query of a connection handler. -/
def Delivery.isQuerySettled : Delivery → Bool
  | .querySettled _ _ => true
  | _ => false

/-- Whether a delivery is the closing of a socket. -/
def Delivery.isDisconnect : Delivery → Bool
  | .disconnect _ _ _ => true
  | _ => false

/-- The number of connections of a sequence of deliveries. -/
def countConnections (evs : List Delivery) : Nat := evs.countP Delivery.isConnection

/-- Whether delivery `ev`, arriving in state `rt`, is a disconnect whose handler
runs and finds the socket's id in `userStats.activeUsers`. -/
def foundDisconnect (rt : Runtime) : Delivery → Bool
  | .disconnect socketId _ _ =>
    (rt.listener socketId).isSome && JsMap.has rt.userStats.activeUsers socketId
  | _ => false

/-- The number of disconnects of a sequence, run from state `rt`, whose handler ran
and found its session in the registry. -/
def foundDisconnects : Runtime → List Delivery → Nat
  | _, [] => 0
  | rt, ev :: evs => (if foundDisconnect rt ev then 1 else 0) + foundDisconnects (rt.step ev) evs

/-- Socket `a` connects, its handlers are registered and it drags a slider; socket
`b` connects and the transport closes it before its query settles. -/
def ghostTrace : List Delivery :=
  [ .connection (handshakeOf "a" "0a1b2c3d-0000") ⟨1000, "10:00"⟩,
    .querySettled "a" none,
    .userAction "a" (some sliderAction) ⟨5000, "10:00"⟩,
    .connection (handshakeOf "b" "4e5f6a7b-0000") ⟨6000, "10:00"⟩,
    .disconnect "b" "transport close" ⟨6010, "10:00"⟩,
    .querySettled "b" none ]

/-- Sockets `a` and `b` connect; the query of `a` settles and `a` is closed; `b` is
closed before its query settles. -/
def closingTrace : List Delivery :=
  [ .connection (handshakeOf "a" "0a1b2c3d-0000") ⟨1000, "10:00"⟩,
    .connection (handshakeOf "b" "4e5f6a7b-0000") ⟨2000, "10:00"⟩,
    .querySettled "a" none,
    .disconnect "a" "transport close" ⟨3000, "10:00"⟩,
    .disconnect "b" "transport close" ⟨3500, "10:00"⟩,
    .querySettled "b" none ]

/-- The state of `Server` that a run-time state shows to the handlers: the same
`userStats`, and the socket object of every socket that has connected. -/
def Runtime.toServer (rt : Runtime) : Server :=
  { userStats := rt.userStats, sockets := rt.links.map (fun e => (e.1, e.2.socket)) }

/-- The handler run of `Server` that a delivery amounts to in state `rt`; `none`
when no handler that touches `userStats` runs: the query settles, or the socket
has no handlers yet or is closed. -/
def Runtime.eventOf (rt : Runtime) : Delivery → Option Event
  | .connection hs clk => some (.connection { hs with latest := none } clk)
  | .querySettled _ _ => none
  | .disconnect socketId reason clk =>
    match JsMap.get rt.links socketId with
    | none => none
    | some link =>
      if link.connected && link.listening then some (.disconnect socketId reason clk) else none
  | .userConnected socketId data =>
    (rt.listener socketId).map (fun _ => .userConnected socketId data)
  | .userAction socketId data clk =>
    (rt.listener socketId).map (fun _ => .userAction socketId data clk)
  | .requestUserStats socketId =>
    (rt.listener socketId).map (fun _ => .requestUserStats socketId)
  | .ping socketId clk => (rt.listener socketId).map (fun _ => .ping socketId clk)
  | .requestActiveUsers socketId =>
    (rt.listener socketId).map (fun _ => .requestActiveUsers socketId)
  | .cleanup clk => some (.cleanup rt.transport clk)
  | .periodicUpdate => some .periodicUpdate

/-! ## Lemmas on `JsMap` -/

namespace JsMap

variable {β : Type}

theorem get_set_self (m : JsMap β) (k : String) (v : β) : get (set m k v) k = some v := by
  induction m with
  | nil => simp [set, get]
  | cons e m ih =>
    obtain ⟨k', v'⟩ := e
    by_cases h : k' = k
    · simp [set, get, h]
    · simp [set, get, h, ih]

theorem get_set_ne (m : JsMap β) (k k' : String) (v : β) (h : k' ≠ k) :
    get (set m k v) k' = get m k' := by
  induction m with
  | nil => simp [set, get, Ne.symm h]
  | cons e m ih =>
    obtain ⟨k0, v0⟩ := e
    by_cases h0 : k0 = k
    · subst h0
      simp [set, get, Ne.symm h]
    · by_cases h1 : k0 = k'
      · subst h1
        simp [set, get, h0]
      · simp [set, get, h0, h1, ih]

theorem keys_set_of_get (m : JsMap β) (k : String) (v w : β) (h : get m k = some w) :
    keys (set m k v) = keys m := by
  induction m with
  | nil => simp [get] at h
  | cons e m ih =>
    obtain ⟨k0, v0⟩ := e
    by_cases h0 : k0 = k
    · simp [set, keys, h0]
    · simp only [get, h0, if_false] at h
      have := ih h
      simp only [keys] at this
      simp [set, keys, h0, this]

theorem get_eq_none_iff (m : JsMap β) (k : String) : get m k = none ↔ k ∉ keys m := by
  induction m with
  | nil => simp [get, keys]
  | cons e m ih =>
    obtain ⟨k0, v0⟩ := e
    by_cases h0 : k0 = k
    · simp [get, keys, h0]
    · simp only [get, h0, if_false, ih]
      simp [keys, Ne.symm h0]

theorem keys_set_of_get_none (m : JsMap β) (k : String) (v : β) (h : get m k = none) :
    keys (set m k v) = keys m ++ [k] := by
  induction m with
  | nil => simp [set, keys]
  | cons e m ih =>
    obtain ⟨k0, v0⟩ := e
    by_cases h0 : k0 = k
    · simp [get, h0] at h
    · simp only [get, h0, if_false] at h
      have := ih h
      simp only [keys] at this
      simp [set, keys, h0, this]

theorem mem_set (m : JsMap β) (k : String) (v : β) (e : String × β) (he : e ∈ set m k v) :
    e ∈ m ∨ e = (k, v) := by
  induction m with
  | nil => simpa [set] using he
  | cons e0 m ih =>
    obtain ⟨k0, v0⟩ := e0
    by_cases h0 : k0 = k
    · simp only [set, h0, if_true, List.mem_cons] at he
      rcases he with he | he
      · exact Or.inr he
      · exact Or.inl (List.mem_cons_of_mem _ he)
    · simp only [set, h0, if_false, List.mem_cons] at he
      rcases he with he | he
      · exact Or.inl (he ▸ List.mem_cons_self _ _)
      · rcases ih he with h | h
        · exact Or.inl (List.mem_cons_of_mem _ h)
        · exact Or.inr h

theorem delete_of_get_none (m : JsMap β) (k : String) (h : get m k = none) :
    delete m k = m := by
  rw [get_eq_none_iff] at h
  unfold delete
  rw [List.filter_eq_self]
  intro e he
  have : e.1 ∈ keys m := List.mem_map_of_mem Prod.fst he
  have hne : e.1 ≠ k := fun heq => h (heq ▸ this)
  simpa using hne

theorem length_delete_of_get (m : JsMap β) (k : String) (w : β) (h : get m k = some w)
    (hnd : (keys m).Nodup) : (delete m k).length + 1 = m.length := by
  induction m with
  | nil => simp [get] at h
  | cons e m ih =>
    obtain ⟨k0, v0⟩ := e
    simp only [keys, List.map_cons, List.nodup_cons] at hnd
    by_cases h0 : k0 = k
    · subst h0
      have hnone : get m k0 = none := (get_eq_none_iff m k0).2 hnd.1
      have := delete_of_get_none m k0 hnone
      simp only [delete] at this
      simp [delete, this]
    · simp only [get, h0, if_false] at h
      have := ih h hnd.2
      simp only [delete] at this
      simp [delete, h0, this]

theorem keys_delete (m : JsMap β) (k : String) :
    keys (delete m k) = (keys m).filter (fun x => x != k) := by
  induction m with
  | nil => rfl
  | cons e m ih =>
    simp only [keys, delete] at ih
    by_cases h : e.1 = k
    · simp [keys, delete, List.filter_cons, h, ih]
    · simp [keys, delete, List.filter_cons, h, ih]

end JsMap

/-! ## The throttle gate -/

theorem lastOrZero_some (v : Int) : lastOrZero (some v) = v := by
  simp only [lastOrZero]
  split_ifs with h
  · exact h.symm
  · rfl

/-- One call keeps the last admitted reading of key `k` at or above `t1`, when the
call is made at or after `t1` or has a non-negative interval. -/
theorem shouldThrottleEvent_last_mono (tbl : ThrottleTable) (c : ThrottleCall) (k : String)
    (t1 : Int) (hc : t1 ≤ c.now ∨ 0 ≤ c.minIntervalMs)
    (h : t1 ≤ lastOrZero (JsMap.get tbl k)) :
    t1 ≤ lastOrZero (JsMap.get
      (shouldThrottleEvent tbl c.now c.socketId c.eventType c.minIntervalMs).2 k) := by
  unfold shouldThrottleEvent
  simp only
  split_ifs with hlt
  · exact h
  · by_cases hk : k = lastEmitKey c.socketId c.eventType
    · subst hk
      rw [JsMap.get_set_self, lastOrZero_some]
      rcases hc with hc | hc
      · exact hc
      · omega
    · rw [JsMap.get_set_ne _ _ _ _ hk]
      exact h

theorem runCalls_last_mono (calls : List ThrottleCall) (tbl : ThrottleTable) (k : String)
    (t1 : Int) (hc : ∀ c ∈ calls, t1 ≤ c.now ∨ 0 ≤ c.minIntervalMs)
    (h : t1 ≤ lastOrZero (JsMap.get tbl k)) :
    t1 ≤ lastOrZero (JsMap.get (runCalls tbl calls) k) := by
  induction calls generalizing tbl with
  | nil => exact h
  | cons c cs ih =>
    simp only [runCalls, List.foldl_cons]
    apply ih
    · intro c' hc'
      exact hc c' (List.mem_cons_of_mem _ hc')
    · exact shouldThrottleEvent_last_mono tbl c k t1 (hc c (List.mem_cons_self _ _)) h

/-- Claim C1: two calls of `shouldThrottleEvent` for the same socket id and event
type with the same `minIntervalMs`, made at readings `t1` and `t2` with
`t2 - t1 < minIntervalMs`, never both return `false`. The first call starts from
an arbitrary table (so after any earlier calls); between the two calls any
sequence of calls for any keys may run, each of them either made at a reading not
before `t1` (the clock does not run backwards) or with a non-negative interval
(the callers pass 300, 1000 and 2000). With `t1 ≤ t2` the premise
`t2 - t1 < minIntervalMs` forces `minIntervalMs > 0`; neither is needed apart. -/
theorem shouldThrottleEvent_never_both_admitted (tbl : ThrottleTable)
    (between : List ThrottleCall) (socketId eventType : String) (minIntervalMs t1 t2 : Int)
    (hclose : t2 - t1 < minIntervalMs)
    (hbetween : ∀ c ∈ between, t1 ≤ c.now ∨ 0 ≤ c.minIntervalMs) :
    ¬ ((shouldThrottleEvent tbl t1 socketId eventType minIntervalMs).1 = false ∧
       (shouldThrottleEvent
          (runCalls (shouldThrottleEvent tbl t1 socketId eventType minIntervalMs).2 between)
          t2 socketId eventType minIntervalMs).1 = false) := by
  rintro ⟨h1, h2⟩
  have hfirst : t1 ≤ lastOrZero (JsMap.get
      (shouldThrottleEvent tbl t1 socketId eventType minIntervalMs).2
      (lastEmitKey socketId eventType)) := by
    unfold shouldThrottleEvent at h1 ⊢
    simp only at h1 ⊢
    split_ifs at h1 ⊢ with hlt
    rw [JsMap.get_set_self, lastOrZero_some]
  have hmid := runCalls_last_mono between _ _ t1 hbetween hfirst
  revert h2
  generalize runCalls _ between = tbl2 at hmid
  unfold shouldThrottleEvent
  simp only
  split_ifs with hlt
  · simp
  · omega

/-- Witness of C1: a slider event admitted at reading 5000, calls for another key
and for the same key with another interval in between, and the same event again
at reading 5200 with the interval 300. -/
theorem shouldThrottleEvent_never_both_admitted_witness :
    ((5200 : Int) - 5000 < 300) ∧
    (∀ c ∈ [(⟨"s2", "slider", 300, 5100⟩ : ThrottleCall), ⟨"s1", "slider", 50, 5150⟩],
      (5000 : Int) ≤ c.now ∨ 0 ≤ c.minIntervalMs) ∧
    ¬ ((shouldThrottleEvent [] 5000 "s1" "slider" 300).1 = false ∧
       (shouldThrottleEvent
          (runCalls (shouldThrottleEvent [] 5000 "s1" "slider" 300).2
            [⟨"s2", "slider", 300, 5100⟩, ⟨"s1", "slider", 50, 5150⟩])
          5200 "s1" "slider" 300).1 = false) :=
  ⟨by decide, by decide,
    shouldThrottleEvent_never_both_admitted [] _ "s1" "slider" 300 5000 5200
      (by decide) (by decide)⟩

/-- Counterexample to C2 as stated: on the empty table, at clock reading 100 and
with the interval 300, the first event of key `s1:slider` is throttled (the
function returns `true`) and nothing is recorded. -/
theorem shouldThrottleEvent_first_event_dropped :
    JsMap.get ([] : ThrottleTable) (lastEmitKey "s1" "slider") = none ∧
    shouldThrottleEvent [] 100 "s1" "slider" 300 = (true, []) := by
  decide

/-- Claim C2, amended: on a table with no entry for the key of
`(socketId, eventType)`, at a clock reading `now` that is at least
`minIntervalMs`, `shouldThrottleEvent` returns `false` and records `now` under
that key. -/
theorem shouldThrottleEvent_first_event (tbl : ThrottleTable) (now : Int)
    (socketId eventType : String) (minIntervalMs : Int)
    (hnew : JsMap.get tbl (lastEmitKey socketId eventType) = none)
    (hclock : minIntervalMs ≤ now) :
    (shouldThrottleEvent tbl now socketId eventType minIntervalMs).1 = false ∧
    JsMap.get (shouldThrottleEvent tbl now socketId eventType minIntervalMs).2
      (lastEmitKey socketId eventType) = some now := by
  unfold shouldThrottleEvent
  simp only [hnew, lastOrZero]
  have : ¬ (now - 0 < minIntervalMs) := by omega
  simp only [this, if_false, JsMap.get_set_self, and_self]

/-- Witness of the amended C2: the first slider event of `s1` at reading 1000. -/
theorem shouldThrottleEvent_first_event_witness :
    JsMap.get ([("s2:slider", 5)] : ThrottleTable) (lastEmitKey "s1" "slider") = none ∧
    (300 : Int) ≤ 1000 ∧
    (shouldThrottleEvent [("s2:slider", 5)] 1000 "s1" "slider" 300).1 = false ∧
    JsMap.get (shouldThrottleEvent [("s2:slider", 5)] 1000 "s1" "slider" 300).2
      (lastEmitKey "s1" "slider") = some 1000 :=
  ⟨by decide, by decide,
    shouldThrottleEvent_first_event [("s2:slider", 5)] 1000 "s1" "slider" 300
      (by decide) (by decide)⟩

/-- Claim C3: when the key of `(socketId, eventType)` has the recorded timestamp
`last`, `shouldThrottleEvent` returns `true` exactly when
`now - last < minIntervalMs`; when it returns `true` the table is unchanged; when
it returns `false` the key maps to `now`, every other key maps to what it mapped
to before, and the keys and their order are unchanged. -/
theorem shouldThrottleEvent_recorded (tbl : ThrottleTable) (now : Int)
    (socketId eventType : String) (minIntervalMs last : Int)
    (hlast : JsMap.get tbl (lastEmitKey socketId eventType) = some last) :
    ((shouldThrottleEvent tbl now socketId eventType minIntervalMs).1 = true ↔
      now - last < minIntervalMs) ∧
    ((shouldThrottleEvent tbl now socketId eventType minIntervalMs).1 = true →
      (shouldThrottleEvent tbl now socketId eventType minIntervalMs).2 = tbl) ∧
    ((shouldThrottleEvent tbl now socketId eventType minIntervalMs).1 = false →
      JsMap.get (shouldThrottleEvent tbl now socketId eventType minIntervalMs).2
        (lastEmitKey socketId eventType) = some now ∧
      (∀ k, k ≠ lastEmitKey socketId eventType →
        JsMap.get (shouldThrottleEvent tbl now socketId eventType minIntervalMs).2 k =
          JsMap.get tbl k) ∧
      JsMap.keys (shouldThrottleEvent tbl now socketId eventType minIntervalMs).2 =
        JsMap.keys tbl) := by
  unfold shouldThrottleEvent
  simp only [hlast, lastOrZero_some]
  by_cases hlt : now - last < minIntervalMs
  · simp [hlt]
  · simp only [hlt, if_false, iff_self, false_implies, true_and, Bool.false_eq_true]
    intro _
    exact ⟨JsMap.get_set_self _ _ _, fun k hk => JsMap.get_set_ne _ _ _ _ hk,
      JsMap.keys_set_of_get _ _ _ _ hlast⟩

/-- Witness of C3: key `s1:slider` recorded at 1000, next event at 1400 with the
interval 300 (admitted: the key then maps to 1400). -/
theorem shouldThrottleEvent_recorded_witness :
    JsMap.get ([("s1:slider", 1000), ("s2:slider", 1100)] : ThrottleTable)
      (lastEmitKey "s1" "slider") = some 1000 ∧
    (shouldThrottleEvent [("s1:slider", 1000), ("s2:slider", 1100)] 1400
      "s1" "slider" 300).1 = false ∧
    JsMap.get (shouldThrottleEvent [("s1:slider", 1000), ("s2:slider", 1100)] 1400
      "s1" "slider" 300).2 (lastEmitKey "s1" "slider") = some 1400 :=
  ⟨by decide, by decide,
    ((shouldThrottleEvent_recorded [("s1:slider", 1000), ("s2:slider", 1100)] 1400
      "s1" "slider" 300 1000 (by decide)).2.2 (by decide)).1⟩

/-! ## The disconnect handler and the throttle table -/

theorem foldl_delete_eq_filter (p : String → Bool) (ks : List String) (tbl : ThrottleTable) :
    ks.foldl (fun t key => if p key then JsMap.delete t key else t) tbl =
      tbl.filter (fun e => !(p e.1 && decide (e.1 ∈ ks))) := by
  induction ks generalizing tbl with
  | nil => simp
  | cons k ks ih =>
    rw [List.foldl_cons, ih]
    by_cases hp : p k = true
    · simp only [hp, if_true, JsMap.delete, List.filter_filter]
      apply List.filter_congr
      intro e _
      by_cases hk : e.1 = k
      · simp [hk, hp]
      · simp [hk]
    · simp only [hp]
      apply List.filter_congr
      intro e _
      by_cases hk : e.1 = k
      · simp [hk, hp]
      · simp [hk]

/-- The loop of the disconnect handler keeps exactly the entries whose key does not
start with the socket id followed by a colon. -/
theorem clearThrottleKeys_eq_filter (tbl : ThrottleTable) (socketId : String) :
    clearThrottleKeys tbl socketId =
      tbl.filter (fun e => !startsWith e.1 (socketId ++ ":")) := by
  unfold clearThrottleKeys
  rw [foldl_delete_eq_filter (fun key => startsWith key (socketId ++ ":"))]
  apply List.filter_congr
  intro e he
  have : e.1 ∈ JsMap.keys tbl := List.mem_map_of_mem Prod.fst he
  simp [this]

theorem startsWith_lastEmitKey (socketId eventType : String) :
    startsWith (lastEmitKey socketId eventType) (socketId ++ ":") = true := by
  simp [startsWith, lastEmitKey, String.append_assoc]

theorem onDisconnect_lastEmitTime (us : UserStats) (socket : Socket) (reason : String)
    (clk : Clock) :
    (onDisconnect us socket reason clk).stats.lastEmitTime =
      us.lastEmitTime.filter (fun e => !startsWith e.1 (socket.id ++ ":")) := by
  unfold onDisconnect
  simp only [clearThrottleKeys_eq_filter]
  split
  · rfl
  · split
    · rfl
    · rfl

/-- Claim C4: after the disconnect handler of a socket has run, from any state and
whether or not it ran to its end, no key of `userStats.lastEmitTime` starts with
the socket's id followed by a colon; in particular no key built from that id and
any event type remains. -/
theorem onDisconnect_clears_throttle_keys (us : UserStats) (socket : Socket) (reason : String)
    (clk : Clock) :
    (∀ key ∈ JsMap.keys (onDisconnect us socket reason clk).stats.lastEmitTime,
      startsWith key (socket.id ++ ":") = false) ∧
    (∀ eventType : String,
      lastEmitKey socket.id eventType ∉
        JsMap.keys (onDisconnect us socket reason clk).stats.lastEmitTime) := by
  have hkeys : ∀ key ∈ JsMap.keys (onDisconnect us socket reason clk).stats.lastEmitTime,
      startsWith key (socket.id ++ ":") = false := by
    intro key hkey
    rw [onDisconnect_lastEmitTime] at hkey
    simp only [JsMap.keys, List.mem_map, List.mem_filter] at hkey
    obtain ⟨e, ⟨_, he⟩, rfl⟩ := hkey
    simpa using he
  refine ⟨hkeys, ?_⟩
  intro eventType hmem
  have := hkeys _ hmem
  rw [startsWith_lastEmitKey] at this
  exact Bool.noConfusion this

/-! ## The activity list after fifty connections and a disconnect -/

set_option maxRecDepth 100000

/-- Claim C7 fails on the code: fifty connections fill `userStats.activity` to 50
records, and the disconnect that follows leaves 51. -/
theorem onDisconnect_activity_exceeds_cap :
    (Server.init.run (connections 50)).userStats.activity.length = 50 ∧
    (Server.init.run overflowTrace).userStats.activity.length = 51 := by
  decide

/-! ## The registry under connections and disconnections -/

theorem onConnection_activeUsers (us : UserStats) (hs : Handshake) (clk : Clock) :
    (onConnection us hs clk).stats.activeUsers =
      JsMap.set us.activeUsers hs.socketId
        { userId := hs.userId, connectTime := clk.now, ip := hs.clientIp,
          userAgent := hs.userAgent, customId := .undefined, clientInfo := .undefined } := by
  simp [onConnection, updateUserHistory]

theorem onDisconnect_activeUsers (us : UserStats) (socket : Socket) (reason : String)
    (clk : Clock) :
    (onDisconnect us socket reason clk).stats.activeUsers =
      JsMap.delete us.activeUsers socket.id := by
  unfold onDisconnect
  simp only [updateUserHistory]
  split
  · rfl
  · split
    · rfl
    · rfl

/-- With no announced identity in the registry the snapshot raises nothing and has
one entry per registry entry. -/
theorem activeUsersList_of_plain (m : JsMap UserInfo)
    (hplain : ∀ e ∈ m, e.2.customId = .undefined) :
    activeUsersList m =
      some (m.map (fun e => { id := substring8 e.2.userId, connectTime := e.2.connectTime })) := by
  induction m with
  | nil => rfl
  | cons e m ih =>
    have hm := ih (fun x hx => hplain x (List.mem_cons_of_mem _ hx))
    have he := hplain e (List.mem_cons_self _ _)
    simp only [activeUsersList, JsMap.values] at hm ⊢
    rw [List.map_cons, List.mapM_cons, hm, he]
    simp [jsOr, JsVal.truthy, JsVal.substring8]

/-- Running the disconnect handler of a socket whose id is not in the registry
leaves `userStats.activeUsers` as it was. -/
theorem onDisconnect_absent_registry (us : UserStats) (socket : Socket) (reason : String)
    (clk : Clock) (habsent : JsMap.has us.activeUsers socket.id = false) :
    (onDisconnect us socket reason clk).stats.activeUsers = us.activeUsers := by
  rw [onDisconnect_activeUsers]
  apply JsMap.delete_of_get_none
  simpa [JsMap.has] using habsent

/-- The disconnect handler raises exactly when the identity of its socket is not a
string or the snapshot of the remaining registry raises. -/
theorem onDisconnect_threw (us : UserStats) (socket : Socket) (reason : String) (clk : Clock) :
    (onDisconnect us socket reason clk).threw = true ↔
      ((jsOr socket.customId (.str socket.userId)).substring8 = none ∨
        activeUsersList (JsMap.delete us.activeUsers socket.id) = none) := by
  unfold onDisconnect
  cases hid : (jsOr socket.customId (.str socket.userId)).substring8 with
  | none => simp
  | some uid =>
    cases hsnap : activeUsersList (JsMap.delete us.activeUsers socket.id) with
    | none => simp [hsnap]
    | some users => simp [hsnap, updateUserHistory]

/-- Claim C9: for every state in which the session id of a socket is not in the
registry, as after the first run of its disconnect handler, a run of the disconnect
handler of that socket leaves `userStats.activeUsers` with the same entries and the
same size; when the state is the one the first run left and the first run raised
nothing, the second run raises nothing either; and a run raises only the
`TypeError` of `substring` on an identity that is not a string (of the socket or of
a registered session), never anything on account of the absent session. -/
theorem onDisconnect_second_run (us : UserStats) (socket : Socket) (reason : String)
    (clk : Clock) (habsent : JsMap.has us.activeUsers socket.id = false) :
    (onDisconnect us socket reason clk).stats.activeUsers = us.activeUsers ∧
    JsMap.size (onDisconnect us socket reason clk).stats.activeUsers =
      JsMap.size us.activeUsers ∧
    (∀ (us0 : UserStats) (reason0 : String) (clk0 : Clock),
      us = (onDisconnect us0 socket reason0 clk0).stats →
      (onDisconnect us0 socket reason0 clk0).threw = false →
      (onDisconnect us socket reason clk).threw = false) ∧
    ((onDisconnect us socket reason clk).threw = true ↔
      ((jsOr socket.customId (.str socket.userId)).substring8 = none ∨
        activeUsersList us.activeUsers = none)) := by
  have hreg := onDisconnect_absent_registry us socket reason clk habsent
  have hdel : JsMap.delete us.activeUsers socket.id = us.activeUsers := by
    rw [← onDisconnect_activeUsers us socket reason clk]
    exact hreg
  have hthrew := onDisconnect_threw us socket reason clk
  rw [hdel] at hthrew
  refine ⟨hreg, by rw [hreg], ?_, hthrew⟩
  intro us0 reason0 clk0 hus hfirst
  cases hsecond : (onDisconnect us socket reason clk).threw with
  | false => rfl
  | true =>
    exfalso
    have h0 : ¬ ((jsOr socket.customId (.str socket.userId)).substring8 = none ∨
        activeUsersList (JsMap.delete us0.activeUsers socket.id) = none) := by
      rw [← onDisconnect_threw us0 socket reason0 clk0, hfirst]
      exact Bool.noConfusion
    apply h0
    rcases hthrew.1 hsecond with h | h
    · exact Or.inl h
    · right
      rw [hus, onDisconnect_activeUsers] at h
      exact h

/-- Witness of C9: after session `a` has connected and its disconnect handler has
run, a second run of that handler leaves the empty registry empty and raises
nothing. -/
theorem onDisconnect_second_run_witness :
    JsMap.has (Server.init.run endedSessionTrace).userStats.activeUsers "a" = false ∧
    (onDisconnect (Server.init.run endedSessionTrace).userStats
      ⟨"a", "0a1b2c3d-0000", .undefined⟩ "transport close" ⟨9500, "10:00"⟩).stats.activeUsers =
      (Server.init.run endedSessionTrace).userStats.activeUsers ∧
    (onDisconnect (Server.init.run endedSessionTrace).userStats
      ⟨"a", "0a1b2c3d-0000", .undefined⟩ "transport close" ⟨9500, "10:00"⟩).threw = false :=
  ⟨by decide,
    (onDisconnect_second_run (Server.init.run endedSessionTrace).userStats
      ⟨"a", "0a1b2c3d-0000", .undefined⟩ "transport close" ⟨9500, "10:00"⟩ (by decide)).1,
    (onDisconnect_second_run (Server.init.run endedSessionTrace).userStats
      ⟨"a", "0a1b2c3d-0000", .undefined⟩ "transport close" ⟨9500, "10:00"⟩ (by decide)).2.2.1
      (Server.init.run (endedSessionTrace.take 1)).userStats "transport close" ⟨9000, "10:00"⟩
      (by decide) (by decide)⟩

/-! ## Recipients of a re-broadcast slider action -/

/-- Counterexample to C10 as stated: with `S1`, `S2` and `S3` connected, the slider
action of `S2` at reading 5000 is re-broadcast as `userActivity` and `stateUpdate`
with `io.emit`, so `S2` is among the recipients. -/
theorem onUserAction_slider_echoes_to_sender :
    JsMap.keys (Server.init.run threeSessions).userStats.activeUsers = ["S1", "S2", "S3"] ∧
    ((Server.init.run threeSessions).handle
      (.userAction "S2" (some sliderAction) ⟨5000, "10:00"⟩)).2.emitted =
      [⟨.all, .userActivity sliderRecord⟩, ⟨.all, .stateUpdate sliderRecord 5000⟩] ∧
    "S2" ∈ Target.all.recipients ["S1", "S2", "S3"] := by
  decide

/-- Claim C10, amended: every message that the `userAction` handler emits for a
slider action of a socket is sent with `io.emit`: it is delivered to all connected
sockets, the sending socket included. -/
theorem onUserAction_slider_recipients (us : UserStats) (socket : Socket) (d : ActionData)
    (clk : Clock) (live : List String) (msg : Msg)
    (hslider : d.type = .str "slider")
    (hmsg : msg ∈ (onUserAction us socket (some d) clk).emitted)
    (hlive : socket.id ∈ live) :
    msg.target.recipients live = live ∧ socket.id ∈ msg.target.recipients live := by
  have htarget : msg.target = .all := by
    unfold onUserAction handleUserAction at hmsg
    simp only [hslider, if_true] at hmsg
    split_ifs at hmsg <;> (try split at hmsg) <;>
      simp at hmsg <;> (try rcases hmsg with h | h) <;> (try subst h) <;> (try rfl)
  rw [htarget]
  exact ⟨rfl, hlive⟩

/-- Witness of the amended C10: the `userActivity` message of the slider action of
`S2` among `S1`, `S2`, `S3`. -/
theorem onUserAction_slider_recipients_witness :
    sliderAction.type = .str "slider" ∧
    (⟨.all, .userActivity sliderRecord⟩ : Msg) ∈
      (onUserAction (Server.init.run threeSessions).userStats ⟨"S2", "4e5f6a7b-0000", .undefined⟩
        (some sliderAction) ⟨5000, "10:00"⟩).emitted ∧
    "S2" ∈ ["S1", "S2", "S3"] ∧
    Target.recipients ["S1", "S2", "S3"] (⟨.all, .userActivity sliderRecord⟩ : Msg).target =
      ["S1", "S2", "S3"] ∧
    "S2" ∈ Target.recipients ["S1", "S2", "S3"]
      (⟨.all, .userActivity sliderRecord⟩ : Msg).target :=
  ⟨by decide, by decide, by decide,
    onUserAction_slider_recipients (Server.init.run threeSessions).userStats
      ⟨"S2", "4e5f6a7b-0000", .undefined⟩ sliderAction ⟨5000, "10:00"⟩ ["S1", "S2", "S3"]
      ⟨.all, .userActivity sliderRecord⟩ (by decide) (by decide) (by decide)⟩

/-! ## Bursts of slider actions and discrete actions -/

theorem lastEmitKey_injective (socketId a b : String)
    (h : lastEmitKey socketId a = lastEmitKey socketId b) : a = b := by
  unfold lastEmitKey at h
  have h2 := congrArg String.data h
  simp only [String.data_append, List.append_assoc, List.append_cancel_left_eq] at h2
  exact String.ext h2

/-- Slider events of a socket that arrive less than 300 ms after the recorded
reading of its `slider` key, and not before it, are all returned early. -/
theorem runUserActions_throttled (socket : Socket) (t1 : Int) (rest : List (ActionData × Clock))
    (us : UserStats)
    (hkey : JsMap.get us.lastEmitTime (lastEmitKey socket.id "slider") = some t1)
    (hrest : ∀ e ∈ rest, e.1.type = .str "slider")
    (hspan : ∀ e ∈ rest, t1 ≤ e.2.now ∧ e.2.now - t1 < 300) :
    runUserActions us socket rest = { stats := us, emitted := [], handled := 0 } := by
  induction rest with
  | nil => rfl
  | cons e rest ih =>
    have htype := hrest e (List.mem_cons_self _ _)
    have hclk := hspan e (List.mem_cons_self _ _)
    have hthr : shouldThrottleEvent us.lastEmitTime e.2.now socket.id "slider" 300 =
        (true, us.lastEmitTime) := by
      unfold shouldThrottleEvent
      simp only [hkey, lastOrZero_some]
      rw [if_pos hclk.2]
    have hout : onUserAction us socket (some e.1) e.2 =
        { stats := us, emitted := [], threw := false } := by
      simp [onUserAction, htype, hthr]
    have hih := ih (fun x hx => hrest x (List.mem_cons_of_mem _ hx))
      (fun x hx => hspan x (List.mem_cons_of_mem _ hx))
    simp [runUserActions, hout, hih, reachesHandler, htype, hthr]

/-- Counterexample to C11 as stated: with `S1`, `S2`, `S3` connected and no throttle
entry, a burst of one slider event of `S2` at reading 5000 whose `userId` is the
number 42 is passed to `handleUserAction`, where `substring` raises and the `catch`
block logs: no activity record is appended and nothing is broadcast. -/
theorem runUserActions_numeric_identity_dropped :
    JsMap.keys (Server.init.run threeSessions).userStats.lastEmitTime = [] ∧
    (runUserActions (Server.init.run threeSessions).userStats socketS2
      [(numericSliderAction, ⟨5000, "10:00"⟩)]).handled = 1 ∧
    (runUserActions (Server.init.run threeSessions).userStats socketS2
      [(numericSliderAction, ⟨5000, "10:00"⟩)]).stats.activity =
      (Server.init.run threeSessions).userStats.activity ∧
    (runUserActions (Server.init.run threeSessions).userStats socketS2
      [(numericSliderAction, ⟨5000, "10:00"⟩)]).emitted = [] := by
  decide

/-- Claim C11, amended: for a burst of slider `userAction` events of one socket (a
first event and any number of further ones) with no throttle entry of that socket
for `slider`, `broadcast_slider` and `state_update`, the first at a reading of at
least 2000, the others at readings not before it and less than 300 ms after it,
and with the actor identity of the first event
(`data.userId || socket.customId || socket.userId`) a string: exactly one event is
passed to `handleUserAction`, its record is the one record put on
`userStats.activity`, and the messages emitted are one `userActivity` and one
`stateUpdate` for that record, both to all. -/
theorem runUserActions_slider_burst (us : UserStats) (socket : Socket) (first : ActionData)
    (clk1 : Clock) (rest : List (ActionData × Clock)) (uid : String)
    (hslider : JsMap.get us.lastEmitTime (lastEmitKey socket.id "slider") = none)
    (hbroadcast : JsMap.get us.lastEmitTime (lastEmitKey socket.id "broadcast_slider") = none)
    (hstate : JsMap.get us.lastEmitTime (lastEmitKey socket.id "state_update") = none)
    (hfirst : first.type = .str "slider")
    (hrest : ∀ e ∈ rest, e.1.type = .str "slider")
    (hclock : 2000 ≤ clk1.now)
    (hspan : ∀ e ∈ rest, clk1.now ≤ e.2.now ∧ e.2.now - clk1.now < 300)
    (hid : (jsOr first.userId (jsOr socket.customId (.str socket.userId))).substring8 =
      some uid) :
    (runUserActions us socket ((first, clk1) :: rest)).handled = 1 ∧
    (runUserActions us socket ((first, clk1) :: rest)).stats.activity =
      capActivity
        ({ type := .str "slider", userId := uid, time := jsOr first.time (.str clk1.label),
           timestamp := clk1.now, data := jsOr first.payload .object, reason := none } ::
          us.activity) ∧
    (runUserActions us socket ((first, clk1) :: rest)).emitted =
      [⟨.all, .userActivity
          { type := .str "slider", userId := uid, time := jsOr first.time (.str clk1.label),
            timestamp := clk1.now, data := jsOr first.payload .object, reason := none }⟩,
       ⟨.all, .stateUpdate
          { type := .str "slider", userId := uid, time := jsOr first.time (.str clk1.label),
            timestamp := clk1.now, data := jsOr first.payload .object, reason := none }
          clk1.now⟩] := by
  have hne1 : lastEmitKey socket.id "broadcast_slider" ≠ lastEmitKey socket.id "slider" :=
    fun h => absurd (lastEmitKey_injective _ _ _ h) (by decide)
  have hne2 : lastEmitKey socket.id "state_update" ≠ lastEmitKey socket.id "slider" :=
    fun h => absurd (lastEmitKey_injective _ _ _ h) (by decide)
  have hne3 : lastEmitKey socket.id "state_update" ≠ lastEmitKey socket.id "broadcast_slider" :=
    fun h => absurd (lastEmitKey_injective _ _ _ h) (by decide)
  have hne4 : lastEmitKey socket.id "slider" ≠ lastEmitKey socket.id "broadcast_slider" :=
    fun h => hne1 h.symm
  have hne5 : lastEmitKey socket.id "slider" ≠ lastEmitKey socket.id "state_update" :=
    fun h => hne2 h.symm
  have hg1 : shouldThrottleEvent us.lastEmitTime clk1.now socket.id "slider" 300 =
      (false, JsMap.set us.lastEmitTime (lastEmitKey socket.id "slider") clk1.now) := by
    unfold shouldThrottleEvent
    simp only [hslider, lastOrZero]
    rw [if_neg (by omega)]
  have hg2 : shouldThrottleEvent
      (JsMap.set us.lastEmitTime (lastEmitKey socket.id "slider") clk1.now) clk1.now socket.id
      "broadcast_slider" 1000 =
      (false, JsMap.set (JsMap.set us.lastEmitTime (lastEmitKey socket.id "slider") clk1.now)
        (lastEmitKey socket.id "broadcast_slider") clk1.now) := by
    unfold shouldThrottleEvent
    simp only [JsMap.get_set_ne _ _ _ _ hne1, hbroadcast, lastOrZero]
    rw [if_neg (by omega)]
  have hg3 : shouldThrottleEvent
      (JsMap.set (JsMap.set us.lastEmitTime (lastEmitKey socket.id "slider") clk1.now)
        (lastEmitKey socket.id "broadcast_slider") clk1.now) clk1.now socket.id
      "state_update" 2000 =
      (false, JsMap.set (JsMap.set (JsMap.set us.lastEmitTime
        (lastEmitKey socket.id "slider") clk1.now)
        (lastEmitKey socket.id "broadcast_slider") clk1.now)
        (lastEmitKey socket.id "state_update") clk1.now) := by
    unfold shouldThrottleEvent
    simp only [JsMap.get_set_ne _ _ _ _ hne2, JsMap.get_set_ne _ _ _ _ hne3, hstate, lastOrZero]
    rw [if_neg (by omega)]
  have htruthy : jsOr (.str "slider") (.str "action") = .str "slider" := by decide
  have hout : onUserAction us socket (some first) clk1 =
      { stats := { us with
          activity := capActivity
            ({ type := .str "slider", userId := uid, time := jsOr first.time (.str clk1.label),
               timestamp := clk1.now, data := jsOr first.payload .object, reason := none } ::
              us.activity)
          lastEmitTime := JsMap.set (JsMap.set (JsMap.set us.lastEmitTime
            (lastEmitKey socket.id "slider") clk1.now)
            (lastEmitKey socket.id "broadcast_slider") clk1.now)
            (lastEmitKey socket.id "state_update") clk1.now }
        emitted :=
          [⟨.all, .userActivity
              { type := .str "slider", userId := uid,
                time := jsOr first.time (.str clk1.label), timestamp := clk1.now,
                data := jsOr first.payload .object, reason := none }⟩,
           ⟨.all, .stateUpdate
              { type := .str "slider", userId := uid,
                time := jsOr first.time (.str clk1.label), timestamp := clk1.now,
                data := jsOr first.payload .object, reason := none } clk1.now⟩]
        threw := false } := by
    simp [onUserAction, handleUserAction, hfirst, hg1, hg2, hg3, hid, htruthy]
  have hkey : JsMap.get (onUserAction us socket (some first) clk1).stats.lastEmitTime
      (lastEmitKey socket.id "slider") = some clk1.now := by
    rw [hout]
    simp only
    rw [JsMap.get_set_ne _ _ _ _ hne5, JsMap.get_set_ne _ _ _ _ hne4, JsMap.get_set_self]
  have hdrop := runUserActions_throttled socket clk1.now rest _ hkey hrest hspan
  simp only [runUserActions, hdrop, reachesHandler, hfirst, hg1]
  rw [hout]
  simp

/-- Witness of the amended C11: three slider events of `S2` at readings 5000, 5040
and 5099. -/
theorem runUserActions_slider_burst_witness :
    JsMap.get (Server.init.run threeSessions).userStats.lastEmitTime
      (lastEmitKey socketS2.id "slider") = none ∧
    (∀ e ∈ [(sliderAction, (⟨5040, "10:00"⟩ : Clock)), (sliderAction, ⟨5099, "10:00"⟩)],
      (5000 : Int) ≤ e.2.now ∧ e.2.now - 5000 < 300) ∧
    (runUserActions (Server.init.run threeSessions).userStats socketS2
      [(sliderAction, ⟨5000, "10:00"⟩), (sliderAction, ⟨5040, "10:00"⟩),
       (sliderAction, ⟨5099, "10:00"⟩)]).handled = 1 ∧
    (runUserActions (Server.init.run threeSessions).userStats socketS2
      [(sliderAction, ⟨5000, "10:00"⟩), (sliderAction, ⟨5040, "10:00"⟩),
       (sliderAction, ⟨5099, "10:00"⟩)]).stats.activity =
      capActivity (sliderRecord :: (Server.init.run threeSessions).userStats.activity) ∧
    (runUserActions (Server.init.run threeSessions).userStats socketS2
      [(sliderAction, ⟨5000, "10:00"⟩), (sliderAction, ⟨5040, "10:00"⟩),
       (sliderAction, ⟨5099, "10:00"⟩)]).emitted =
      [⟨.all, .userActivity sliderRecord⟩, ⟨.all, .stateUpdate sliderRecord 5000⟩] :=
  ⟨by decide, by decide,
    runUserActions_slider_burst (Server.init.run threeSessions).userStats socketS2
      sliderAction ⟨5000, "10:00"⟩
      [(sliderAction, ⟨5040, "10:00"⟩), (sliderAction, ⟨5099, "10:00"⟩)]
      "4e5f6a7b" (by decide) (by decide) (by decide) (by decide) (by decide) (by decide)
      (by decide) (by decide)⟩

/-- Counterexample to C12 as stated: the `click` action of `S2` whose `userId` is the
number 42 is dropped: `substring` raises inside `handleUserAction`, the `catch`
block logs, no activity record is appended and nothing is broadcast. -/
theorem onUserAction_discrete_numeric_identity_dropped :
    numericClickAction.type ≠ .str "slider" ∧
    (onUserAction (Server.init.run threeSessions).userStats socketS2
      (some numericClickAction) ⟨5000, "10:00"⟩).stats.activity =
      (Server.init.run threeSessions).userStats.activity ∧
    (onUserAction (Server.init.run threeSessions).userStats socketS2
      (some numericClickAction) ⟨5000, "10:00"⟩).emitted = [] := by
  decide

/-- Claim C12, amended: for every `userAction` whose type is not `slider` and whose
actor identity (`data.userId || socket.customId || socket.userId`) is a string,
for every state and clock reading: the handler raises nothing, exactly one record
is put on `userStats.activity`, the messages emitted are one `userActivity` and
one `stateUpdate` for it, both to all, and `userStats.lastEmitTime` is unchanged
and not consulted (with any other table in its place the handler emits the same
and leaves that table in place). -/
theorem onUserAction_discrete (us : UserStats) (socket : Socket) (d : ActionData) (clk : Clock)
    (uid : String) (htype : d.type ≠ .str "slider")
    (hid : (jsOr d.userId (jsOr socket.customId (.str socket.userId))).substring8 = some uid) :
    (onUserAction us socket (some d) clk).threw = false ∧
    (onUserAction us socket (some d) clk).stats.activity =
      capActivity
        ({ type := jsOr d.type (.str "action"), userId := uid,
           time := jsOr d.time (.str clk.label), timestamp := clk.now,
           data := jsOr d.payload .object, reason := none } :: us.activity) ∧
    (onUserAction us socket (some d) clk).emitted =
      [⟨.all, .userActivity
          { type := jsOr d.type (.str "action"), userId := uid,
            time := jsOr d.time (.str clk.label), timestamp := clk.now,
            data := jsOr d.payload .object, reason := none }⟩,
       ⟨.all, .stateUpdate
          { type := jsOr d.type (.str "action"), userId := uid,
            time := jsOr d.time (.str clk.label), timestamp := clk.now,
            data := jsOr d.payload .object, reason := none } clk.now⟩] ∧
    (onUserAction us socket (some d) clk).stats.lastEmitTime = us.lastEmitTime ∧
    ∀ tbl : ThrottleTable,
      (onUserAction { us with lastEmitTime := tbl } socket (some d) clk).emitted =
        (onUserAction us socket (some d) clk).emitted ∧
      (onUserAction { us with lastEmitTime := tbl } socket (some d) clk).threw =
        (onUserAction us socket (some d) clk).threw ∧
      (onUserAction { us with lastEmitTime := tbl } socket (some d) clk).stats =
        { (onUserAction us socket (some d) clk).stats with lastEmitTime := tbl } := by
  simp [onUserAction, handleUserAction, htype, hid]

/-- Witness of the amended C12: the `click` action of `S2` at reading 5000. -/
theorem onUserAction_discrete_witness :
    clickAction.type ≠ .str "slider" ∧
    (onUserAction (Server.init.run threeSessions).userStats socketS2 (some clickAction)
      ⟨5000, "10:00"⟩).threw = false ∧
    (onUserAction (Server.init.run threeSessions).userStats socketS2 (some clickAction)
      ⟨5000, "10:00"⟩).stats.lastEmitTime =
      (Server.init.run threeSessions).userStats.lastEmitTime :=
  ⟨by decide,
    (onUserAction_discrete (Server.init.run threeSessions).userStats socketS2 clickAction
      ⟨5000, "10:00"⟩ "4e5f6a7b" (by decide) (by decide)).1,
    (onUserAction_discrete (Server.init.run threeSessions).userStats socketS2 clickAction
      ⟨5000, "10:00"⟩ "4e5f6a7b" (by decide) (by decide)).2.2.2.1⟩

/-! ## The cleanup sweep -/

theorem sweepEntry_eq (transport : JsMap Bool) (currentTime : Int) (acc : UserStats × Nat)
    (entry : String × UserInfo) :
    sweepEntry transport currentTime acc entry =
      if isGhost transport currentTime entry then
        ({ acc.1 with
            activeUsers := JsMap.delete acc.1.activeUsers entry.1
            currentUsers := max 0 (acc.1.currentUsers - 1) },
          acc.2 + 1)
      else acc := by
  unfold sweepEntry isGhost
  rfl

/-- The registry and the eviction count after the loop of the sweep over `rest`. -/
theorem foldl_sweepEntry (transport : JsMap Bool) (currentTime : Int)
    (rest : List (String × UserInfo)) (acc : UserStats × Nat) :
    (rest.foldl (sweepEntry transport currentTime) acc).1.activeUsers =
      acc.1.activeUsers.filter
        (fun e => !(rest.any (fun r => isGhost transport currentTime r && r.1 == e.1))) ∧
    (rest.foldl (sweepEntry transport currentTime) acc).2 =
      acc.2 + rest.countP (isGhost transport currentTime) := by
  induction rest generalizing acc with
  | nil => simp
  | cons r rest ih =>
    rw [List.foldl_cons]
    obtain ⟨h1, h2⟩ := ih (sweepEntry transport currentTime acc r)
    rw [h1, h2, sweepEntry_eq]
    by_cases hg : isGhost transport currentTime r = true
    · simp only [hg, if_true, JsMap.delete, List.filter_filter, List.countP_cons]
      refine ⟨?_, by omega⟩
      apply List.filter_congr
      intro e _
      by_cases hk : r.1 = e.1
      · simp [hk, hg]
      · have hb1 : (r.1 == e.1) = false := by simpa using hk
        have hb2 : (e.1 != r.1) = true := by simpa using fun h : e.1 = r.1 => hk h.symm
        simp only [hb1, hb2, hg, Bool.true_and, Bool.and_true, Bool.not_false, Bool.and_false,
          Bool.false_and, Bool.or_true, Bool.not_true, Bool.false_or]
        simp [hk]
    · simp only [hg, List.countP_cons]
      refine ⟨?_, by simp⟩
      apply List.filter_congr
      intro e _
      simp [hg]

theorem cleanupSweep_activeUsers (us : UserStats) (transport : JsMap Bool) (clk : Clock) :
    (cleanupSweep us transport clk).stats.activeUsers =
      (us.activeUsers.foldl (sweepEntry transport clk.now) (us, 0)).1.activeUsers := by
  unfold cleanupSweep
  simp only [updateUserHistory]
  split
  · split
    · rfl
    · rfl
  · rfl

namespace JsMap
variable {β : Type}

theorem mem_of_get (m : JsMap β) (k : String) (v : β) (h : get m k = some v) : (k, v) ∈ m := by
  induction m with
  | nil => simp [get] at h
  | cons e m ih =>
    obtain ⟨k0, v0⟩ := e
    by_cases h0 : k0 = k
    · simp only [get, h0, if_true, Option.some.injEq] at h
      simp [h0, h]
    · simp only [get, h0, if_false] at h
      exact List.mem_cons_of_mem _ (ih h)

theorem get_of_mem (m : JsMap β) (k : String) (v : β) (hnd : (keys m).Nodup)
    (h : (k, v) ∈ m) : get m k = some v := by
  induction m with
  | nil => simp at h
  | cons e m ih =>
    obtain ⟨k0, v0⟩ := e
    simp only [keys, List.map_cons, List.nodup_cons] at hnd
    rcases List.mem_cons.1 h with h | h
    · cases h
      simp [get]
    · have hk : k ∈ keys m := List.mem_map_of_mem Prod.fst h
      have h0 : k0 ≠ k := fun heq => hnd.1 (heq ▸ hk)
      simp only [get, h0, if_false]
      exact ih hnd.2 h

theorem keys_filter_nodup (m : JsMap β) (p : String × β → Bool) (hnd : (keys m).Nodup) :
    (keys (m.filter p)).Nodup := by
  unfold keys at hnd ⊢
  exact hnd.sublist ((List.filter_sublist m).map Prod.fst)

theorem get_delete (m : JsMap β) (k k' : String) :
    get (delete m k') k = if k = k' then none else get m k := by
  induction m with
  | nil => simp [delete, get]
  | cons e m ih =>
    obtain ⟨k0, v0⟩ := e
    simp only [delete] at ih
    by_cases h0 : k0 = k'
    · subst h0
      by_cases hk : k = k0
      · subst hk
        simpa [delete, List.filter_cons] using ih
      · have hk2 : ¬ k0 = k := fun h => hk h.symm
        simp [delete, List.filter_cons, ih, hk, hk2, get]
    · by_cases hk : k = k'
      · subst hk
        simp [delete, List.filter_cons, h0, get, ih]
      · simp [delete, List.filter_cons, h0, get, ih, hk]

end JsMap

theorem isGhost_eq_false_iff (transport : JsMap Bool) (currentTime : Int)
    (entry : String × UserInfo) :
    isGhost transport currentTime entry = false ↔
      ∃ connected, JsMap.get transport entry.1 = some connected ∧
        (connected = true ∨ currentTime - entry.2.connectTime ≤ 120000) := by
  unfold isGhost
  cases h : JsMap.get transport entry.1 with
  | none => simp
  | some c =>
    cases c
    · simp
    · simp

/-- With no key twice in the registry, the sweep keeps exactly the entries that fail
its test, in their order. -/
theorem cleanupSweep_registry (us : UserStats) (transport : JsMap Bool) (clk : Clock)
    (hnd : (JsMap.keys us.activeUsers).Nodup) :
    (cleanupSweep us transport clk).stats.activeUsers =
      us.activeUsers.filter (fun e => !isGhost transport clk.now e) := by
  rw [cleanupSweep_activeUsers, (foldl_sweepEntry transport clk.now us.activeUsers (us, 0)).1]
  apply List.filter_congr
  intro e he
  congr 1
  cases hg : isGhost transport clk.now e with
  | true =>
    rw [List.any_eq_true]
    exact ⟨e, he, by simp [hg]⟩
  | false =>
    rw [List.any_eq_false]
    intro r hr hrg
    simp only [Bool.and_eq_true, beq_iff_eq] at hrg
    have : r = e := List.inj_on_of_nodup_map hnd hr he hrg.2
    rw [this, hg] at hrg
    exact Bool.noConfusion hrg.1

namespace JsMap
variable {β : Type}

theorem get_filter (m : JsMap β) (p : String × β → Bool) (k : String)
    (hnd : (keys m).Nodup) :
    get (m.filter p) k = (get m k).filter (fun v => p (k, v)) := by
  cases hget : get m k with
  | none =>
    simp only [Option.filter]
    rw [get_eq_none_iff] at hget ⊢
    intro hk
    apply hget
    simp only [keys, List.mem_map] at hk ⊢
    obtain ⟨e, he, rfl⟩ := hk
    exact ⟨e, List.mem_of_mem_filter he, rfl⟩
  | some v =>
    have hmem := mem_of_get m k v hget
    by_cases hp : p (k, v) = true
    · simp only [Option.filter, hp, if_true]
      exact get_of_mem _ k v (keys_filter_nodup m p hnd) (List.mem_filter.2 ⟨hmem, hp⟩)
    · simp only [Option.filter, hp]
      cases hget2 : get (m.filter p) k with
      | none => rfl
      | some w =>
        have hw := mem_of_get _ k w hget2
        rw [List.mem_filter] at hw
        have := get_of_mem m k w hnd hw.1
        rw [hget] at this
        cases this
        exact absurd hw.2 hp

end JsMap

/-- Counterexample to C13 as stated: session `a`, connected at 1000 and active at
5000, is evicted by the sweep at 10000 that finds its socket absent; and session
`a`, connected at 1000 and active at 190000, is evicted by the sweep at 195000 that
finds its socket present and not connected. In both the last inbound activity is
less than two minutes old. -/
theorem cleanupSweep_evicts_recently_active :
    JsMap.has (Server.init.run recentActivityTrace).userStats.activeUsers "a" = true ∧
    JsMap.has ((Server.init.run recentActivityTrace).step
      (.cleanup [] ⟨10000, "10:00"⟩)).userStats.activeUsers "a" = false ∧
    JsMap.has (Server.init.run longSessionTrace).userStats.activeUsers "a" = true ∧
    JsMap.has ((Server.init.run longSessionTrace).step
      (.cleanup [("a", false)] ⟨195000, "10:03"⟩)).userStats.activeUsers "a" = false := by
  decide

/-- Claim C13, amended: for every registry (a `Map`: no key twice) and every
transport state, the cleanup sweep never evicts a session whose socket the
transport still holds and whose `connectTime` is within the two-minute threshold,
whether the transport reports the socket connected or not: the session stays
registered with its data. -/
theorem cleanupSweep_keeps_recently_connected (us : UserStats) (transport : JsMap Bool)
    (clk : Clock) (socketId : String) (info : UserInfo) (connected : Bool)
    (hnd : (JsMap.keys us.activeUsers).Nodup)
    (hreg : JsMap.get us.activeUsers socketId = some info)
    (hsock : JsMap.get transport socketId = some connected)
    (hrecent : clk.now - info.connectTime ≤ 2 * 60 * 1000) :
    JsMap.get (cleanupSweep us transport clk).stats.activeUsers socketId = some info := by
  rw [cleanupSweep_registry us transport clk hnd, JsMap.get_filter _ _ _ hnd, hreg]
  have : isGhost transport clk.now (socketId, info) = false :=
    (isGhost_eq_false_iff _ _ _).2 ⟨connected, hsock, Or.inr (by simpa using hrecent)⟩
  simp [Option.filter, this]

/-- Witness of the amended C13: session `a`, connected at 1000, survives the sweep
at 10000 that finds its socket present and not connected. -/
theorem cleanupSweep_keeps_recently_connected_witness :
    (JsMap.keys (Server.init.run recentActivityTrace).userStats.activeUsers).Nodup ∧
    JsMap.get ([("a", false)] : JsMap Bool) "a" = some false ∧
    JsMap.get (cleanupSweep (Server.init.run recentActivityTrace).userStats [("a", false)]
      ⟨10000, "10:00"⟩).stats.activeUsers "a" =
      some { userId := "0a1b2c3d-0000", connectTime := 1000, ip := "203.0.113.7",
             userAgent := "Mozilla/5.0", customId := .undefined, clientInfo := .undefined } :=
  ⟨by decide, by decide,
    cleanupSweep_keeps_recently_connected (Server.init.run recentActivityTrace).userStats
      [("a", false)] ⟨10000, "10:00"⟩ "a" _ false (by decide) (by decide) (by decide)
      (by decide)⟩

/-- When every socket the transport holds is connected, the test of the sweep is
true exactly of the entries whose socket the transport no longer holds. -/
theorem isGhost_of_connected (transport : JsMap Bool) (currentTime : Int)
    (entry : String × UserInfo)
    (hconnected : ∀ socketId connected,
      JsMap.get transport socketId = some connected → connected = true) :
    isGhost transport currentTime entry = (JsMap.get transport entry.1).isNone := by
  unfold isGhost
  cases h : JsMap.get transport entry.1 with
  | none => rfl
  | some c =>
    rw [hconnected _ _ h]
    simp

/-- Claim C14: for every registry (a `Map`: no key twice), every transport state
the sweep can find (a socket the transport holds is connected; a closed socket is
gone from it) and whatever instant of last inbound activity `lastSeenAt` one
attributes to each session, the cleanup sweep removes a session exactly when its
socket is gone from the transport, or its `lastSeenAt` is more than two minutes
old and the transport reports it not connected; the registry afterwards is the
registry before without the sessions whose socket is gone, in the same order and
with the same data. -/
theorem cleanupSweep_removes_exactly_gone (us : UserStats) (transport : JsMap Bool)
    (clk : Clock) (lastSeenAt : String → Int)
    (hnd : (JsMap.keys us.activeUsers).Nodup)
    (hconnected : ∀ socketId connected,
      JsMap.get transport socketId = some connected → connected = true) :
    (cleanupSweep us transport clk).stats.activeUsers =
      us.activeUsers.filter (fun e => (JsMap.get transport e.1).isSome) ∧
    ∀ socketId info, JsMap.get us.activeUsers socketId = some info →
      (JsMap.get (cleanupSweep us transport clk).stats.activeUsers socketId = none ↔
        (JsMap.get transport socketId = none ∨
          (clk.now - lastSeenAt socketId > 2 * 60 * 1000 ∧
            JsMap.get transport socketId = some false))) ∧
      (JsMap.get (cleanupSweep us transport clk).stats.activeUsers socketId ≠ none →
        JsMap.get (cleanupSweep us transport clk).stats.activeUsers socketId = some info) := by
  have hreg : (cleanupSweep us transport clk).stats.activeUsers =
      us.activeUsers.filter (fun e => (JsMap.get transport e.1).isSome) := by
    rw [cleanupSweep_registry us transport clk hnd]
    apply List.filter_congr
    intro e _
    rw [isGhost_of_connected transport clk.now e hconnected]
    cases JsMap.get transport e.1 <;> rfl
  refine ⟨hreg, ?_⟩
  intro socketId info hget
  rw [hreg, JsMap.get_filter _ _ _ hnd, hget]
  cases hc : JsMap.get transport socketId with
  | none =>
    simp [Option.filter, hc]
  | some c =>
    have hct := hconnected _ _ hc
    subst hct
    simp [Option.filter, hc]

/-- Witness of C14: of the sessions `S1`, `S2`, `S3`, the sweep that finds the
sockets of `S2` and `S3` connected and that of `S1` gone keeps `S2` and `S3`. -/
theorem cleanupSweep_removes_exactly_gone_witness :
    (JsMap.keys (Server.init.run threeSessions).userStats.activeUsers).Nodup ∧
    (∀ socketId connected,
      JsMap.get ([("S2", true), ("S3", true)] : JsMap Bool) socketId = some connected →
        connected = true) ∧
    JsMap.keys (cleanupSweep (Server.init.run threeSessions).userStats
      [("S2", true), ("S3", true)] ⟨70000, "10:01"⟩).stats.activeUsers = ["S2", "S3"] ∧
    (cleanupSweep (Server.init.run threeSessions).userStats
      [("S2", true), ("S3", true)] ⟨70000, "10:01"⟩).stats.activeUsers =
      (Server.init.run threeSessions).userStats.activeUsers.filter
        (fun e => (JsMap.get ([("S2", true), ("S3", true)] : JsMap Bool) e.1).isSome) :=
  ⟨by decide,
    by
      intro socketId connected h
      simp only [JsMap.get] at h
      split_ifs at h <;> simp_all,
    by decide,
    (cleanupSweep_removes_exactly_gone (Server.init.run threeSessions).userStats
      [("S2", true), ("S3", true)] ⟨70000, "10:01"⟩ (fun _ => 0) (by decide)
      (by
        intro socketId connected h
        simp only [JsMap.get] at h
        split_ifs at h <;> simp_all)).1⟩

/-! ## What the sweep, the connection handler and the disconnect handler send -/

/-- When the snapshot of the swept registry raises nothing, the sweep sends
`userCount`, `activeUsers` and `userHistory` exactly when it evicted an entry, and
then `serverPing` in either case. -/
theorem cleanupSweep_emitted_of_snapshot (us : UserStats) (transport : JsMap Bool) (clk : Clock)
    (users : List PresenceEntry)
    (hsnap : activeUsersList (cleanupSweep us transport clk).stats.activeUsers = some users) :
    (cleanupSweep us transport clk).threw = false ∧
    (us.activeUsers.countP (isGhost transport clk.now) = 0 →
      (cleanupSweep us transport clk).emitted = [⟨.all, .serverPing clk.now⟩]) ∧
    (0 < us.activeUsers.countP (isGhost transport clk.now) →
      (cleanupSweep us transport clk).emitted =
        [⟨.all, .userCount (cleanupSweep us transport clk).stats.currentUsers⟩,
         ⟨.all, .activeUsers users⟩,
         ⟨.all, .userHistory (cleanupSweep us transport clk).stats.history⟩,
         ⟨.all, .serverPing clk.now⟩]) := by
  rw [cleanupSweep_activeUsers] at hsnap
  have hcount := (foldl_sweepEntry transport clk.now us.activeUsers (us, 0)).2
  simp only [Nat.zero_add] at hcount
  unfold cleanupSweep
  simp only [hcount, hsnap, updateUserHistory]
  by_cases h0 : 0 < us.activeUsers.countP (isGhost transport clk.now)
  · simp [h0]
    obtain ⟨e, he, hp⟩ := List.countP_pos_iff.1 h0
    exact ⟨e.1, e.2, he, hp⟩
  · have h1 : us.activeUsers.countP (isGhost transport clk.now) = 0 := by omega
    simp [h1]

/-- Claim C15 fails on the code: with `a` and `b` registered and the number 42
announced as the identity of `b`, the sweep that evicts `a` sends `userCount` and
then raises in the snapshot: it sends neither `activeUsers` nor `serverPing`. -/
theorem cleanupSweep_skips_serverPing :
    JsMap.keys (Server.init.run numericPeerTrace).userStats.activeUsers = ["a", "b"] ∧
    JsMap.keys ((Server.init.run numericPeerTrace).step
      (.cleanup [("b", true)] ⟨70000, "10:01"⟩)).userStats.activeUsers = ["b"] ∧
    ((Server.init.run numericPeerTrace).handle
      (.cleanup [("b", true)] ⟨70000, "10:01"⟩)).2.emitted = [⟨.all, .userCount 1⟩] ∧
    ((Server.init.run numericPeerTrace).handle
      (.cleanup [("b", true)] ⟨70000, "10:01"⟩)).2.threw = true := by
  decide

/-- The connection handler acknowledges to the new socket only and sends to all the
counter after its increment and a snapshot with one entry per registry entry; the
counter is the registry size when it was so before and the id is fresh. -/
theorem onConnection_emitted (us : UserStats) (hs : Handshake) (clk : Clock) :
    (onConnection us hs clk).emitted.take 4 =
      [⟨.all, .userHistory (onConnection us hs clk).stats.history⟩,
       ⟨.only hs.socketId, .connectionStatus true hs.socketId hs.userId⟩,
       ⟨.all, .userCount (us.currentUsers + 1)⟩,
       ⟨.all, .activeUsers (activeUsersListAtConnect (onConnection us hs clk).stats.activeUsers)⟩] ∧
    (activeUsersListAtConnect (onConnection us hs clk).stats.activeUsers).length =
      JsMap.size (onConnection us hs clk).stats.activeUsers ∧
    (JsMap.has us.activeUsers hs.socketId = false →
      us.currentUsers = JsMap.size us.activeUsers →
      us.currentUsers + 1 = JsMap.size (onConnection us hs clk).stats.activeUsers) := by
  refine ⟨by simp [onConnection, updateUserHistory], by
    simp [activeUsersListAtConnect, JsMap.values, JsMap.size], ?_⟩
  intro hfresh hagree
  have hnone : JsMap.get us.activeUsers hs.socketId = none := by
    simpa [JsMap.has] using hfresh
  rw [onConnection_activeUsers]
  have := congrArg List.length (JsMap.keys_set_of_get_none us.activeUsers hs.socketId
    { userId := hs.userId, connectTime := clk.now, ip := hs.clientIp,
      userAgent := hs.userAgent, customId := .undefined, clientInfo := .undefined } hnone)
  simp only [JsMap.keys, List.length_map, List.length_append, List.length_singleton] at this
  simp only [JsMap.size, this, hagree]
  push_cast
  rfl

/-- When the identity of the socket is a string and the snapshot of the remaining
registry raises nothing, the disconnect handler puts its record at the head of
`userStats.activity` and sends `userCount`, the snapshot and `userHistory` to all. -/
theorem onDisconnect_emitted_of_snapshot (us : UserStats) (socket : Socket) (reason : String)
    (clk : Clock) (uid : String) (users : List PresenceEntry)
    (hid : (jsOr socket.customId (.str socket.userId)).substring8 = some uid)
    (hsnap : activeUsersList (JsMap.delete us.activeUsers socket.id) = some users) :
    (onDisconnect us socket reason clk).threw = false ∧
    (onDisconnect us socket reason clk).stats.activity =
      { type := .str "disconnect", userId := uid, time := .str clk.label, timestamp := clk.now,
        data := .undefined, reason := some reason } :: us.activity ∧
    (onDisconnect us socket reason clk).emitted =
      [⟨.all, .userCount (max 0 (us.currentUsers - 1))⟩, ⟨.all, .activeUsers users⟩,
       ⟨.all, .userHistory (onDisconnect us socket reason clk).stats.history⟩] := by
  unfold onDisconnect
  simp [hid, hsnap, updateUserHistory]

/-- Claim C17 fails on the code: with `a` and `b` registered and the number 42
announced as the identity of `b`, the disconnect handler of `a` sends `userCount`
and then raises in the snapshot: no `activeUsers` list is broadcast. -/
theorem onDisconnect_snapshot_throws :
    JsMap.has (Server.init.run numericPeerTrace).userStats.activeUsers "a" = true ∧
    ((Server.init.run numericPeerTrace).handle
      (.disconnect "a" "transport close" ⟨9000, "10:00"⟩)).2.emitted = [⟨.all, .userCount 1⟩] ∧
    ((Server.init.run numericPeerTrace).handle
      (.disconnect "a" "transport close" ⟨9000, "10:00"⟩)).2.threw = true := by
  decide

/-! ## The connect time of a registered session -/

namespace JsMap
variable {β : Type}

theorem get_filter_key (m : JsMap β) (q : String → Bool) (k : String) :
    get (m.filter (fun e => q e.1)) k = if q k then get m k else none := by
  induction m with
  | nil => simp [get]
  | cons e m ih =>
    obtain ⟨k0, v0⟩ := e
    by_cases hq0 : q k0 = true
    · by_cases h0 : k0 = k
      · subst h0
        simp [List.filter_cons, hq0, get]
      · simp [List.filter_cons, hq0, get, h0, ih]
    · by_cases h0 : k0 = k
      · subst h0
        have hq : q k0 = false := by simpa using hq0
        simp [List.filter_cons, hq, ih]
      · simp [List.filter_cons, hq0, get, h0, ih]

end JsMap

theorem handleUserAction_activeUsers (us : UserStats) (d : ActionData) (socket : Socket)
    (clk : Clock) : (handleUserAction us d socket clk).stats.activeUsers = us.activeUsers := by
  unfold handleUserAction
  split
  · rfl
  · simp only
    split <;> rfl

theorem onUserAction_activeUsers (us : UserStats) (socket : Socket) (data : Option ActionData)
    (clk : Clock) : (onUserAction us socket data clk).stats.activeUsers = us.activeUsers := by
  unfold onUserAction
  cases data with
  | none => rfl
  | some d =>
    simp only
    split
    · split
      · rfl
      · rw [handleUserAction_activeUsers]
    · rw [handleUserAction_activeUsers]

theorem onUserConnected_connectTime (us : UserStats) (socket : Socket)
    (data : Option AnnounceData) (k : String) :
    (JsMap.get (onUserConnected us socket data).1.stats.activeUsers k).map
        (fun info => info.connectTime) =
      (JsMap.get us.activeUsers k).map (fun info => info.connectTime) := by
  unfold onUserConnected
  cases data with
  | none => rfl
  | some d =>
    by_cases ht : d.userId.truthy = true
    · cases hsock : JsMap.get us.activeUsers socket.id with
      | none =>
        simp only [ht, hsock, if_true]
        split <;> rfl
      | some userInfo =>
        have hset : (JsMap.get (JsMap.set us.activeUsers socket.id
            (if d.clientInfo.truthy = true then
              { userInfo with customId := d.userId, clientInfo := d.clientInfo }
            else { userInfo with customId := d.userId })) k).map
              (fun info => info.connectTime) =
            (JsMap.get us.activeUsers k).map (fun info => info.connectTime) := by
          by_cases hk : k = socket.id
          · subst hk
            rw [JsMap.get_set_self, hsock]
            split <;> rfl
          · rw [JsMap.get_set_ne _ _ _ _ hk]
        simp only [ht, hsock, if_true]
        split <;> exact hset
    · simp only [ht]
      rfl

/-- Claim C18: for every state, every step of the server (announcement, action,
disconnect, cleanup sweep, stats request, ping, list request, periodic update, or
the connection of a socket with another id) and every session id registered both
before and after the step, the `connectTime` of its registry value is the same
before and after. -/
theorem step_connectTime (sv : Server) (ev : Event) (k : String) (info info' : UserInfo)
    (hother : ∀ hs clk, ev = .connection hs clk → hs.socketId ≠ k)
    (hbefore : JsMap.get sv.userStats.activeUsers k = some info)
    (hafter : JsMap.get (sv.step ev).userStats.activeUsers k = some info') :
    info'.connectTime = info.connectTime := by
  have hsame : ∀ m : JsMap UserInfo, JsMap.get m k = some info' →
      m = sv.userStats.activeUsers → info'.connectTime = info.connectTime := by
    intro m hm heq
    rw [heq, hbefore] at hm
    cases hm
    rfl
  cases ev with
  | connection hs clk =>
    have hne : k ≠ hs.socketId := fun h => hother hs clk rfl h.symm
    simp only [Server.step, Server.handle, onConnection_activeUsers] at hafter
    rw [JsMap.get_set_ne _ _ _ _ hne, hbefore] at hafter
    cases hafter
    rfl
  | userConnected socketId data =>
    simp only [Server.step, Server.handle] at hafter
    cases hsock : JsMap.get sv.sockets socketId with
    | none =>
      simp only [hsock] at hafter
      exact hsame _ hafter rfl
    | some socket =>
      simp only [hsock] at hafter
      have h := onUserConnected_connectTime sv.userStats socket data k
      rw [hafter, hbefore] at h
      simpa using h
  | userAction socketId data clk =>
    simp only [Server.step, Server.handle] at hafter
    cases hsock : JsMap.get sv.sockets socketId with
    | none =>
      simp only [hsock] at hafter
      exact hsame _ hafter rfl
    | some socket =>
      simp only [hsock] at hafter
      exact hsame _ hafter (onUserAction_activeUsers _ _ _ _)
  | disconnect socketId reason clk =>
    simp only [Server.step, Server.handle] at hafter
    cases hsock : JsMap.get sv.sockets socketId with
    | none =>
      simp only [hsock] at hafter
      exact hsame _ hafter rfl
    | some socket =>
      simp only [hsock, onDisconnect_activeUsers, JsMap.get_delete] at hafter
      split_ifs at hafter
      rw [hbefore] at hafter
      cases hafter
      rfl
  | cleanup transport clk =>
    simp only [Server.step, Server.handle, cleanupSweep_activeUsers] at hafter
    rw [(foldl_sweepEntry transport clk.now sv.userStats.activeUsers (sv.userStats, 0)).1,
      JsMap.get_filter_key _
        (fun key => !(sv.userStats.activeUsers.any
          (fun r => isGhost transport clk.now r && r.1 == key)))] at hafter
    split_ifs at hafter
    rw [hbefore] at hafter
    cases hafter
    rfl
  | requestUserStats socketId =>
    simp only [Server.step, Server.handle] at hafter
    cases hsock : JsMap.get sv.sockets socketId with
    | none =>
      simp only [hsock] at hafter
      exact hsame _ hafter rfl
    | some socket =>
      simp only [hsock] at hafter
      refine hsame _ hafter ?_
      unfold onRequestUserStats
      split <;> rfl
  | ping socketId clk =>
    simp only [Server.step, Server.handle] at hafter
    cases hsock : JsMap.get sv.sockets socketId with
    | none =>
      simp only [hsock] at hafter
      exact hsame _ hafter rfl
    | some socket =>
      simp only [hsock] at hafter
      exact hsame _ hafter rfl
  | requestActiveUsers socketId =>
    simp only [Server.step, Server.handle] at hafter
    cases hsock : JsMap.get sv.sockets socketId with
    | none =>
      simp only [hsock] at hafter
      exact hsame _ hafter rfl
    | some socket =>
      simp only [hsock] at hafter
      refine hsame _ hafter ?_
      unfold onRequestActiveUsers
      split <;> rfl
  | periodicUpdate =>
    simp only [Server.step, Server.handle] at hafter
    refine hsame _ hafter ?_
    unfold periodicUpdate
    split
    · split <;> rfl
    · rfl

/-- Witness of C18: session `S2` announces an identity; its registry value changes,
its `connectTime` does not. -/
theorem step_connectTime_witness :
    JsMap.get (Server.init.run threeSessions).userStats.activeUsers "S2" = some infoS2 ∧
    JsMap.get ((Server.init.run threeSessions).step
      (.userConnected "S2" (some aliceAnnounce))).userStats.activeUsers "S2" =
      some { infoS2 with customId := .str "alice-01234" } ∧
    ({ infoS2 with customId := .str "alice-01234" } : UserInfo).connectTime =
      infoS2.connectTime :=
  ⟨by decide, by decide,
    step_connectTime (Server.init.run threeSessions) (.userConnected "S2" (some aliceAnnounce))
      "S2" infoS2 { infoS2 with customId := .str "alice-01234" }
      (fun _ _ h => Event.noConfusion h) (by decide) (by decide)⟩

/-! ## The presence snapshot and malformed payloads -/

/-- When every announced identity in the registry is a non-empty string, the
snapshot is the sequence of the registry values, in order, each with the first 8
characters of its `customId`, or of its `userId` when none was announced, and its
`connectTime`. -/
theorem activeUsersList_of_strings (m : JsMap UserInfo)
    (hstr : ∀ e ∈ m, e.2.customId = .undefined ∨ ∃ s, e.2.customId = .str s ∧ s ≠ "") :
    activeUsersList m = some ((JsMap.values m).map presenceEntryOf) ∧
    ((JsMap.values m).map presenceEntryOf).length = JsMap.size m := by
  refine ⟨?_, by simp [JsMap.values, JsMap.size]⟩
  induction m with
  | nil => rfl
  | cons e m ih =>
    have hm := ih (fun x hx => hstr x (List.mem_cons_of_mem _ hx))
    simp only [activeUsersList, JsMap.values] at hm ⊢
    rw [List.map_cons, List.mapM_cons, hm]
    rcases hstr e (List.mem_cons_self _ _) with he | ⟨s, he, hs⟩
    · simp [he, jsOr, JsVal.truthy, JsVal.substring8, presenceEntryOf]
    · simp [he, hs, jsOr, JsVal.truthy, JsVal.substring8, presenceEntryOf]

/-- Claim C19 fails on the code: with the number 42 announced as the identity of
`b`, the snapshot raises instead of producing a list: `requestActiveUsers` sends
nothing and the periodic update sends only `userCount`. -/
theorem activeUsersList_numeric_identity :
    activeUsersList (Server.init.run numericPeerTrace).userStats.activeUsers = none ∧
    ((Server.init.run numericPeerTrace).handle (.requestActiveUsers "a")).2.emitted = [] ∧
    ((Server.init.run numericPeerTrace).handle (.requestActiveUsers "a")).2.threw = true ∧
    ((Server.init.run numericPeerTrace).handle .periodicUpdate).2.emitted =
      [⟨.all, .userCount 2⟩] ∧
    ((Server.init.run numericPeerTrace).handle .periodicUpdate).2.threw = true := by
  decide

/-- Claim C20 fails on the code: with `a` and `b` registered, the `userConnected`
of `b` whose `userId` is the number 42 raises out of its handler, and so does a
`userAction` of `b` whose payload is `null`; after the announcement every
snapshot computation raises: on request, on a stats request, on the
well-formed announcement of `a`, on the disconnect of `a`, in the cleanup sweep
that evicts `a`, and in the periodic update. -/
theorem handlers_throw_on_malformed_payload :
    ((Server.init.run (numericPeerTrace.take 2)).handle
      (.userConnected "b" (some numericAnnounce))).2.threw = true ∧
    ((Server.init.run (numericPeerTrace.take 2)).handle
      (.userAction "b" none ⟨3000, "10:00"⟩)).2.threw = true ∧
    ((Server.init.run numericPeerTrace).handle (.requestActiveUsers "a")).2.threw = true ∧
    ((Server.init.run numericPeerTrace).handle (.requestUserStats "a")).2.threw = true ∧
    ((Server.init.run numericPeerTrace).handle
      (.userConnected "a" (some aliceAnnounce))).2.threw = true ∧
    ((Server.init.run numericPeerTrace).handle
      (.disconnect "a" "transport close" ⟨9000, "10:00"⟩)).2.threw = true ∧
    ((Server.init.run numericPeerTrace).handle
      (.cleanup [("b", true)] ⟨70000, "10:01"⟩)).2.threw = true ∧
    ((Server.init.run numericPeerTrace).handle .periodicUpdate).2.threw = true := by
  decide

/-! ## The activity list and the history of user counts -/

theorem capActivity_cons (record : ActivityRecord) (activity : List ActivityRecord)
    (hlen : activity.length ≤ 50) :
    capActivity (record :: activity) =
      if activity.length = 50 then record :: activity.dropLast else record :: activity := by
  unfold capActivity
  by_cases h : activity.length = 50
  · have hne : activity ≠ [] := by
      intro h0
      rw [h0] at h
      simp at h
    obtain ⟨x, xs, rfl⟩ := List.exists_cons_of_ne_nil hne
    simp [h]
  · have : ¬ (record :: activity).length > 50 := by
      simp only [List.length_cons]
      omega
    rw [if_neg this, if_neg h]

theorem capActivity_head (record : ActivityRecord) (activity : List ActivityRecord) :
    (capActivity (record :: activity)).head? = some record := by
  unfold capActivity
  split_ifs with h
  · cases activity with
    | nil => simp at h
    | cons x xs => simp [List.dropLast]
  · rfl

/-- With a string as actor identity, `handleUserAction` puts its record on
`userStats.activity` and caps the list. -/
theorem handleUserAction_pushes_record (us : UserStats) (d : ActionData) (socket : Socket)
    (clk : Clock) (uid : String)
    (hid : (jsOr d.userId (jsOr socket.customId (.str socket.userId))).substring8 = some uid) :
    (handleUserAction us d socket clk).stats.activity =
      capActivity
        ({ type := jsOr d.type (.str "action"), userId := uid,
           time := jsOr d.time (.str clk.label), timestamp := clk.now,
           data := jsOr d.payload .object, reason := none } :: us.activity) := by
  unfold handleUserAction
  simp only [hid]
  split <;> rfl

/-- Counterexample to C21 as stated: the `click` action of `S2` whose `userId` is the
number 42, passed to `handleUserAction` with three records in
`userStats.activity`, leaves the list as it was: no new record heads it. -/
theorem handleUserAction_numeric_identity_keeps_activity :
    (Server.init.run threeSessions).userStats.activity.length = 3 ∧
    (handleUserAction (Server.init.run threeSessions).userStats numericClickAction socketS2
      ⟨5000, "10:00"⟩).stats.activity = (Server.init.run threeSessions).userStats.activity := by
  decide

/-- Claim C21, amended: for every `userStats.activity` list of at most 50 records
and every `userAction` passed to `handleUserAction` whose actor identity
(`data.userId || socket.customId || socket.userId`) is a string, the resulting
list is the new record followed by the previous records in their order, without
the last of them when the previous list held 50; it has at most 50 records. -/
theorem handleUserAction_activity (us : UserStats) (d : ActionData) (socket : Socket)
    (clk : Clock) (uid : String)
    (hlen : us.activity.length ≤ 50)
    (hid : (jsOr d.userId (jsOr socket.customId (.str socket.userId))).substring8 = some uid) :
    (handleUserAction us d socket clk).stats.activity =
      (if us.activity.length = 50 then
        { type := jsOr d.type (.str "action"), userId := uid,
          time := jsOr d.time (.str clk.label), timestamp := clk.now,
          data := jsOr d.payload .object, reason := none } :: us.activity.dropLast
      else
        { type := jsOr d.type (.str "action"), userId := uid,
          time := jsOr d.time (.str clk.label), timestamp := clk.now,
          data := jsOr d.payload .object, reason := none } :: us.activity) ∧
    (handleUserAction us d socket clk).stats.activity.length ≤ 50 := by
  rw [handleUserAction_pushes_record us d socket clk uid hid, capActivity_cons _ _ hlen]
  refine ⟨rfl, ?_⟩
  split_ifs with h
  · simp [h]
  · simp only [List.length_cons]
    omega

/-- Witness of the amended C21: the `click` action of `S2` with three records in the
list. -/
theorem handleUserAction_activity_witness :
    (Server.init.run threeSessions).userStats.activity.length ≤ 50 ∧
    (handleUserAction (Server.init.run threeSessions).userStats clickAction socketS2
      ⟨5000, "10:00"⟩).stats.activity.length ≤ 50 :=
  ⟨by decide,
    (handleUserAction_activity (Server.init.run threeSessions).userStats clickAction socketS2
      ⟨5000, "10:00"⟩ "4e5f6a7b" (by decide) (by decide)).2⟩

theorem setCountAtLabel_length (label : String) (count : Int) (h : List HistoryPoint) :
    (setCountAtLabel label count h).length = h.length := by
  induction h with
  | nil => rfl
  | cons p ps ih =>
    unfold setCountAtLabel
    split_ifs
    · rfl
    · simp [ih]

theorem updateUserHistory_length (us : UserStats) (clk : Clock) (hlen : us.history.length ≤ 24) :
    (updateUserHistory us clk).1.history.length ≤ 24 := by
  unfold updateUserHistory
  simp only
  split_ifs with h1 h2
  · rw [setCountAtLabel_length]
    exact hlen
  · simp only [List.length_tail, List.length_append, List.length_singleton]
    omega
  · simp only [List.length_append, List.length_singleton] at h2 ⊢
    omega

theorem runHistoryCalls_length (calls : List (Int × Clock)) (us : UserStats)
    (hlen : us.history.length ≤ 24) : (runHistoryCalls us calls).history.length ≤ 24 := by
  induction calls generalizing us with
  | nil => exact hlen
  | cons call rest ih =>
    unfold runHistoryCalls
    exact ih _ (updateUserHistory_length _ _ hlen)

/-- Claim C23: after every sequence of `updateUserHistory()` calls from the initial
state, at arbitrary clock readings and user counts, `userStats.history` has at most
24 entries; one call keeps a history of at most 24 entries at most 24 long; and
when the history holds 24 entries and the call brings a time label none of them
has, the new history is the old one without its first (oldest) entry, followed by
the new point. -/
theorem updateUserHistory_bounded :
    (∀ calls : List (Int × Clock),
      (runHistoryCalls UserStats.init calls).history.length ≤ 24) ∧
    (∀ (us : UserStats) (clk : Clock), us.history.length ≤ 24 →
      (updateUserHistory us clk).1.history.length ≤ 24) ∧
    (∀ (us : UserStats) (clk : Clock), us.history.length = 24 →
      (∀ p ∈ us.history, p.time ≠ clk.label) →
      (updateUserHistory us clk).1.history =
        us.history.tail ++
          [{ time := clk.label, count := us.currentUsers, timestamp := clk.now }]) := by
  refine ⟨fun calls => runHistoryCalls_length calls _ (by simp [UserStats.init]),
    updateUserHistory_length, ?_⟩
  intro us clk hlen hnew
  have hany : us.history.any (fun item => decide (item.time = clk.label)) = false := by
    rw [List.any_eq_false]
    intro p hp
    simpa using hnew p hp
  have hne : us.history ≠ [] := by
    intro h0
    rw [h0] at hlen
    simp at hlen
  obtain ⟨x, xs, hx⟩ := List.exists_cons_of_ne_nil hne
  have hany2 : ¬ (us.history.any (fun item => decide (item.time = clk.label)) = true) := by
    simp [hany]
  have hlong : (us.history ++
      [({ time := clk.label, count := us.currentUsers, timestamp := clk.now } :
        HistoryPoint)]).length > 24 := by
    simp only [List.length_append, List.length_singleton]
    omega
  unfold updateUserHistory
  simp only
  rw [if_neg hany2, if_pos hlong, List.tail_append_of_ne_nil hne]

/-- Witness of C23: after 24 calls in 24 distinct minutes, a call in a 25th minute
drops the oldest point. -/
theorem updateUserHistory_bounded_witness :
    (runHistoryCalls UserStats.init (minuteCalls 24)).history.length = 24 ∧
    (∀ p ∈ (runHistoryCalls UserStats.init (minuteCalls 24)).history, p.time ≠ "t24") ∧
    (updateUserHistory (runHistoryCalls UserStats.init (minuteCalls 24))
      ⟨1440000, "t24"⟩).1.history =
      (runHistoryCalls UserStats.init (minuteCalls 24)).history.tail ++
        [{ time := "t24",
           count := (runHistoryCalls UserStats.init (minuteCalls 24)).currentUsers,
           timestamp := 1440000 }] :=
  ⟨by decide, by decide,
    updateUserHistory_bounded.2.2 (runHistoryCalls UserStats.init (minuteCalls 24))
      ⟨1440000, "t24"⟩ (by decide) (by decide)⟩

/-! ## Shutdown -/

/-- Counterexample to C22 as stated: `gracefulShutdown` run on the server in
operation, with `io.close()` closing the HTTP server and `pool.end()` succeeding,
cancels both periodic loops before it sends the shutdown notice, not after; the
effects come in the order listed. -/
theorem gracefulShutdown_cancels_before_notice :
    cameBefore .cleanupLoopCancelled .noticeSent
      (gracefulShutdown true true ShutdownRun.running).effects = true ∧
    cameBefore .updateLoopCancelled .noticeSent
      (gracefulShutdown true true ShutdownRun.running).effects = true ∧
    cameBefore .noticeSent .cleanupLoopCancelled
      (gracefulShutdown true true ShutdownRun.running).effects = false ∧
    cameBefore .noticeSent .updateLoopCancelled
      (gracefulShutdown true true ShutdownRun.running).effects = false ∧
    (gracefulShutdown true true ShutdownRun.running).effects =
      [.cleanupLoopCancelled, .updateLoopCancelled, .noticeSent, .socketServerClosed,
       .httpListenerClosed, .poolClosed, .processExit] := by
  decide

/-- Claim C22, amended: `gracefulShutdown` run on the server in operation cancels
the periodic loops (`cleanupInterval`, then `updateInterval`), then sends the
shutdown notice to all sessions while the Socket.io server is still open, then
closes the Socket.io server, then ends the database pool, and ends the process
last. The HTTP listener is closed once: by `io.close()`, before the pool is ended,
when Socket.io closes the HTTP server it is attached to, and otherwise by
`server.close`, after the pool; a failure of `pool.end()` changes nothing else. -/
theorem gracefulShutdown_order (closesHttpServer endOk : Bool) :
    (gracefulShutdown closesHttpServer endOk ShutdownRun.running).effects =
      [.cleanupLoopCancelled, .updateLoopCancelled, .noticeSent, .socketServerClosed] ++
        (if closesHttpServer then [.httpListenerClosed] else []) ++
        (if endOk then [.poolClosed] else []) ++
        (if closesHttpServer then [] else [.httpListenerClosed]) ++ [.processExit] ∧
    cameBefore .updateLoopCancelled .noticeSent
      (gracefulShutdown closesHttpServer endOk ShutdownRun.running).effects = true ∧
    cameBefore .noticeSent .socketServerClosed
      (gracefulShutdown closesHttpServer endOk ShutdownRun.running).effects = true ∧
    cameBefore .socketServerClosed .poolClosed
      (gracefulShutdown closesHttpServer endOk ShutdownRun.running).effects = endOk ∧
    cameBefore .httpListenerClosed .poolClosed
      (gracefulShutdown closesHttpServer endOk ShutdownRun.running).effects =
        (closesHttpServer && endOk) ∧
    cameBefore .poolClosed .httpListenerClosed
      (gracefulShutdown closesHttpServer endOk ShutdownRun.running).effects =
        (!closesHttpServer && endOk) ∧
    (gracefulShutdown closesHttpServer endOk ShutdownRun.running).resources =
      { cleanupIntervalSet := false, updateIntervalSet := false, socketServerOpen := false,
        httpListening := false, poolOpen := !endOk } := by
  cases closesHttpServer <;> cases endOk <;> decide

/-! ## The client: reconnection and chart histories -/

/-- What `handleReconnection` schedules when `reconnectAttempts` holds `n - 1`. -/
theorem handleReconnection_schedule (n : Nat) (hn : 1 ≤ n) :
    handleReconnection (n - 1) =
      (n, if n ≤ 10 then some (min (1000 * n) 5000) else none) := by
  have hpred : n - 1 + 1 = n := by omega
  simp only [handleReconnection, hpred]
  by_cases h : n ≤ 10
  · have h3 : ¬ n > 10 := by omega
    rw [if_neg h3, if_pos h]
  · have h3 : n > 10 := by omega
    rw [if_pos h3, if_neg h]

theorem runClient_snoc (evs : List SocketEvent) (ev : SocketEvent) :
    runClient (evs ++ [ev]) =
      (((runClient evs).1.handle ev).1,
        match ev with
        | .connect => 0
        | _ => if ((runClient evs).1.handle ev).2.isSome then (runClient evs).2 + 1
               else (runClient evs).2) := by
  unfold runClient
  rw [List.foldl_append]
  rfl

/-- Between two `connect` events `handleReconnection` is called at most once:
`reconnectAttempts` counts the calls since the last `connect`, and
`pendingReconnect` is set exactly when there was one. -/
theorem runClient_calls (evs : List SocketEvent) :
    (runClient evs).1.reconnectAttempts = (runClient evs).2 ∧
    (runClient evs).2 ≤ 1 ∧
    ((runClient evs).1.pendingReconnect = true ↔ (runClient evs).2 = 1) := by
  induction evs using List.reverseRecOn with
  | nil => simp [runClient, ReconnectState.init]
  | append_singleton evs ev ih =>
    obtain ⟨h1, h2, h3⟩ := ih
    have hrun := runClient_snoc evs ev
    rw [hrun]
    have honce : ((reconnectOnce (runClient evs).1).1.reconnectAttempts =
          (if (reconnectOnce (runClient evs).1).2.isSome then (runClient evs).2 + 1
            else (runClient evs).2)) ∧
        (if (reconnectOnce (runClient evs).1).2.isSome then (runClient evs).2 + 1
            else (runClient evs).2) ≤ 1 ∧
        ((reconnectOnce (runClient evs).1).1.pendingReconnect = true ↔
          (if (reconnectOnce (runClient evs).1).2.isSome then (runClient evs).2 + 1
            else (runClient evs).2) = 1) := by
      unfold reconnectOnce
      cases hp : (runClient evs).1.pendingReconnect with
      | true =>
        have := h3.1 hp
        simp [hp, h1, this]
      | false =>
        have h0 : (runClient evs).2 = 0 := by
          have : ¬ (runClient evs).2 = 1 := fun h => by
            have := h3.2 h
            rw [hp] at this
            exact Bool.noConfusion this
          omega
        simp [handleReconnection, h1, h0]
    cases ev with
    | connect => simp [ReconnectState.handle]
    | disconnect reason =>
      by_cases hr : reason ≠ "io client disconnect" ∧ reason ≠ "io server disconnect"
      · have hh : (runClient evs).1.handle (.disconnect reason) =
            reconnectOnce (runClient evs).1 := if_pos hr
        rw [hh]
        exact honce
      · have hh : (runClient evs).1.handle (.disconnect reason) = ((runClient evs).1, none) :=
          if_neg hr
        rw [hh]
        exact ⟨h1, h2, h3⟩
    | connectError => exact honce

/-- Claim C24: for every sequence of socket events of the client and every call of
`handleReconnection` an event makes, when that call is the `n`-th since the last
`connect`, then `n ≥ 1` and the call schedules a reconnection attempt after
`min(1000 * n, 5000)` ms when `n ≤ 10` and none when `n > 10`; a scheduled delay
never exceeds 5000 ms. Both call sites are guarded by `pendingReconnect`, which
only `connect` clears, so `n` is in fact 1 and the delay 1000 ms. -/
theorem handleReconnection_delay (evs : List SocketEvent) (ev : SocketEvent)
    (scheduled : Option Nat) (n : Nat)
    (hcall : ((runClient evs).1.handle ev).2 = some scheduled)
    (hnth : (runClient (evs ++ [ev])).2 = n) :
    1 ≤ n ∧
    scheduled = (if n ≤ 10 then some (min (1000 * n) 5000) else none) ∧
    (∀ delay, scheduled = some delay → delay ≤ 5000) ∧
    n = 1 := by
  obtain ⟨h1, h2, h3⟩ := runClient_calls evs
  have hrun := runClient_snoc evs ev
  have honce : (reconnectOnce (runClient evs).1).2 = some scheduled →
      (runClient evs).2 = 0 ∧ scheduled = (handleReconnection (runClient evs).2).2 := by
    intro h
    unfold reconnectOnce at h
    cases hp : (runClient evs).1.pendingReconnect with
    | true => simp [hp] at h
    | false =>
      have h0 : (runClient evs).2 = 0 := by
        have : ¬ (runClient evs).2 = 1 := fun h => by
          have := h3.2 h
          rw [hp] at this
          exact Bool.noConfusion this
        omega
      simp only [hp, Bool.not_false, if_true, Option.some.injEq] at h
      rw [h1] at h
      exact ⟨h0, h.symm⟩
  have hmain : (runClient evs).2 = 0 ∧ scheduled = (handleReconnection (runClient evs).2).2 ∧
      n = (runClient evs).2 + 1 := by
    cases ev with
    | connect => simp [ReconnectState.handle] at hcall
    | disconnect reason =>
      by_cases hr : reason ≠ "io client disconnect" ∧ reason ≠ "io server disconnect"
      · have hh : (runClient evs).1.handle (.disconnect reason) =
            reconnectOnce (runClient evs).1 := if_pos hr
        rw [hh] at hcall
        obtain ⟨h0, hs⟩ := honce hcall
        refine ⟨h0, hs, ?_⟩
        rw [hrun, hh, hcall] at hnth
        simpa using hnth.symm
      · have hh : (runClient evs).1.handle (.disconnect reason) = ((runClient evs).1, none) :=
          if_neg hr
        rw [hh] at hcall
        exact Option.noConfusion hcall
    | connectError =>
      have hh : (runClient evs).1.handle .connectError = reconnectOnce (runClient evs).1 := rfl
      rw [hh] at hcall
      obtain ⟨h0, hs⟩ := honce hcall
      refine ⟨h0, hs, ?_⟩
      rw [hrun, hh, hcall] at hnth
      simpa using hnth.symm
  obtain ⟨h0, hs, hn⟩ := hmain
  rw [h0] at hs hn
  subst hn
  rw [hs]
  refine ⟨by omega, by decide, ?_, rfl⟩
  intro delay hd
  have : delay = 1000 := by
    have h : (handleReconnection 0).2 = some 1000 := by decide
    rw [h] at hd
    exact (Option.some.inj hd).symm
  omega

/-- Witness of C24: after a `connect`, the loss of the transport makes the first
call, which schedules an attempt after 1000 ms. -/
theorem handleReconnection_delay_witness :
    ((runClient [.connect]).1.handle (.disconnect "transport close")).2 = some (some 1000) ∧
    (runClient ([.connect] ++ [.disconnect "transport close"])).2 = 1 ∧
    some 1000 = (if 1 ≤ 10 then some (min (1000 * 1) 5000) else none) :=
  ⟨by decide, by decide,
    (handleReconnection_delay [.connect] (.disconnect "transport close") (some 1000) 1
      (by decide) (by decide)).2.1⟩

/-- Claim C25 fails on the code: one point is added, the ten-minute filter applied
eleven minutes later empties the chart, and after 100 more points the chart holds
100 labels, so nothing has been trimmed, while `perceptionHistory` and
`actionHistory` hold 101 entries each. -/
theorem chart_histories_exceed_cap :
    (runChart ChartState.init staleFilterCalls).perceptionHistory.length = 101 ∧
    (runChart ChartState.init staleFilterCalls).actionHistory.length = 101 ∧
    (runChart ChartState.init staleFilterCalls).labels.length = 100 ∧
    (runChart ChartState.init (staleFilterCalls.take 2)).labels = [] := by
  decide

/-! ## Drops of the throttle gate -/

theorem runCalls_append (tbl : ThrottleTable) (a b : List ThrottleCall) :
    runCalls tbl (a ++ b) = runCalls (runCalls tbl a) b := by
  simp [runCalls, List.foldl_append]

/-- After calls on one key at readings of at least the interval, from a table without
the key: either no call was made, or the key maps to the reading of a call of the
sequence that was let through. -/
theorem runCalls_key_recorded (tbl : ThrottleTable) (socketId eventType : String)
    (minIntervalMs : Int) (pre : List Int)
    (hfresh : JsMap.get tbl (lastEmitKey socketId eventType) = none)
    (hclock : ∀ x ∈ pre, minIntervalMs ≤ x) :
    (pre = [] ∧
      JsMap.get (runCalls tbl (keyCalls socketId eventType minIntervalMs pre))
        (lastEmitKey socketId eventType) = none) ∨
    ∃ pre1 t' pre2, pre = pre1 ++ t' :: pre2 ∧
      (shouldThrottleEvent (runCalls tbl (keyCalls socketId eventType minIntervalMs pre1))
        t' socketId eventType minIntervalMs).1 = false ∧
      JsMap.get (runCalls tbl (keyCalls socketId eventType minIntervalMs pre))
        (lastEmitKey socketId eventType) = some t' := by
  induction pre using List.reverseRecOn with
  | nil => exact Or.inl ⟨rfl, hfresh⟩
  | append_singleton pre x ih =>
    have hx : minIntervalMs ≤ x := hclock x (by simp)
    have hrun : runCalls tbl (keyCalls socketId eventType minIntervalMs (pre ++ [x])) =
        (shouldThrottleEvent (runCalls tbl (keyCalls socketId eventType minIntervalMs pre))
          x socketId eventType minIntervalMs).2 := by
      simp [keyCalls, runCalls, List.foldl_append]
    right
    rw [hrun]
    cases hres : (shouldThrottleEvent (runCalls tbl (keyCalls socketId eventType minIntervalMs pre))
          x socketId eventType minIntervalMs).1 with
    | false =>
      refine ⟨pre, x, [], rfl, hres, ?_⟩
      unfold shouldThrottleEvent at hres ⊢
      simp only at hres ⊢
      split_ifs at hres ⊢
      exact JsMap.get_set_self _ _ _
    | true =>
      have hsame : (shouldThrottleEvent
          (runCalls tbl (keyCalls socketId eventType minIntervalMs pre))
          x socketId eventType minIntervalMs).2 =
          runCalls tbl (keyCalls socketId eventType minIntervalMs pre) := by
        unfold shouldThrottleEvent at hres ⊢
        simp only at hres ⊢
        split_ifs at hres ⊢
        rfl
      rw [hsame]
      rcases ih (fun y hy => hclock y (by simp [hy])) with ⟨_, hnone⟩ | ⟨pre1, t', pre2, hpre, hadm, hget⟩
      · exfalso
        unfold shouldThrottleEvent at hres
        simp only [hnone, lastOrZero] at hres
        split_ifs at hres with hlt
        · omega
      · exact ⟨pre1, t', pre2 ++ [x], by simp [hpre], hadm, hget⟩

/-- Claim C26: for calls of `shouldThrottleEvent` on one key with one
`minIntervalMs`, from a table with no entry for the key, at non-decreasing clock
readings that are all at least `minIntervalMs`: when the call at reading `t`, made
after the calls at the readings `pre`, is dropped, one of those earlier calls, at
a reading `t'` with `t' ≤ t` and `t - t' < minIntervalMs`, was admitted. -/
theorem shouldThrottleEvent_drop_after_admit (tbl : ThrottleTable) (socketId eventType : String)
    (minIntervalMs : Int) (pre : List Int) (t : Int)
    (hfresh : JsMap.get tbl (lastEmitKey socketId eventType) = none)
    (hclock : ∀ x ∈ pre ++ [t], minIntervalMs ≤ x)
    (hsorted : (pre ++ [t]).Pairwise (fun a b => a ≤ b))
    (hdrop : (shouldThrottleEvent
      (runCalls tbl (keyCalls socketId eventType minIntervalMs pre))
      t socketId eventType minIntervalMs).1 = true) :
    ∃ pre1 t' pre2, pre = pre1 ++ t' :: pre2 ∧
      (shouldThrottleEvent (runCalls tbl (keyCalls socketId eventType minIntervalMs pre1))
        t' socketId eventType minIntervalMs).1 = false ∧
      t' ≤ t ∧ t - t' < minIntervalMs := by
  have ht : minIntervalMs ≤ t := hclock t (by simp)
  rcases runCalls_key_recorded tbl socketId eventType minIntervalMs pre hfresh
      (fun y hy => hclock y (by simp [hy])) with ⟨_, hnone⟩ | ⟨pre1, t', pre2, hpre, hadm, hget⟩
  · exfalso
    unfold shouldThrottleEvent at hdrop
    simp only [hnone, lastOrZero] at hdrop
    split_ifs at hdrop with hlt
    · omega
  · refine ⟨pre1, t', pre2, hpre, hadm, ?_, ?_⟩
    · rw [List.pairwise_append] at hsorted
      exact hsorted.2.2 t' (by simp [hpre]) t (by simp)
    · unfold shouldThrottleEvent at hdrop
      simp only [hget, lastOrZero_some] at hdrop
      split_ifs at hdrop with hlt
      · exact hlt

/-- Witness of C26: calls at 5000 (admitted) and 5100, then the dropped call at
5200, with the interval 300. -/
theorem shouldThrottleEvent_drop_after_admit_witness :
    (shouldThrottleEvent (runCalls [] (keyCalls "s1" "slider" 300 [5000, 5100]))
      5200 "s1" "slider" 300).1 = true ∧
    ∃ pre1 t' pre2, [5000, 5100] = pre1 ++ t' :: pre2 ∧
      (shouldThrottleEvent (runCalls [] (keyCalls "s1" "slider" 300 pre1))
        t' "s1" "slider" 300).1 = false ∧
      t' ≤ 5200 ∧ 5200 - t' < 300 :=
  ⟨by decide,
    shouldThrottleEvent_drop_after_admit [] "s1" "slider" 300 [5000, 5100] 5200
      (by decide) (by decide) (by decide) (by decide)⟩

/-! ## Throttle keys of other sessions -/

theorem isPrefixOf_colon_cases (c : Char) (s t ev : List Char)
    (h : (s ++ [c]).isPrefixOf (t ++ c :: ev) = true) :
    s = t ∨ (s ++ [c]).isPrefixOf t = true ∨ (t ++ [c]).isPrefixOf s = true := by
  induction s generalizing t with
  | nil =>
    cases t with
    | nil => exact Or.inl rfl
    | cons b t =>
      simp only [List.nil_append, List.cons_append, List.isPrefixOf, Bool.and_eq_true,
        beq_iff_eq] at h ⊢
      exact Or.inr (Or.inl ⟨h.1, trivial⟩)
  | cons a s ih =>
    cases t with
    | nil =>
      simp only [List.nil_append, List.cons_append, List.isPrefixOf, Bool.and_eq_true,
        beq_iff_eq] at h ⊢
      exact Or.inr (Or.inr ⟨h.1.symm, trivial⟩)
    | cons b t =>
      simp only [List.cons_append, List.isPrefixOf, Bool.and_eq_true, beq_iff_eq] at h ⊢
      rcases ih t h.2 with h1 | h1 | h1
      · exact Or.inl (by rw [h.1, h1])
      · exact Or.inr (Or.inl ⟨h.1, h1⟩)
      · exact Or.inr (Or.inr ⟨h.1.symm, h1⟩)

theorem startsWith_lastEmitKey_other (s t eventType : String) (hne : s ≠ t)
    (hst : startsWith t (s ++ ":") = false) (hts : startsWith s (t ++ ":") = false) :
    startsWith (lastEmitKey t eventType) (s ++ ":") = false := by
  cases hcase : startsWith (lastEmitKey t eventType) (s ++ ":") with
  | false => rfl
  | true =>
    exfalso
    unfold startsWith lastEmitKey at hcase
    unfold startsWith at hst hts
    simp only [String.data_append, List.append_assoc] at hcase hst hts
    rcases isPrefixOf_colon_cases ':' s.data t.data eventType.data hcase with h | h | h
    · exact hne (String.ext h)
    · rw [h] at hst
      exact Bool.noConfusion hst
    · rw [h] at hts
      exact Bool.noConfusion hts

/-- A string without a colon does not start with another string followed by a
colon. -/
theorem startsWith_colon_of_colon_free (t s : String) (ht : ':' ∉ t.data) :
    startsWith t (s ++ ":") = false := by
  cases hcase : startsWith t (s ++ ":") with
  | false => rfl
  | true =>
    exfalso
    unfold startsWith at hcase
    rw [List.isPrefixOf_iff_prefix] at hcase
    apply ht
    apply hcase.subset
    simp

/-- Claim C27: for every state and every two distinct session ids `s` and `t` as
the transport assigns them (no colon in either), the disconnect handler of `s`
removes from `userStats.lastEmitTime` only keys of `s`: a key that does not start
with `s` followed by a colon keeps its entry, and every throttle key of `t` is
still present afterwards with the same timestamp. -/
theorem onDisconnect_keeps_other_keys (us : UserStats) (socket : Socket) (reason : String)
    (clk : Clock) (t : String)
    (hne : socket.id ≠ t) (hs : ':' ∉ socket.id.data) (ht : ':' ∉ t.data) :
    (∀ key, startsWith key (socket.id ++ ":") = false →
      JsMap.get (onDisconnect us socket reason clk).stats.lastEmitTime key =
        JsMap.get us.lastEmitTime key) ∧
    (∀ eventType timestamp,
      JsMap.get us.lastEmitTime (lastEmitKey t eventType) = some timestamp →
      JsMap.get (onDisconnect us socket reason clk).stats.lastEmitTime
        (lastEmitKey t eventType) = some timestamp) := by
  have hkeep : ∀ key, startsWith key (socket.id ++ ":") = false →
      JsMap.get (onDisconnect us socket reason clk).stats.lastEmitTime key =
        JsMap.get us.lastEmitTime key := by
    intro key hkey
    rw [onDisconnect_lastEmitTime,
      JsMap.get_filter_key _ (fun key => !startsWith key (socket.id ++ ":")), hkey]
    simp
  refine ⟨hkeep, ?_⟩
  intro eventType timestamp hkey
  rw [hkeep _ (startsWith_lastEmitKey_other socket.id t eventType hne
    (startsWith_colon_of_colon_free t socket.id ht)
    (startsWith_colon_of_colon_free socket.id t hs))]
  exact hkey

/-- Witness of C27: the `slider` key of `S2` survives the disconnect of `S1`. -/
theorem onDisconnect_keeps_other_keys_witness :
    ("S1" : String) ≠ "S2" ∧ ':' ∉ ("S1" : String).data ∧ ':' ∉ ("S2" : String).data ∧
    JsMap.get (onUserAction (Server.init.run threeSessions).userStats socketS2
      (some sliderAction) ⟨5000, "10:00"⟩).stats.lastEmitTime (lastEmitKey "S2" "slider") =
      some 5000 ∧
    JsMap.get (onDisconnect (onUserAction (Server.init.run threeSessions).userStats socketS2
      (some sliderAction) ⟨5000, "10:00"⟩).stats ⟨"S1", "0a1b2c3d-0000", .undefined⟩
      "transport close" ⟨9000, "10:00"⟩).stats.lastEmitTime (lastEmitKey "S2" "slider") =
      some 5000 :=
  ⟨by decide, by decide, by decide, by decide,
    (onDisconnect_keeps_other_keys (onUserAction (Server.init.run threeSessions).userStats
      socketS2 (some sliderAction) ⟨5000, "10:00"⟩).stats ⟨"S1", "0a1b2c3d-0000", .undefined⟩
      "transport close" ⟨9000, "10:00"⟩ "S2" (by decide) (by decide) (by decide)).2
      "slider" 5000 (by decide)⟩

/-! ## Snapshot at connection, actor of an action, recommendations -/

/-- Claim C28 fails on the code: with `S1` registered under the announced identity
`alice-01234`, the connection handler of `S2` broadcasts a list that names `S1` by
the first 8 characters of its `userId`, while the snapshot of the same registry on
every other path, here `requestActiveUsers`, names it `alice-01`. -/
theorem onConnection_snapshot_differs :
    (⟨.all, .activeUsers [⟨"0a1b2c3d", 1000⟩, ⟨"4e5f6a7b", 1100⟩]⟩ : Msg) ∈
      ((Server.init.run announcedTrace).handle
        (.connection (handshakeOf "S2" "4e5f6a7b-0000") ⟨1100, "10:00"⟩)).2.emitted ∧
    activeUsersList ((Server.init.run announcedTrace).step
        (.connection (handshakeOf "S2" "4e5f6a7b-0000") ⟨1100, "10:00"⟩)).userStats.activeUsers =
      some [⟨"alice-01", 1000⟩, ⟨"4e5f6a7b", 1100⟩] ∧
    ((Server.init.run (announcedTrace ++
        [.connection (handshakeOf "S2" "4e5f6a7b-0000") ⟨1100, "10:00"⟩])).handle
        (.requestActiveUsers "S2")).2.emitted =
      [⟨.only "S2", .activeUsers [⟨"alice-01", 1000⟩, ⟨"4e5f6a7b", 1100⟩]⟩] := by
  decide

/-- Counterexample to C29 as stated: the `click` action of `S2` whose payload names
`mallory-000` is recorded and broadcast with the actor `mallory-`, while the
presence snapshot lists `S2` as `4e5f6a7b`. -/
theorem handleUserAction_payload_names_actor :
    ((handleUserAction (Server.init.run threeSessions).userStats spoofedClickAction socketS2
      ⟨5000, "10:00"⟩).stats.activity.head?).map (fun r => r.userId) = some "mallory-" ∧
    activeUsersList (Server.init.run threeSessions).userStats.activeUsers =
      some [⟨"0a1b2c3d", 1000⟩, ⟨"4e5f6a7b", 1100⟩, ⟨"8c9d0e1f", 1200⟩] ∧
    (handleUserAction (Server.init.run threeSessions).userStats spoofedClickAction socketS2
      ⟨5000, "10:00"⟩).emitted.map (fun m =>
        match m.payload with
        | .userActivity r => r.userId
        | .stateUpdate r _ => r.userId
        | _ => "") = ["mallory-", "mallory-"] := by
  decide

theorem handleUserAction_emitted (us : UserStats) (d : ActionData) (socket : Socket)
    (clk : Clock) (uid : String)
    (hid : (jsOr d.userId (jsOr socket.customId (.str socket.userId))).substring8 = some uid) :
    ∀ msg ∈ (handleUserAction us d socket clk).emitted,
      msg = ⟨.all, .userActivity
        { type := jsOr d.type (.str "action"), userId := uid,
          time := jsOr d.time (.str clk.label), timestamp := clk.now,
          data := jsOr d.payload .object, reason := none }⟩ ∨
      msg = ⟨.all, .stateUpdate
        { type := jsOr d.type (.str "action"), userId := uid,
          time := jsOr d.time (.str clk.label), timestamp := clk.now,
          data := jsOr d.payload .object, reason := none } clk.now⟩ := by
  intro msg hmsg
  unfold handleUserAction at hmsg
  simp only [hid] at hmsg
  split_ifs at hmsg <;> simp at hmsg <;> (try rcases hmsg with h | h) <;> simp_all

/-- Claim C29, amended: for every `userAction` passed to `handleUserAction` whose
actor identity (`data.userId || socket.customId || socket.userId`) is a string,
the record put on `userStats.activity` and every message broadcast carry the first
8 characters of that identity: of the payload's `userId` when it is a non-empty
string, and, when the payload has no truthy `userId`, of the socket's announced
`customId` or else its `userId`, which is the id the presence snapshot lists for a
registry value with that `customId` and `userId`. -/
theorem handleUserAction_actor (us : UserStats) (d : ActionData) (socket : Socket)
    (clk : Clock) (uid : String)
    (hid : (jsOr d.userId (jsOr socket.customId (.str socket.userId))).substring8 = some uid) :
    ((handleUserAction us d socket clk).stats.activity.head?).map (fun r => r.userId) =
      some uid ∧
    (∀ msg ∈ (handleUserAction us d socket clk).emitted,
      (∃ r, msg.payload = .userActivity r ∧ r.userId = uid) ∨
      (∃ r ts, msg.payload = .stateUpdate r ts ∧ r.userId = uid)) ∧
    (∀ p, d.userId = .str p → p ≠ "" → uid = substring8 p) ∧
    (d.userId.truthy = false →
      (jsOr socket.customId (.str socket.userId)).substring8 = some uid ∧
      ∀ info : UserInfo, info.customId = socket.customId → info.userId = socket.userId →
        activeUsersList [(socket.id, info)] =
          some [{ id := uid, connectTime := info.connectTime }]) := by
  refine ⟨?_, ?_, ?_, ?_⟩
  · rw [handleUserAction_pushes_record us d socket clk uid hid, capActivity_head]
    rfl
  · intro msg hmsg
    rcases handleUserAction_emitted us d socket clk uid hid msg hmsg with h | h
    · exact Or.inl ⟨_, by rw [h], rfl⟩
    · exact Or.inr ⟨_, _, by rw [h], rfl⟩
  · intro p hp hne
    have ht : (JsVal.str p).truthy = true := by simp [JsVal.truthy, hne]
    rw [hp] at hid
    simp only [jsOr, ht, if_true, JsVal.substring8, Option.some.injEq] at hid
    exact hid.symm
  · intro hfalsy
    have hid2 : (jsOr socket.customId (.str socket.userId)).substring8 = some uid := by
      have : jsOr d.userId (jsOr socket.customId (.str socket.userId)) =
          jsOr socket.customId (.str socket.userId) := by
        simp [jsOr, hfalsy]
      rw [this] at hid
      exact hid
    refine ⟨hid2, ?_⟩
    intro info hc hu
    simp only [activeUsersList, JsMap.values, List.map_cons, List.map_nil, List.mapM_cons,
      List.mapM_nil, hc, hu, hid2]
    rfl

/-- Witness of the amended C29: the `click` action of `S2` without a `userId` is
recorded under `4e5f6a7b`. -/
theorem handleUserAction_actor_witness :
    (jsOr clickAction.userId (jsOr socketS2.customId (.str socketS2.userId))).substring8 =
      some "4e5f6a7b" ∧
    ((handleUserAction (Server.init.run threeSessions).userStats clickAction socketS2
      ⟨5000, "10:00"⟩).stats.activity.head?).map (fun r => r.userId) = some "4e5f6a7b" :=
  ⟨by decide,
    (handleUserAction_actor (Server.init.run threeSessions).userStats clickAction socketS2
      ⟨5000, "10:00"⟩ "4e5f6a7b" (by decide)).1⟩

/-! ## The two paths of a recommendation -/

theorem isExponentDigits_colon (l : List Char) (h : ':' ∈ l) : isExponentDigits l = false := by
  cases l with
  | nil => simp at h
  | cons c r =>
    unfold isExponentDigits
    by_cases hc : c = '+' ∨ c = '-'
    · simp only [hc, if_true]
      have hr : ':' ∈ r := by
        rcases List.mem_cons.1 h with h | h
        · rcases hc with hc | hc <;> (rw [hc] at h; exact absurd h (by decide))
        · exact h
      have : r.all Char.isDigit = false := by
        rw [List.all_eq_false]
        exact ⟨':', hr, by decide⟩
      simp [this]
    · simp only [hc, if_false]
      rw [List.all_eq_false]
      exact ⟨':', h, by decide⟩

theorem isFractionRest_colon (l : List Char) (seen : Bool) (h : ':' ∈ l) :
    isFractionRest seen l = false := by
  induction l generalizing seen with
  | nil => simp at h
  | cons c r ih =>
    unfold isFractionRest
    by_cases hd : c.isDigit = true
    · have hr : ':' ∈ r := by
        rcases List.mem_cons.1 h with h | h
        · rw [← h] at hd
          exact absurd hd (by decide)
        · exact h
      simp only [hd, if_true]
      exact ih true hr
    · simp only [hd]
      by_cases he : c = 'e' ∨ c = 'E'
      · have hr : ':' ∈ r := by
          rcases List.mem_cons.1 h with h | h
          · rcases he with he | he <;> (rw [he] at h; exact absurd h (by decide))
          · exact h
        simp [he, isExponentDigits_colon r hr]
      · simp [he]

theorem isDecimalRest_colon (l : List Char) (seen : Bool) (h : ':' ∈ l) :
    isDecimalRest seen l = false := by
  induction l generalizing seen with
  | nil => simp at h
  | cons c r ih =>
    unfold isDecimalRest
    by_cases hd : c.isDigit = true
    · have hr : ':' ∈ r := by
        rcases List.mem_cons.1 h with h | h
        · rw [← h] at hd
          exact absurd hd (by decide)
        · exact h
      simp only [hd, if_true]
      exact ih true hr
    · simp only [hd]
      by_cases hdot : c = '.'
      · have hr : ':' ∈ r := by
          rcases List.mem_cons.1 h with h | h
          · rw [hdot] at h; exact absurd h (by decide)
          · exact h
        simp [hdot, isFractionRest_colon r seen hr]
      · by_cases he : c = 'e' ∨ c = 'E'
        · have hr : ':' ∈ r := by
            rcases List.mem_cons.1 h with h | h
            · rcases he with he | he <;> (rw [he] at h; exact absurd h (by decide))
            · exact h
          simp [hdot, he, isExponentDigits_colon r hr]
        · simp [hdot, he]


theorem mem_dropWhile_of_not {α : Type} (p : α → Bool) (x : α) (l : List α) (hx : x ∈ l)
    (hp : p x = false) : x ∈ l.dropWhile p := by
  induction l with
  | nil => simp at hx
  | cons a l ih =>
    by_cases ha : p a = true
    · rw [List.dropWhile_cons_of_pos ha]
      rcases List.mem_cons.1 hx with h | h
      · rw [h, ha] at hp
        exact Bool.noConfusion hp
      · exact ih h
    · rw [List.dropWhile_cons_of_neg ha]
      exact hx

theorem isStrDecimalLiteral_colon (l : List Char) (h : ':' ∈ l) :
    isStrDecimalLiteral l = false := by
  unfold isStrDecimalLiteral
  cases l with
  | nil => simp at h
  | cons c r =>
    by_cases hc : c = '+' ∨ c = '-'
    · have hr : ':' ∈ r := by
        rcases List.mem_cons.1 h with h | h
        · rcases hc with hc | hc <;> (rw [hc] at h; exact absurd h (by decide))
        · exact h
      have hinf : (r == "Infinity".data) = false := by
        rw [beq_eq_false_iff_ne]
        intro heq
        rw [heq] at hr
        exact absurd hr (by decide)
      simp only [hc, if_true, hinf, isDecimalRest_colon r false hr, Bool.or_self]
    · have hinf : ((c :: r) == "Infinity".data) = false := by
        rw [beq_eq_false_iff_ne]
        intro heq
        rw [heq] at h
        exact absurd h (by decide)
      simp only [hc, if_false, hinf, isDecimalRest_colon (c :: r) false h, Bool.or_self]

theorem isNonDecimalLiteral_colon (l : List Char) (h : ':' ∈ l) :
    isNonDecimalLiteral l = false := by
  unfold isNonDecimalLiteral
  match l, h with
  | [], h => simp at h
  | [_], _ => rfl
  | z :: x :: r, h =>
    simp only
    by_cases hz : z = '0'
    · by_cases hx : x = ':'
      · subst hx
        simp
      · have hr : ':' ∈ r := by
          rcases List.mem_cons.1 h with h | h
          · rw [hz] at h
            exact absurd h (by decide)
          · rcases List.mem_cons.1 h with h | h
            · exact absurd h.symm hx
            · exact h
        have h1 : r.all (fun c => c.isDigit || (decide ('a' ≤ c) && decide (c ≤ 'f')) ||
            (decide ('A' ≤ c) && decide (c ≤ 'F'))) = false := by
          rw [List.all_eq_false]
          exact ⟨':', hr, by decide⟩
        have h2 : r.all (fun c => decide ('0' ≤ c) && decide (c ≤ '7')) = false := by
          rw [List.all_eq_false]
          exact ⟨':', hr, by decide⟩
        have h3 : r.all (fun c => decide (c = '0') || decide (c = '1')) = false := by
          rw [List.all_eq_false]
          exact ⟨':', hr, by decide⟩
        simp only [h1, h2, h3, Bool.and_false, Bool.or_self]
    · simp [hz]

/-- A string that holds a colon is no numeric literal: `isNaN` of it is `true`. -/
theorem isNaNString_of_colon (s : String) (h : ':' ∈ s.data) : isNaNString s = true := by
  unfold isNaNString
  have hws : isStrWhiteSpaceChar ':' = false := by decide
  have h1 : ':' ∈ s.data.dropWhile isStrWhiteSpaceChar := mem_dropWhile_of_not _ _ _ h hws
  have h2 : ':' ∈ ((s.data.dropWhile isStrWhiteSpaceChar).reverse.dropWhile
      isStrWhiteSpaceChar).reverse :=
    List.mem_reverse.2 (mem_dropWhile_of_not _ _ _ (List.mem_reverse.2 h1) hws)
  have h3 : (((s.data.dropWhile isStrWhiteSpaceChar).reverse.dropWhile
      isStrWhiteSpaceChar).reverse).isEmpty = false := by
    cases hl : ((s.data.dropWhile isStrWhiteSpaceChar).reverse.dropWhile
      isStrWhiteSpaceChar).reverse with
    | nil => rw [hl] at h2; simp at h2
    | cons a l => rfl
  simp only [h3, isNonDecimalLiteral_colon _ h2, isStrDecimalLiteral_colon _ h2, Bool.or_self,
    Bool.not_false]

theorem formatTimestampForMySQL_colon (isoTimestamp : String)
    (h : ':' ∈ isoTimestamp.data.take 19) : ':' ∈ (formatTimestampForMySQL isoTimestamp).data := by
  unfold formatTimestampForMySQL
  simp only
  rw [← List.takeWhile_append_dropWhile (fun c => c != 'T') (isoTimestamp.data.take 19)] at h
  rcases List.mem_append.1 h with h | h
  · exact List.mem_append_left _ h
  · apply List.mem_append_right
    cases hd : List.dropWhile (fun c => c != 'T') (isoTimestamp.data.take 19) with
    | nil => rw [hd] at h; simp at h
    | cons c r =>
      rw [hd] at h
      have hc : (fun c => c != 'T') c = false := by
        have := List.head_dropWhile_not (fun c => c != 'T') (isoTimestamp.data.take 19)
          (by rw [hd]; simp)
        simpa [hd] using this
      rcases List.mem_cons.1 h with h | h
      · rw [← h] at hc
        exact absurd hc (by decide)
      · exact List.mem_cons_of_mem _ h

/-- Whatever the payload and the outcome of the insert, `handleNewRecommendation`
returns `false` when the reading of `toISOString()` has a colon among its first 19
characters, as every such reading has (`YYYY-MM-DDTHH:mm:ss.sssZ`): the test for
`NaN` runs over the timestamp string too. -/
theorem handleNewRecommendation_eq_false (d : RecommendationData) (currentTime : String)
    (insertOk : Bool) (hshape : ':' ∈ currentTime.data.take 19) :
    handleNewRecommendation d currentTime insertOk = false := by
  have hnan : isNaNString (formatTimestampForMySQL currentTime) = true :=
    isNaNString_of_colon _ (formatTimestampForMySQL_colon currentTime hshape)
  unfold handleNewRecommendation
  split_ifs with h1
  · rfl
  · simp [InsertValue.isNaNOrNull, hnan]

/-- Claim C30 fails on the code: the recommendation with `percepcion = 7` and the
actions 1, 2, 3, 4 passes the validation of `POST /guardar-recomendacion`, while on
the socket path `handleNewRecommendation` returns `false` although the insert would
succeed; at that clock reading it returns `false` for every payload, because its
test for `NaN` runs over the timestamp string as well. -/
theorem recommendation_socket_path_rejects :
    guardarRecomendacionValidates plainRecommendation = true ∧
    handleNewRecommendation plainRecommendation "2026-11-06T10:00:00.000Z" true = false ∧
    onRecommendation (some plainRecommendation) "2026-11-06T10:00:00.000Z" true = some false ∧
    isNaNString (formatTimestampForMySQL "2026-11-06T10:00:00.000Z") = true ∧
    (∀ (d : RecommendationData) (insertOk : Bool),
      handleNewRecommendation d "2026-11-06T10:00:00.000Z" insertOk = false) :=
  ⟨by decide, by decide, by decide, by decide,
    fun d insertOk => handleNewRecommendation_eq_false d _ insertOk (by decide)⟩

/-! ## What each handler does to the counter, the registry keys and the throttle table -/

namespace JsMap
variable {β : Type}

theorem has_iff_mem_keys (m : JsMap β) (k : String) : has m k = true ↔ k ∈ keys m := by
  unfold has
  cases h : get m k with
  | none =>
    have := (get_eq_none_iff m k).1 h
    simp [this]
  | some v =>
    have : k ∈ keys m := by
      by_contra hk
      have := (get_eq_none_iff m k).2 hk
      rw [h] at this
      cases this
    simp [this]

theorem has_eq_false_iff (m : JsMap β) (k : String) : has m k = false ↔ get m k = none := by
  unfold has
  cases get m k <;> simp

theorem mem_keys_set (m : JsMap β) (k k' : String) (v : β) :
    k' ∈ keys (set m k v) ↔ k' ∈ keys m ∨ k' = k := by
  cases h : get m k with
  | none =>
    rw [keys_set_of_get_none m k v h]
    simp
  | some w =>
    rw [keys_set_of_get m k v w h]
    constructor
    · exact Or.inl
    · rintro (h1 | h1)
      · exact h1
      · rw [h1]
        by_contra hk
        have := (get_eq_none_iff m k).2 hk
        rw [h] at this
        cases this

theorem keys_set_nodup (m : JsMap β) (k : String) (v : β) (hnd : (keys m).Nodup) :
    (keys (set m k v)).Nodup := by
  cases h : get m k with
  | none =>
    rw [keys_set_of_get_none m k v h, List.nodup_append]
    refine ⟨hnd, List.nodup_singleton _, ?_⟩
    intro a ha hb
    simp only [List.mem_singleton] at hb
    exact (get_eq_none_iff m k).1 h (hb ▸ ha)
  | some w =>
    rw [keys_set_of_get m k v w h]
    exact hnd

theorem get_set (m : JsMap β) (k k' : String) (v : β) :
    get (set m k v) k' = if k' = k then some v else get m k' := by
  by_cases h : k' = k
  · rw [h, get_set_self]
    simp
  · rw [get_set_ne m k k' v h]
    simp [h]

theorem get_map_true (m : JsMap β) (k : String) :
    get (m.map (fun e => (e.1, true))) k = (get m k).map (fun _ => true) := by
  induction m with
  | nil => rfl
  | cons e m ih =>
    obtain ⟨k0, v0⟩ := e
    by_cases h0 : k0 = k
    · simp [get, h0]
    · simp only [List.map_cons, get, h0, if_false]
      exact ih

theorem size_set_of_get_none (m : JsMap β) (k : String) (v : β) (h : get m k = none) :
    size (set m k v) = size m + 1 := by
  have := congrArg List.length (keys_set_of_get_none m k v h)
  simpa [size, keys] using this

theorem size_set_of_get (m : JsMap β) (k : String) (v w : β) (h : get m k = some w) :
    size (set m k v) = size m := by
  have := congrArg List.length (keys_set_of_get m k v w h)
  simpa [size, keys] using this

end JsMap

theorem onConnection_currentUsers (us : UserStats) (hs : Handshake) (clk : Clock) :
    (onConnection us hs clk).stats.currentUsers = us.currentUsers + 1 := by
  simp [onConnection, updateUserHistory]

theorem onConnection_lastEmitTime (us : UserStats) (hs : Handshake) (clk : Clock) :
    (onConnection us hs clk).stats.lastEmitTime = us.lastEmitTime := by
  simp [onConnection, updateUserHistory]

theorem onDisconnect_currentUsers (us : UserStats) (socket : Socket) (reason : String)
    (clk : Clock) :
    (onDisconnect us socket reason clk).stats.currentUsers = max 0 (us.currentUsers - 1) := by
  unfold onDisconnect
  simp only [updateUserHistory]
  split
  · rfl
  · split
    · rfl
    · rfl

theorem onUserConnected_frame (us : UserStats) (socket : Socket) (data : Option AnnounceData) :
    (onUserConnected us socket data).1.stats.currentUsers = us.currentUsers ∧
    (onUserConnected us socket data).1.stats.lastEmitTime = us.lastEmitTime ∧
    JsMap.keys (onUserConnected us socket data).1.stats.activeUsers = JsMap.keys us.activeUsers ∧
    (onUserConnected us socket data).2.id = socket.id ∧
    (onUserConnected us socket data).2.userId = socket.userId := by
  unfold onUserConnected
  cases data with
  | none => simp
  | some d =>
    simp only
    by_cases ht : d.userId.truthy = true
    · simp only [ht, if_true]
      cases hget : JsMap.get us.activeUsers socket.id with
      | none =>
        simp only
        split <;> simp
      | some info =>
        simp only
        split <;>
          simp [JsMap.keys_set_of_get us.activeUsers socket.id _ info hget]
    · simp [ht]

theorem handleUserAction_currentUsers (us : UserStats) (d : ActionData) (socket : Socket)
    (clk : Clock) : (handleUserAction us d socket clk).stats.currentUsers = us.currentUsers := by
  unfold handleUserAction
  split
  · rfl
  · simp only
    split <;> rfl

theorem onUserAction_currentUsers (us : UserStats) (socket : Socket) (data : Option ActionData)
    (clk : Clock) : (onUserAction us socket data clk).stats.currentUsers = us.currentUsers := by
  unfold onUserAction
  cases data with
  | none => rfl
  | some d =>
    simp only
    split
    · split
      · rfl
      · rw [handleUserAction_currentUsers]
    · rw [handleUserAction_currentUsers]

/-- A call of `shouldThrottleEvent` adds at most the key of its own arguments. -/
theorem shouldThrottleEvent_keys (tbl : ThrottleTable) (now : Int) (socketId eventType : String)
    (minIntervalMs : Int) :
    ∀ key ∈ JsMap.keys (shouldThrottleEvent tbl now socketId eventType minIntervalMs).2,
      key ∈ JsMap.keys tbl ∨ key = lastEmitKey socketId eventType := by
  intro key hkey
  unfold shouldThrottleEvent at hkey
  simp only at hkey
  split_ifs at hkey
  · exact Or.inl hkey
  · exact (JsMap.mem_keys_set _ _ _ _).1 hkey

theorem handleUserAction_keys (us : UserStats) (d : ActionData) (socket : Socket) (clk : Clock) :
    ∀ key ∈ JsMap.keys (handleUserAction us d socket clk).stats.lastEmitTime,
      key ∈ JsMap.keys us.lastEmitTime ∨ ∃ eventType, key = lastEmitKey socket.id eventType := by
  intro key hkey
  unfold handleUserAction at hkey
  split at hkey
  · exact Or.inl hkey
  · simp only at hkey
    split at hkey
    · simp only at hkey
      rcases shouldThrottleEvent_keys _ _ _ _ _ key hkey with h | h
      · rcases shouldThrottleEvent_keys _ _ _ _ _ key h with h | h
        · exact Or.inl h
        · exact Or.inr ⟨_, h⟩
      · exact Or.inr ⟨_, h⟩
    · exact Or.inl hkey

/-- The `userAction` handler adds to the throttle table only keys built from the id
of its socket. -/
theorem onUserAction_keys (us : UserStats) (socket : Socket) (data : Option ActionData)
    (clk : Clock) :
    ∀ key ∈ JsMap.keys (onUserAction us socket data clk).stats.lastEmitTime,
      key ∈ JsMap.keys us.lastEmitTime ∨ ∃ eventType, key = lastEmitKey socket.id eventType := by
  intro key hkey
  unfold onUserAction at hkey
  cases data with
  | none => exact Or.inl hkey
  | some d =>
    simp only at hkey
    split at hkey
    · split at hkey
      · simp only at hkey
        rcases shouldThrottleEvent_keys _ _ _ _ _ key hkey with h | h
        · exact Or.inl h
        · exact Or.inr ⟨_, h⟩
      · rcases handleUserAction_keys _ _ _ _ key hkey with h | h
        · simp only at h
          rcases shouldThrottleEvent_keys _ _ _ _ _ key h with h | h
          · exact Or.inl h
          · exact Or.inr ⟨_, h⟩
        · exact Or.inr h
    · exact handleUserAction_keys _ _ _ _ key hkey

theorem cleanupSweep_lastEmitTime (us : UserStats) (transport : JsMap Bool) (clk : Clock) :
    (cleanupSweep us transport clk).stats.lastEmitTime = us.lastEmitTime := by
  have hfold : ∀ (rest : List (String × UserInfo)) (acc : UserStats × Nat),
      (rest.foldl (sweepEntry transport clk.now) acc).1.lastEmitTime = acc.1.lastEmitTime := by
    intro rest
    induction rest with
    | nil => intro acc; rfl
    | cons r rest ih =>
      intro acc
      rw [List.foldl_cons, ih, sweepEntry_eq]
      split <;> rfl
  unfold cleanupSweep
  simp only [updateUserHistory]
  split
  · split
    · exact hfold _ _
    · exact hfold _ _
  · exact hfold _ _

theorem cleanupSweep_currentUsers (us : UserStats) (transport : JsMap Bool) (clk : Clock) :
    (cleanupSweep us transport clk).stats.currentUsers =
      (us.activeUsers.foldl (sweepEntry transport clk.now) (us, 0)).1.currentUsers := by
  unfold cleanupSweep
  simp only [updateUserHistory]
  split
  · split
    · rfl
    · rfl
  · rfl

/-- When the counter is the size of the registry and every entry still to be swept
is in the registry, the counter is the size of the registry after the loop of the
sweep. -/
theorem foldl_sweepEntry_counter (transport : JsMap Bool) (currentTime : Int)
    (rest : List (String × UserInfo)) (acc : UserStats × Nat)
    (hnd : (JsMap.keys acc.1.activeUsers).Nodup)
    (hrest : (rest.map Prod.fst).Nodup)
    (hsub : ∀ r ∈ rest, JsMap.has acc.1.activeUsers r.1 = true)
    (hc : acc.1.currentUsers = JsMap.size acc.1.activeUsers) :
    (rest.foldl (sweepEntry transport currentTime) acc).1.currentUsers =
      JsMap.size (rest.foldl (sweepEntry transport currentTime) acc).1.activeUsers := by
  induction rest generalizing acc with
  | nil => exact hc
  | cons r rest ih =>
    rw [List.foldl_cons]
    simp only [List.map_cons, List.nodup_cons] at hrest
    rw [sweepEntry_eq]
    by_cases hg : isGhost transport currentTime r = true
    · simp only [hg, if_true]
      have hr := hsub r (List.mem_cons_self _ _)
      obtain ⟨w, hw⟩ : ∃ w, JsMap.get acc.1.activeUsers r.1 = some w := by
        simp only [JsMap.has] at hr
        exact Option.isSome_iff_exists.1 hr
      have hlen := JsMap.length_delete_of_get acc.1.activeUsers r.1 w hw hnd
      apply ih
      · simp only
        rw [JsMap.keys_delete]
        exact hnd.filter _
      · exact hrest.2
      · intro x hx
        simp only
        have hx1 := hsub x (List.mem_cons_of_mem _ hx)
        have hne : x.1 ≠ r.1 := by
          intro heq
          apply hrest.1
          rw [← heq]
          exact List.mem_map_of_mem Prod.fst hx
        simp only [JsMap.has, JsMap.get_delete, hne, if_false] at hx1 ⊢
        exact hx1
      · simp only [JsMap.size] at hc hlen ⊢
        rw [hc]
        omega
    · simp only [hg]
      exact ih acc hnd hrest.2 (fun x hx => hsub x (List.mem_cons_of_mem _ hx)) hc

/-- The sweep keeps the counter equal to the size of the registry. -/
theorem cleanupSweep_counter (us : UserStats) (transport : JsMap Bool) (clk : Clock)
    (hnd : (JsMap.keys us.activeUsers).Nodup)
    (hc : us.currentUsers = JsMap.size us.activeUsers) :
    (cleanupSweep us transport clk).stats.currentUsers =
      JsMap.size (cleanupSweep us transport clk).stats.activeUsers := by
  rw [cleanupSweep_currentUsers, cleanupSweep_activeUsers]
  apply foldl_sweepEntry_counter transport clk.now us.activeUsers (us, 0) hnd hnd _ hc
  intro r hr
  rw [JsMap.has_iff_mem_keys]
  exact List.mem_map_of_mem Prod.fst hr

theorem countsAgree_idle (us : UserStats) : (Outcome.idle us).countsAgree := by
  intro msg hmsg
  simp [Outcome.idle] at hmsg

theorem onConnection_countsAgree (us : UserStats) (hs : Handshake) (clk : Clock) :
    (onConnection us { hs with latest := none } clk).countsAgree := by
  intro msg hmsg
  simp only [onConnection, updateUserHistory, List.append_nil, List.mem_cons,
    List.mem_singleton, List.not_mem_nil, or_false] at hmsg
  rcases hmsg with h | h | h | h | h <;> subst h <;>
    simp [onConnection, updateUserHistory]
  intro cur today total history activity h1 _ _ _ _
  exact h1.symm

theorem onDisconnect_countsAgree (us : UserStats) (socket : Socket) (reason : String)
    (clk : Clock) : (onDisconnect us socket reason clk).countsAgree := by
  intro msg hmsg
  unfold onDisconnect at hmsg ⊢
  simp only [updateUserHistory] at hmsg ⊢
  split at hmsg
  · simp at hmsg
  · split at hmsg
    · simp only [List.mem_singleton] at hmsg
      subst hmsg
      simp_all
    · simp only [List.mem_cons, List.mem_singleton, List.not_mem_nil, or_false] at hmsg
      rcases hmsg with h | h | h <;> subst h <;> simp_all

theorem cleanupSweep_countsAgree (us : UserStats) (transport : JsMap Bool) (clk : Clock) :
    (cleanupSweep us transport clk).countsAgree := by
  intro msg hmsg
  unfold cleanupSweep at hmsg ⊢
  simp only [updateUserHistory] at hmsg ⊢
  split at hmsg
  · split at hmsg
    · simp only [List.mem_singleton] at hmsg
      subst hmsg
      simp_all
    · simp only [List.mem_cons, List.mem_singleton, List.not_mem_nil, or_false] at hmsg
      rcases hmsg with h | h | h | h <;> subst h <;> simp_all
  · simp only [List.mem_singleton] at hmsg
    subst hmsg
    simp_all

theorem periodicUpdate_countsAgree (us : UserStats) : (periodicUpdate us).countsAgree := by
  intro msg hmsg
  unfold periodicUpdate at hmsg ⊢
  split at hmsg
  · split at hmsg
    · simp only [List.mem_singleton] at hmsg
      subst hmsg
      simp_all
    · simp only [List.mem_cons, List.mem_singleton, List.not_mem_nil, or_false] at hmsg
      rcases hmsg with h | h <;> subst h <;> simp_all
  · simp at hmsg

theorem onPing_countsAgree (us : UserStats) (socket : Socket) (clk : Clock) :
    (onPing us socket clk).countsAgree := by
  intro msg hmsg
  simp only [onPing, List.mem_singleton] at hmsg
  subst hmsg
  simp [onPing]

theorem onRequestUserStats_countsAgree (us : UserStats) (socket : Socket) :
    (onRequestUserStats us socket).countsAgree := by
  intro msg hmsg
  unfold onRequestUserStats at hmsg ⊢
  split at hmsg
  · simp only [List.mem_singleton] at hmsg
    subst hmsg
    simp_all
  · simp only [List.mem_cons, List.mem_singleton, List.not_mem_nil, or_false] at hmsg
    rcases hmsg with h | h <;> subst h <;> simp_all

theorem onRequestActiveUsers_countsAgree (us : UserStats) (socket : Socket) :
    (onRequestActiveUsers us socket).countsAgree := by
  intro msg hmsg
  unfold onRequestActiveUsers at hmsg ⊢
  split at hmsg
  · simp at hmsg
  · simp only [List.mem_singleton] at hmsg
    subst hmsg
    simp_all

theorem onUserConnected_countsAgree (us : UserStats) (socket : Socket)
    (data : Option AnnounceData) : (onUserConnected us socket data).1.countsAgree := by
  intro msg hmsg
  unfold onUserConnected at hmsg
  cases data with
  | none => simp at hmsg
  | some d =>
    simp only at hmsg
    split at hmsg
    · split at hmsg
      · simp at hmsg
      · simp only [List.mem_singleton] at hmsg
        subst hmsg
        simp
    · simp at hmsg

theorem handleUserAction_countsAgree (us : UserStats) (d : ActionData) (socket : Socket)
    (clk : Clock) : (handleUserAction us d socket clk).countsAgree := by
  intro msg hmsg
  unfold handleUserAction at hmsg
  split at hmsg
  · simp at hmsg
  · simp only at hmsg
    split at hmsg
    · simp only [List.mem_append] at hmsg
      rcases hmsg with h | h
      · split at h
        · simp at h
        · simp only [List.mem_singleton] at h
          subst h
          simp
      · split at h
        · simp at h
        · simp only [List.mem_singleton] at h
          subst h
          simp
    · simp only [List.mem_cons, List.mem_singleton, List.not_mem_nil, or_false] at hmsg
      rcases hmsg with h | h <;> subst h <;> simp

theorem onUserAction_countsAgree (us : UserStats) (socket : Socket) (data : Option ActionData)
    (clk : Clock) : (onUserAction us socket data clk).countsAgree := by
  unfold onUserAction
  cases data with
  | none =>
    intro msg hmsg
    simp at hmsg
  | some d =>
    simp only
    split
    · split
      · intro msg hmsg
        simp at hmsg
      · exact handleUserAction_countsAgree _ _ _ _
    · exact handleUserAction_countsAgree _ _ _ _

/-! ## The states the server reaches -/

theorem Runtime.transport_connected (rt : Runtime) (socketId : String) (connected : Bool)
    (h : JsMap.get rt.transport socketId = some connected) : connected = true := by
  unfold Runtime.transport at h
  rw [JsMap.get_map_true] at h
  cases hg : JsMap.get (List.filter (fun e => e.2.connected) rt.links) socketId with
  | none => rw [hg] at h; cases h
  | some l =>
    rw [hg] at h
    simp only [Option.map_some', Option.some.injEq] at h
    exact h.symm

/-- The transport holds a socket exactly when it has connected and has not been
closed. -/
theorem Runtime.transport_get (rt : Runtime) (socketId : String)
    (hnd : (JsMap.keys rt.links).Nodup) :
    JsMap.get rt.transport socketId =
      match JsMap.get rt.links socketId with
      | none => none
      | some link => if link.connected then some true else none := by
  unfold Runtime.transport
  rw [JsMap.get_map_true, JsMap.get_filter _ _ _ hnd]
  cases JsMap.get rt.links socketId with
  | none => rfl
  | some link =>
    cases hc : link.connected <;> simp [Option.filter, hc]

theorem Runtime.listener_some (rt : Runtime) (socketId : String) (link : Link)
    (h : rt.listener socketId = some link) :
    JsMap.get rt.links socketId = some link ∧ link.listening = true ∧ link.connected = true := by
  unfold Runtime.listener at h
  cases hg : JsMap.get rt.links socketId with
  | none => rw [hg] at h; cases h
  | some l =>
    rw [hg] at h
    simp only at h
    split_ifs at h with hc
    cases h
    simp only [Bool.and_eq_true] at hc
    exact ⟨rfl, hc.1, hc.2⟩

theorem Runtime.init_sound : Runtime.init.Sound :=
  { nodup := by simp [Runtime.init, UserStats.init, JsMap.keys]
    linkKeys := by simp [Runtime.init, JsMap.keys]
    counter := by simp [Runtime.init, UserStats.init, JsMap.size]
    ids := by simp [Runtime.init, JsMap.get]
    known := by simp [Runtime.init, UserStats.init, JsMap.has, JsMap.get]
    live := by simp [Runtime.init, JsMap.get]
    owned := by simp [Runtime.init, UserStats.init, JsMap.keys] }

/-- A handler run that leaves the sockets, the registry keys and the counter as
they were, and adds to the throttle table only keys of sockets the transport holds
and whose handlers are registered, keeps the state sound. -/
theorem Runtime.Sound.frame {rt : Runtime} (h : rt.Sound) (us : UserStats)
    (hk : JsMap.keys us.activeUsers = JsMap.keys rt.userStats.activeUsers)
    (hc : us.currentUsers = rt.userStats.currentUsers)
    (ht : ∀ key ∈ JsMap.keys us.lastEmitTime, key ∈ JsMap.keys rt.userStats.lastEmitTime ∨
      ∃ s eventType l, key = lastEmitKey s eventType ∧ JsMap.get rt.links s = some l ∧
        l.connected = true ∧ l.listening = true) :
    Runtime.Sound { userStats := us, links := rt.links } := by
  have hhas : ∀ k, JsMap.has us.activeUsers k = JsMap.has rt.userStats.activeUsers k := by
    intro k
    rw [Bool.eq_iff_iff, JsMap.has_iff_mem_keys, JsMap.has_iff_mem_keys, hk]
  refine ⟨?_, h.linkKeys, ?_, h.ids, ?_, ?_, ?_⟩
  · simp only
    rw [hk]
    exact h.nodup
  · simp only
    rw [hc, h.counter]
    have := congrArg List.length hk
    simpa [JsMap.size, JsMap.keys] using this.symm
  · intro k hkk
    simp only at hkk
    rw [hhas] at hkk
    exact h.known k hkk
  · intro k l hl hconn
    simp only
    rw [hhas]
    exact h.live k l hl hconn
  · intro key hkey
    rcases ht key hkey with h1 | h1
    · exact h.owned key h1
    · exact h1

/-- A handler run that replaces the record of one socket without touching its id
or whether the transport holds it, that does not unregister its handlers, and that
leaves the registry keys, the counter and the keys of the throttle table as they
were, keeps the state sound. -/
theorem Runtime.Sound.update_link {rt : Runtime} (h : rt.Sound) (us : UserStats)
    (k : String) (link link' : Link)
    (hget : JsMap.get rt.links k = some link)
    (hid : link'.socket.id = link.socket.id)
    (hconn : link'.connected = link.connected)
    (hlis : link.listening = true → link'.listening = true)
    (hk : JsMap.keys us.activeUsers = JsMap.keys rt.userStats.activeUsers)
    (hc : us.currentUsers = rt.userStats.currentUsers)
    (ht : JsMap.keys us.lastEmitTime = JsMap.keys rt.userStats.lastEmitTime) :
    Runtime.Sound { userStats := us, links := JsMap.set rt.links k link' } := by
  have hhas : ∀ k, JsMap.has us.activeUsers k = JsMap.has rt.userStats.activeUsers k := by
    intro k
    rw [Bool.eq_iff_iff, JsMap.has_iff_mem_keys, JsMap.has_iff_mem_keys, hk]
  refine ⟨?_, ?_, ?_, ?_, ?_, ?_, ?_⟩
  · simp only
    rw [hk]
    exact h.nodup
  · exact JsMap.keys_set_nodup _ _ _ h.linkKeys
  · simp only
    rw [hc, h.counter]
    have := congrArg List.length hk
    simpa [JsMap.size, JsMap.keys] using this.symm
  · intro k' l hl
    simp only [JsMap.get_set] at hl
    split_ifs at hl with hkk
    · cases hl
      subst hkk
      rw [hid]
      exact h.ids _ _ hget
    · exact h.ids _ _ hl
  · intro k' hkk
    simp only at hkk
    rw [hhas] at hkk
    have := h.known k' hkk
    rw [JsMap.has_iff_mem_keys] at this ⊢
    exact (JsMap.mem_keys_set _ _ _ _).2 (Or.inl this)
  · intro k' l hl hc'
    simp only [JsMap.get_set] at hl
    simp only
    rw [hhas]
    split_ifs at hl with hkk
    · cases hl
      subst hkk
      rw [hconn] at hc'
      exact h.live _ _ hget hc'
    · exact h.live _ _ hl hc'
  · intro key hkey
    simp only at hkey
    rw [ht] at hkey
    obtain ⟨s, ev, l, hkeyeq, hl, hlc, hll⟩ := h.owned key hkey
    by_cases hs : s = k
    · subst hs
      rw [hget] at hl
      cases hl
      exact ⟨s, ev, link', hkeyeq, by simp [JsMap.get_set], by rw [hconn]; exact hlc, hlis hll⟩
    · exact ⟨s, ev, l, hkeyeq, by simp [JsMap.get_set, hs, hl], hlc, hll⟩

theorem onRequestUserStats_stats (us : UserStats) (socket : Socket) :
    (onRequestUserStats us socket).stats = us := by
  unfold onRequestUserStats
  split <;> rfl

theorem onRequestActiveUsers_stats (us : UserStats) (socket : Socket) :
    (onRequestActiveUsers us socket).stats = us := by
  unfold onRequestActiveUsers
  split <;> rfl

theorem periodicUpdate_stats (us : UserStats) : (periodicUpdate us).stats = us := by
  unfold periodicUpdate
  split
  · split <;> rfl
  · rfl

theorem Runtime.Sound.same {rt : Runtime} (h : rt.Sound) :
    Runtime.Sound { userStats := rt.userStats, links := rt.links } :=
  h.frame rt.userStats rfl rfl (fun _ hkey => Or.inl hkey)

/-- The connection of a socket with a new id without a colon keeps the state
sound. -/
theorem Runtime.connection_sound (rt : Runtime) (hs : Handshake) (clk : Clock) (h : rt.Sound)
    (hadm : rt.admits (.connection hs clk) = true) :
    (rt.step (.connection hs clk)).Sound := by
  simp only [Runtime.admits, Bool.and_eq_true, Bool.not_eq_true', decide_eq_true_eq] at hadm
  obtain ⟨hfresh, hcolon⟩ := hadm
  have hlink : JsMap.get rt.links hs.socketId = none := (JsMap.has_eq_false_iff _ _).1 hfresh
  have hreg : JsMap.get rt.userStats.activeUsers hs.socketId = none := by
    rw [← JsMap.has_eq_false_iff]
    cases hh : JsMap.has rt.userStats.activeUsers hs.socketId with
    | false => rfl
    | true =>
      have := h.known _ hh
      rw [hfresh] at this
      exact Bool.noConfusion this
  have hact : (rt.step (.connection hs clk)).userStats.activeUsers =
      JsMap.set rt.userStats.activeUsers hs.socketId
        { userId := hs.userId, connectTime := clk.now, ip := hs.clientIp,
          userAgent := hs.userAgent, customId := .undefined, clientInfo := .undefined } := by
    simp [Runtime.step, Runtime.handle, onConnection_activeUsers]
  have hcur : (rt.step (.connection hs clk)).userStats.currentUsers =
      rt.userStats.currentUsers + 1 := by
    simp [Runtime.step, Runtime.handle, onConnection_currentUsers]
  have htbl : (rt.step (.connection hs clk)).userStats.lastEmitTime =
      rt.userStats.lastEmitTime := by
    simp [Runtime.step, Runtime.handle, onConnection_lastEmitTime]
  have hlinks : (rt.step (.connection hs clk)).links =
      JsMap.set rt.links hs.socketId
        { socket := { id := hs.socketId, userId := hs.userId, customId := .undefined },
          listening := false, connected := true } := by
    simp [Runtime.step, Runtime.handle]
  refine ⟨?_, ?_, ?_, ?_, ?_, ?_, ?_⟩
  · rw [hact]
    exact JsMap.keys_set_nodup _ _ _ h.nodup
  · rw [hlinks]
    exact JsMap.keys_set_nodup _ _ _ h.linkKeys
  · rw [hcur, hact, JsMap.size_set_of_get_none _ _ _ hreg, h.counter]
    push_cast
    rfl
  · intro k l hl
    rw [hlinks, JsMap.get_set] at hl
    split_ifs at hl with hk
    · cases hl
      subst hk
      exact ⟨rfl, hcolon⟩
    · exact h.ids _ _ hl
  · intro k hk
    rw [hact, JsMap.has_iff_mem_keys, JsMap.mem_keys_set] at hk
    rw [hlinks, JsMap.has_iff_mem_keys, JsMap.mem_keys_set]
    rcases hk with hk | hk
    · left
      rw [← JsMap.has_iff_mem_keys]
      exact h.known _ ((JsMap.has_iff_mem_keys _ _).2 hk)
    · exact Or.inr hk
  · intro k l hl hconn
    rw [hlinks, JsMap.get_set] at hl
    rw [hact, JsMap.has_iff_mem_keys, JsMap.mem_keys_set]
    split_ifs at hl with hk
    · exact Or.inr hk
    · left
      rw [← JsMap.has_iff_mem_keys]
      exact h.live _ _ hl hconn
  · intro key hkey
    rw [htbl] at hkey
    obtain ⟨s, ev, l, hkeyeq, hl, hlc, hll⟩ := h.owned key hkey
    have hs : s ≠ hs.socketId := by
      intro heq
      rw [heq, hlink] at hl
      cases hl
    exact ⟨s, ev, l, hkeyeq, by rw [hlinks, JsMap.get_set]; simp [hs, hl], hlc, hll⟩

/-- The settling of the query of a connection handler keeps the state sound. -/
theorem Runtime.querySettled_sound (rt : Runtime) (socketId : String) (latest : Option Nat)
    (h : rt.Sound) : (rt.step (.querySettled socketId latest)).Sound := by
  simp only [Runtime.step, Runtime.handle]
  cases hget : JsMap.get rt.links socketId with
  | none => exact h
  | some link =>
    simp only
    split_ifs with hl
    · exact h
    · exact h.update_link rt.userStats socketId link { link with listening := true } hget rfl rfl
        (fun _ => rfl) rfl rfl rfl

/-- The closing of a socket by the transport, with the run of the disconnect handler
when it is registered, keeps the state sound. -/
theorem Runtime.disconnect_sound (rt : Runtime) (socketId reason : String) (clk : Clock)
    (h : rt.Sound) : (rt.step (.disconnect socketId reason clk)).Sound := by
  simp only [Runtime.step, Runtime.handle]
  cases hget : JsMap.get rt.links socketId with
  | none => exact h
  | some link =>
    simp only
    by_cases hconn : link.connected = true
    · simp only [hconn, if_true]
      obtain ⟨hid, hcolon⟩ := h.ids _ _ hget
      have hregd := h.live _ _ hget hconn
      by_cases hlis : link.listening = true
      · simp only [hlis, if_true]
        obtain ⟨w, hw⟩ : ∃ w, JsMap.get rt.userStats.activeUsers socketId = some w := by
          simp only [JsMap.has] at hregd
          exact Option.isSome_iff_exists.1 hregd
        have hlen := JsMap.length_delete_of_get rt.userStats.activeUsers socketId w hw h.nodup
        refine ⟨?_, ?_, ?_, ?_, ?_, ?_, ?_⟩
        · simp only [onDisconnect_activeUsers, hid, JsMap.keys_delete]
          exact h.nodup.filter _
        · exact JsMap.keys_set_nodup _ _ _ h.linkKeys
        · simp only [onDisconnect_activeUsers, onDisconnect_currentUsers, hid]
          have hc := h.counter
          simp only [JsMap.size] at hc hlen ⊢
          rw [hc]
          omega
        · intro k l hl
          simp only [JsMap.get_set] at hl
          split_ifs at hl with hk
          · cases hl
            subst hk
            exact ⟨hid, hcolon⟩
          · exact h.ids _ _ hl
        · intro k hk
          simp only [onDisconnect_activeUsers, hid, JsMap.has, JsMap.get_delete] at hk
          split_ifs at hk with hkk
          · cases hk
          · have := h.known k hk
            rw [JsMap.has_iff_mem_keys] at this ⊢
            exact (JsMap.mem_keys_set _ _ _ _).2 (Or.inl this)
        · intro k l hl hc'
          simp only [JsMap.get_set] at hl
          split_ifs at hl with hk
          · cases hl
            cases hc'
          · have := h.live _ _ hl hc'
            simp only [onDisconnect_activeUsers, hid, JsMap.has, JsMap.get_delete, hk, if_false]
            exact this
        · intro key hkey
          simp only [onDisconnect_lastEmitTime, hid] at hkey
          simp only [JsMap.keys, List.mem_map, List.mem_filter] at hkey
          obtain ⟨e, ⟨he, hpre⟩, rfl⟩ := hkey
          obtain ⟨s, ev, l, hkeyeq, hl, hlc, hll⟩ :=
            h.owned e.1 (List.mem_map_of_mem Prod.fst he)
          have hs : s ≠ socketId := by
            intro heq
            rw [hkeyeq, heq, startsWith_lastEmitKey] at hpre
            simp at hpre
          exact ⟨s, ev, l, hkeyeq, by simp [JsMap.get_set, hs, hl], hlc, hll⟩
      · have hlf : link.listening = false := by
          cases hb : link.listening with
          | false => rfl
          | true => exact absurd hb hlis
        simp only [hlf, Bool.false_eq_true, if_false]
        refine ⟨h.nodup, JsMap.keys_set_nodup _ _ _ h.linkKeys, h.counter, ?_, ?_, ?_, ?_⟩
        · intro k l hl
          simp only [JsMap.get_set] at hl
          split_ifs at hl with hk
          · cases hl
            subst hk
            exact ⟨hid, hcolon⟩
          · exact h.ids _ _ hl
        · intro k hk
          have := h.known k hk
          rw [JsMap.has_iff_mem_keys] at this ⊢
          exact (JsMap.mem_keys_set _ _ _ _).2 (Or.inl this)
        · intro k l hl hc'
          simp only [JsMap.get_set] at hl
          split_ifs at hl with hk
          · cases hl
            cases hc'
          · exact h.live _ _ hl hc'
        · intro key hkey
          obtain ⟨s, ev, l, hkeyeq, hl, hlc, hll⟩ := h.owned key hkey
          have hs : s ≠ socketId := by
            intro heq
            rw [heq, hget] at hl
            cases hl
            exact hlis hll
          exact ⟨s, ev, l, hkeyeq, by simp [JsMap.get_set, hs, hl], hlc, hll⟩
    · have hcf : link.connected = false := by
        cases hb : link.connected with
        | false => rfl
        | true => exact absurd hb hconn
      simp only [hcf, Bool.false_eq_true, if_false]
      exact h

theorem Runtime.userConnected_sound (rt : Runtime) (socketId : String)
    (data : Option AnnounceData) (h : rt.Sound) :
    (rt.step (.userConnected socketId data)).Sound := by
  simp only [Runtime.step, Runtime.handle]
  cases hl : rt.listener socketId with
  | none => exact h
  | some link =>
    simp only
    obtain ⟨hget, hlis, hconn⟩ := rt.listener_some socketId link hl
    obtain ⟨f1, f2, f3, f4, _⟩ := onUserConnected_frame rt.userStats link.socket data
    exact h.update_link _ socketId link
      { link with socket := (onUserConnected rt.userStats link.socket data).2 } hget f4 rfl
      (fun hh => hh) f3 f1 (by rw [f2])

theorem Runtime.userAction_sound (rt : Runtime) (socketId : String)
    (data : Option ActionData) (clk : Clock) (h : rt.Sound) :
    (rt.step (.userAction socketId data clk)).Sound := by
  simp only [Runtime.step, Runtime.handle]
  cases hl : rt.listener socketId with
  | none => exact h
  | some link =>
    simp only
    obtain ⟨hget, hlis, hconn⟩ := rt.listener_some socketId link hl
    refine h.frame _ (by rw [onUserAction_activeUsers]) (onUserAction_currentUsers _ _ _ _) ?_
    intro key hkey
    rcases onUserAction_keys _ _ _ _ key hkey with h1 | ⟨ev, h1⟩
    · exact Or.inl h1
    · exact Or.inr ⟨socketId, ev, link, by rw [h1, (h.ids _ _ hget).1], hget, hconn, hlis⟩

theorem Runtime.requestUserStats_sound (rt : Runtime) (socketId : String) (h : rt.Sound) :
    (rt.step (.requestUserStats socketId)).Sound := by
  simp only [Runtime.step, Runtime.handle]
  cases hl : rt.listener socketId with
  | none => exact h
  | some link =>
    simp only
    rw [onRequestUserStats_stats]
    exact h.same

theorem Runtime.ping_sound (rt : Runtime) (socketId : String) (clk : Clock) (h : rt.Sound) :
    (rt.step (.ping socketId clk)).Sound := by
  simp only [Runtime.step, Runtime.handle]
  cases hl : rt.listener socketId with
  | none => exact h
  | some link => exact h.same

theorem Runtime.requestActiveUsers_sound (rt : Runtime) (socketId : String) (h : rt.Sound) :
    (rt.step (.requestActiveUsers socketId)).Sound := by
  simp only [Runtime.step, Runtime.handle]
  cases hl : rt.listener socketId with
  | none => exact h
  | some link =>
    simp only
    rw [onRequestActiveUsers_stats]
    exact h.same

theorem Runtime.periodicUpdate_sound (rt : Runtime) (h : rt.Sound) :
    (rt.step .periodicUpdate).Sound := by
  simp only [Runtime.step, Runtime.handle]
  rw [periodicUpdate_stats]
  exact h.same

/-- The sweep, which finds exactly the sockets the transport has not closed, keeps
the state sound. -/
theorem Runtime.cleanup_sound (rt : Runtime) (clk : Clock) (h : rt.Sound) :
    (rt.step (.cleanup clk)).Sound := by
  simp only [Runtime.step, Runtime.handle]
  have hreg := cleanupSweep_registry rt.userStats rt.transport clk h.nodup
  refine ⟨?_, h.linkKeys, ?_, h.ids, ?_, ?_, ?_⟩
  · simp only
    rw [hreg]
    exact JsMap.keys_filter_nodup _ _ h.nodup
  · exact cleanupSweep_counter _ _ _ h.nodup h.counter
  · intro k hk
    simp only at hk
    rw [hreg, JsMap.has_iff_mem_keys] at hk
    apply h.known
    rw [JsMap.has_iff_mem_keys]
    simp only [JsMap.keys, List.mem_map, List.mem_filter] at hk ⊢
    obtain ⟨e, ⟨he, _⟩, rfl⟩ := hk
    exact ⟨e, he, rfl⟩
  · intro k l hl hconn
    simp only
    have hb := h.live k l hl hconn
    obtain ⟨w, hw⟩ : ∃ w, JsMap.get rt.userStats.activeUsers k = some w := by
      simp only [JsMap.has] at hb
      exact Option.isSome_iff_exists.1 hb
    have htr : JsMap.get rt.transport k = some true := by
      rw [rt.transport_get k h.linkKeys, hl]
      simp [hconn]
    have hghost : isGhost rt.transport clk.now (k, w) = false :=
      (isGhost_eq_false_iff _ _ _).2 ⟨true, htr, Or.inl rfl⟩
    rw [hreg, JsMap.has, JsMap.get_filter _ _ _ h.nodup, hw]
    simp [Option.filter, hghost]
  · intro key hkey
    simp only [cleanupSweep_lastEmitTime] at hkey
    exact h.owned key hkey

/-- Every delivery the transport can make keeps the state sound. -/
theorem Runtime.step_sound (rt : Runtime) (ev : Delivery) (h : rt.Sound)
    (hadm : rt.admits ev = true) : (rt.step ev).Sound := by
  cases ev with
  | connection hs clk => exact rt.connection_sound hs clk h hadm
  | querySettled socketId latest => exact rt.querySettled_sound socketId latest h
  | disconnect socketId reason clk => exact rt.disconnect_sound socketId reason clk h
  | userConnected socketId data => exact rt.userConnected_sound socketId data h
  | userAction socketId data clk => exact rt.userAction_sound socketId data clk h
  | requestUserStats socketId => exact rt.requestUserStats_sound socketId h
  | ping socketId clk => exact rt.ping_sound socketId clk h
  | requestActiveUsers socketId => exact rt.requestActiveUsers_sound socketId h
  | cleanup clk => exact rt.cleanup_sound clk h
  | periodicUpdate => exact rt.periodicUpdate_sound h

theorem Runtime.run_sound (evs : List Delivery) (rt : Runtime) (h : rt.Sound)
    (hadm : rt.admitsAll evs = true) : (rt.run evs).Sound := by
  induction evs generalizing rt with
  | nil => exact h
  | cons ev evs ih =>
    simp only [Runtime.admitsAll, Bool.and_eq_true] at hadm
    exact ih (rt.step ev) (rt.step_sound ev h hadm.1) hadm.2

theorem Runtime.run_append (rt : Runtime) (a b : List Delivery) :
    rt.run (a ++ b) = (rt.run a).run b := by
  simp [Runtime.run, List.foldl_append]

theorem Runtime.admitsAll_append (evs : List Delivery) (rt : Runtime) (ev : Delivery)
    (hadm : rt.admitsAll (evs ++ [ev]) = true) :
    rt.admitsAll evs = true ∧ (rt.run evs).admits ev = true := by
  induction evs generalizing rt with
  | nil =>
    simp only [List.nil_append, Runtime.admitsAll, Bool.and_true] at hadm
    exact ⟨rfl, hadm⟩
  | cons e evs ih =>
    simp only [List.cons_append, Runtime.admitsAll, Bool.and_eq_true] at hadm
    obtain ⟨h1, h2⟩ := ih (rt.step e) hadm.2
    refine ⟨?_, h2⟩
    simp only [Runtime.admitsAll, Bool.and_eq_true]
    exact ⟨hadm.1, h1⟩

/-- The outcome of a handler run leaves the `userStats` of the state after it, and
the numbers of users it shows to clients are the counter it leaves. -/
theorem Runtime.handle_outcome (rt : Runtime) (ev : Delivery) :
    (rt.handle ev).2.stats = (rt.step ev).userStats ∧ (rt.handle ev).2.countsAgree := by
  cases ev with
  | connection hs clk =>
    exact ⟨rfl, onConnection_countsAgree _ _ _⟩
  | querySettled socketId latest =>
    simp only [Runtime.step, Runtime.handle]
    cases hget : JsMap.get rt.links socketId with
    | none => exact ⟨rfl, countsAgree_idle _⟩
    | some link =>
      simp only
      split_ifs with hl
      · exact ⟨rfl, countsAgree_idle _⟩
      · refine ⟨rfl, ?_⟩
        intro msg hmsg
        simp only at hmsg
        cases latest with
        | none => simp at hmsg
        | some rows =>
          simp only at hmsg
          split_ifs at hmsg
          · simp only [List.mem_singleton] at hmsg
            subst hmsg
            simp
          · simp at hmsg
  | disconnect socketId reason clk =>
    simp only [Runtime.step, Runtime.handle]
    cases hget : JsMap.get rt.links socketId with
    | none => exact ⟨rfl, countsAgree_idle _⟩
    | some link =>
      simp only
      split_ifs with hc hl
      · exact ⟨rfl, onDisconnect_countsAgree _ _ _ _⟩
      · exact ⟨rfl, countsAgree_idle _⟩
      · exact ⟨rfl, countsAgree_idle _⟩
  | userConnected socketId data =>
    simp only [Runtime.step, Runtime.handle]
    cases hl : rt.listener socketId with
    | none => exact ⟨rfl, countsAgree_idle _⟩
    | some link => exact ⟨rfl, onUserConnected_countsAgree _ _ _⟩
  | userAction socketId data clk =>
    simp only [Runtime.step, Runtime.handle]
    cases hl : rt.listener socketId with
    | none => exact ⟨rfl, countsAgree_idle _⟩
    | some link => exact ⟨rfl, onUserAction_countsAgree _ _ _ _⟩
  | requestUserStats socketId =>
    simp only [Runtime.step, Runtime.handle]
    cases hl : rt.listener socketId with
    | none => exact ⟨rfl, countsAgree_idle _⟩
    | some link => exact ⟨rfl, onRequestUserStats_countsAgree _ _⟩
  | ping socketId clk =>
    simp only [Runtime.step, Runtime.handle]
    cases hl : rt.listener socketId with
    | none => exact ⟨rfl, countsAgree_idle _⟩
    | some link => exact ⟨rfl, onPing_countsAgree _ _ _⟩
  | requestActiveUsers socketId =>
    simp only [Runtime.step, Runtime.handle]
    cases hl : rt.listener socketId with
    | none => exact ⟨rfl, countsAgree_idle _⟩
    | some link => exact ⟨rfl, onRequestActiveUsers_countsAgree _ _⟩
  | cleanup clk => exact ⟨rfl, cleanupSweep_countsAgree _ _ _⟩
  | periodicUpdate => exact ⟨rfl, periodicUpdate_countsAgree _⟩

/-! ## Throttle keys, counter and snapshot in the states the server reaches -/

/-- Claim C5: in every state the server reaches from the empty state by deliveries
the transport can make (each connection brings a new id without a colon; a socket
is closed once, and its events reach a handler only once its handlers are
registered and while it is open), every key of `userStats.lastEmitTime` is built
from the id of a session that is in `userStats.activeUsers`; and when the cleanup
sweep evicts a session, no key starting with its id and a colon is in the table. -/
theorem throttle_keys_registered (evs : List Delivery)
    (hadm : Runtime.init.admitsAll evs = true) :
    (∀ key ∈ JsMap.keys (Runtime.init.run evs).userStats.lastEmitTime,
      ∃ s eventType, key = lastEmitKey s eventType ∧
        JsMap.has (Runtime.init.run evs).userStats.activeUsers s = true) ∧
    (∀ (clk : Clock) (s : String),
      JsMap.has (Runtime.init.run evs).userStats.activeUsers s = true →
      JsMap.has ((Runtime.init.run evs).step (.cleanup clk)).userStats.activeUsers s = false →
      ∀ key ∈ JsMap.keys ((Runtime.init.run evs).step (.cleanup clk)).userStats.lastEmitTime,
        startsWith key (s ++ ":") = false) := by
  have hsound := Runtime.run_sound evs Runtime.init Runtime.init_sound hadm
  refine ⟨?_, ?_⟩
  · intro key hkey
    obtain ⟨s, ev, l, hkeyeq, hl, hlc, _⟩ := hsound.owned key hkey
    exact ⟨s, ev, hkeyeq, hsound.live s l hl hlc⟩
  · intro clk s hbefore hafter key hkey
    have hsound2 := (Runtime.init.run evs).cleanup_sound clk hsound
    obtain ⟨t, ev, l, hkeyeq, hl, hlc, _⟩ := hsound2.owned key hkey
    have ht := hsound2.live t l hl hlc
    have hne : s ≠ t := by
      intro heq
      rw [heq, ht] at hafter
      exact Bool.noConfusion hafter
    have htcolon := (hsound2.ids t l hl).2
    obtain ⟨ls, hls⟩ : ∃ ls, JsMap.get (Runtime.init.run evs).links s = some ls := by
      have := hsound.known s hbefore
      simp only [JsMap.has] at this
      exact Option.isSome_iff_exists.1 this
    have hscolon := (hsound.ids s ls hls).2
    rw [hkeyeq]
    exact startsWith_lastEmitKey_other s t ev hne
      (startsWith_colon_of_colon_free t s htcolon) (startsWith_colon_of_colon_free s t hscolon)

/-- Witness of C5: socket `a` drags a slider, socket `b` is closed before its
handlers are registered, and the sweep evicts `b`: the three keys of the table are
keys of `a`, which is registered. -/
theorem throttle_keys_registered_witness :
    Runtime.init.admitsAll (ghostTrace ++ [.cleanup ⟨70000, "10:01"⟩]) = true ∧
    JsMap.keys (Runtime.init.run ghostTrace).userStats.activeUsers = ["a", "b"] ∧
    JsMap.keys (Runtime.init.run
      (ghostTrace ++ [.cleanup ⟨70000, "10:01"⟩])).userStats.activeUsers = ["a"] ∧
    JsMap.keys (Runtime.init.run
      (ghostTrace ++ [.cleanup ⟨70000, "10:01"⟩])).userStats.lastEmitTime =
      ["a:slider", "a:broadcast_slider", "a:state_update"] ∧
    (∀ key ∈ JsMap.keys (Runtime.init.run
        (ghostTrace ++ [.cleanup ⟨70000, "10:01"⟩])).userStats.lastEmitTime,
      ∃ s eventType, key = lastEmitKey s eventType ∧
        JsMap.has (Runtime.init.run
          (ghostTrace ++ [.cleanup ⟨70000, "10:01"⟩])).userStats.activeUsers s = true) :=
  ⟨by decide, by decide, by decide, by decide,
    (throttle_keys_registered (ghostTrace ++ [.cleanup ⟨70000, "10:01"⟩]) (by decide)).1⟩

/-- Claim C6: in every state the server reaches from the empty state by deliveries
the transport can make, `userStats.currentUsers` equals the size of
`userStats.activeUsers`; it does so before and after every delivery, and every
number of users a handler run shows to clients (`userCount`, the `activeUsers`
field of `pong`, the `current` field of `userStats`) equals the size of the
registry that run leaves. -/
theorem counter_eq_registry_size (evs : List Delivery) (ev : Delivery)
    (hadm : Runtime.init.admitsAll (evs ++ [ev]) = true) :
    (Runtime.init.run evs).userStats.currentUsers =
      JsMap.size (Runtime.init.run evs).userStats.activeUsers ∧
    ((Runtime.init.run evs).step ev).userStats.currentUsers =
      JsMap.size ((Runtime.init.run evs).step ev).userStats.activeUsers ∧
    ∀ msg ∈ ((Runtime.init.run evs).handle ev).2.emitted,
      (∀ n, msg.payload = .userCount n →
        n = JsMap.size ((Runtime.init.run evs).step ev).userStats.activeUsers) ∧
      (∀ ts n, msg.payload = .pong ts n →
        n = JsMap.size ((Runtime.init.run evs).step ev).userStats.activeUsers) ∧
      (∀ cur today total history activity,
        msg.payload = .userStats cur today total history activity →
          cur = JsMap.size ((Runtime.init.run evs).step ev).userStats.activeUsers) := by
  obtain ⟨hadm1, hadm2⟩ := Runtime.admitsAll_append evs Runtime.init ev hadm
  have hsound := Runtime.run_sound evs Runtime.init Runtime.init_sound hadm1
  have hsound2 := (Runtime.init.run evs).step_sound ev hsound hadm2
  obtain ⟨hstats, hagree⟩ := (Runtime.init.run evs).handle_outcome ev
  refine ⟨hsound.counter, hsound2.counter, ?_⟩
  intro msg hmsg
  obtain ⟨h1, h2, h3⟩ := hagree msg hmsg
  rw [hstats, hsound2.counter] at h1 h2 h3
  exact ⟨h1, h2, h3⟩

/-- Witness of C6: after socket `b` was closed before its handlers were registered,
the sweep evicts it and shows `userCount` 1, the size of the registry it leaves. -/
theorem counter_eq_registry_size_witness :
    Runtime.init.admitsAll (ghostTrace ++ [.cleanup ⟨70000, "10:01"⟩]) = true ∧
    (⟨.all, .userCount 1⟩ : Msg) ∈
      ((Runtime.init.run ghostTrace).handle (.cleanup ⟨70000, "10:01"⟩)).2.emitted ∧
    (Runtime.init.run ghostTrace).userStats.currentUsers = 2 ∧
    ((Runtime.init.run ghostTrace).step (.cleanup ⟨70000, "10:01"⟩)).userStats.currentUsers =
      JsMap.size
        ((Runtime.init.run ghostTrace).step (.cleanup ⟨70000, "10:01"⟩)).userStats.activeUsers :=
  ⟨by decide, by decide, by decide,
    (counter_eq_registry_size ghostTrace (.cleanup ⟨70000, "10:01"⟩) (by decide)).2.1⟩

/-- Claim C16: in every state the server reaches from the empty state by deliveries
the transport can make, the connection handler of a socket with a new id `s` sends
`userHistory` to all, the `connectionStatus` acknowledgment with the socket id `s`
and the assigned `userId` to `s` only, to all a `userCount` equal to the size of
the registry after the insertion and an `activeUsers` snapshot with one entry per
registered session, the entry of `s` among them, and `userStats` to `s` only. -/
theorem onConnection_announces (evs : List Delivery) (hs : Handshake) (clk : Clock)
    (hadm : Runtime.init.admitsAll (evs ++ [.connection hs clk]) = true) :
    ((Runtime.init.run evs).handle (.connection hs clk)).2.emitted =
      [ ⟨.all, .userHistory
          ((Runtime.init.run evs).step (.connection hs clk)).userStats.history⟩,
        ⟨.only hs.socketId, .connectionStatus true hs.socketId hs.userId⟩,
        ⟨.all, .userCount (JsMap.size
          ((Runtime.init.run evs).step (.connection hs clk)).userStats.activeUsers)⟩,
        ⟨.all, .activeUsers (activeUsersListAtConnect
          ((Runtime.init.run evs).step (.connection hs clk)).userStats.activeUsers)⟩,
        ⟨.only hs.socketId, .userStats
          (JsMap.size ((Runtime.init.run evs).step (.connection hs clk)).userStats.activeUsers)
          ((Runtime.init.run evs).step (.connection hs clk)).userStats.todayUsers
          ((Runtime.init.run evs).step (.connection hs clk)).userStats.totalUsers.length
          ((Runtime.init.run evs).step (.connection hs clk)).userStats.history
          ((Runtime.init.run evs).step (.connection hs clk)).userStats.activity⟩ ] ∧
    (activeUsersListAtConnect
      ((Runtime.init.run evs).step (.connection hs clk)).userStats.activeUsers).length =
      JsMap.size ((Runtime.init.run evs).step (.connection hs clk)).userStats.activeUsers ∧
    JsMap.has ((Runtime.init.run evs).step (.connection hs clk)).userStats.activeUsers
      hs.socketId = true ∧
    ({ id := substring8 hs.userId, connectTime := clk.now } : PresenceEntry) ∈
      activeUsersListAtConnect
        ((Runtime.init.run evs).step (.connection hs clk)).userStats.activeUsers := by
  obtain ⟨hadm1, hadm2⟩ := Runtime.admitsAll_append evs Runtime.init _ hadm
  have hsound := Runtime.run_sound evs Runtime.init Runtime.init_sound hadm1
  have hsound2 := (Runtime.init.run evs).step_sound _ hsound hadm2
  have hcount := hsound2.counter
  have hact : ((Runtime.init.run evs).step (.connection hs clk)).userStats.activeUsers =
      JsMap.set (Runtime.init.run evs).userStats.activeUsers hs.socketId
        { userId := hs.userId, connectTime := clk.now, ip := hs.clientIp,
          userAgent := hs.userAgent, customId := .undefined, clientInfo := .undefined } := by
    simp [Runtime.step, Runtime.handle, onConnection_activeUsers]
  have hmem : ∃ info : UserInfo, info.userId = hs.userId ∧ info.connectTime = clk.now ∧
      (hs.socketId, info) ∈
        ((Runtime.init.run evs).step (.connection hs clk)).userStats.activeUsers := by
    rw [hact]
    exact ⟨_, rfl, rfl, JsMap.mem_of_get _ _ _ (JsMap.get_set_self _ _ _)⟩
  refine ⟨?_, ?_, ?_, ?_⟩
  · rw [← hcount]
    simp [Runtime.step, Runtime.handle, onConnection, updateUserHistory]
  · simp [activeUsersListAtConnect, JsMap.values, JsMap.size]
  · rw [hact, JsMap.has, JsMap.get_set_self]
    rfl
  · obtain ⟨info, hu, hc, hin⟩ := hmem
    simp only [activeUsersListAtConnect, JsMap.values, List.map_map, List.mem_map]
    exact ⟨_, hin, by simp [hu, hc]⟩

set_option maxHeartbeats 1000000

/-- Witness of C16: after the sweep has evicted the closed socket `b`, socket `c`
connects: the acknowledgment goes to `c` and `userCount` 2 to all, with `a` and `c`
registered. -/
theorem onConnection_announces_witness :
    Runtime.init.admitsAll ((ghostTrace ++ [.cleanup ⟨70000, "10:01"⟩]) ++
      [.connection (handshakeOf "c" "8c9d0e1f-0000") ⟨80000, "10:01"⟩]) = true ∧
    JsMap.keys ((Runtime.init.run (ghostTrace ++ [.cleanup ⟨70000, "10:01"⟩])).step
      (.connection (handshakeOf "c" "8c9d0e1f-0000") ⟨80000, "10:01"⟩)).userStats.activeUsers =
      ["a", "c"] ∧
    (⟨.all, .userCount 2⟩ : Msg) ∈
      ((Runtime.init.run (ghostTrace ++ [.cleanup ⟨70000, "10:01"⟩])).handle
        (.connection (handshakeOf "c" "8c9d0e1f-0000") ⟨80000, "10:01"⟩)).2.emitted ∧
    JsMap.has ((Runtime.init.run (ghostTrace ++ [.cleanup ⟨70000, "10:01"⟩])).step
      (.connection (handshakeOf "c" "8c9d0e1f-0000") ⟨80000, "10:01"⟩)).userStats.activeUsers
      (handshakeOf "c" "8c9d0e1f-0000").socketId = true :=
  ⟨by decide, by decide, by decide,
    (onConnection_announces (ghostTrace ++ [.cleanup ⟨70000, "10:01"⟩])
      (handshakeOf "c" "8c9d0e1f-0000") ⟨80000, "10:01"⟩ (by decide)).2.2.1⟩

/-- A connection, the settling of a query or the closing of a socket leaves no
announced identity in a registry that had none, and changes the size of the
registry by its share of the count. -/
theorem Runtime.step_count (rt : Runtime) (ev : Delivery) (h : rt.Sound)
    (hplain : ∀ e ∈ rt.userStats.activeUsers, e.2.customId = .undefined)
    (hkind : ev.isConnection = true ∨ ev.isQuerySettled = true ∨ ev.isDisconnect = true)
    (hadm : rt.admits ev = true) :
    (∀ e ∈ (rt.step ev).userStats.activeUsers, e.2.customId = .undefined) ∧
    JsMap.size (rt.step ev).userStats.activeUsers + (if foundDisconnect rt ev then 1 else 0) =
      JsMap.size rt.userStats.activeUsers + (if ev.isConnection then 1 else 0) := by
  cases ev with
  | connection hs clk =>
    simp only [Runtime.admits, Bool.and_eq_true, Bool.not_eq_true', decide_eq_true_eq] at hadm
    have hreg : JsMap.get rt.userStats.activeUsers hs.socketId = none := by
      rw [← JsMap.has_eq_false_iff]
      cases hh : JsMap.has rt.userStats.activeUsers hs.socketId with
      | false => rfl
      | true =>
        have := h.known _ hh
        rw [hadm.1] at this
        exact Bool.noConfusion this
    have hact : (rt.step (.connection hs clk)).userStats.activeUsers =
        JsMap.set rt.userStats.activeUsers hs.socketId
          { userId := hs.userId, connectTime := clk.now, ip := hs.clientIp,
            userAgent := hs.userAgent, customId := .undefined, clientInfo := .undefined } := by
      simp [Runtime.step, Runtime.handle, onConnection_activeUsers]
    refine ⟨?_, ?_⟩
    · intro e he
      rw [hact] at he
      rcases JsMap.mem_set _ _ _ _ he with h1 | h1
      · exact hplain e h1
      · rw [h1]
    · rw [hact, JsMap.size_set_of_get_none _ _ _ hreg]
      simp [foundDisconnect, Delivery.isConnection]
  | querySettled socketId latest =>
    have hus : (rt.step (.querySettled socketId latest)).userStats = rt.userStats := by
      simp only [Runtime.step, Runtime.handle]
      cases JsMap.get rt.links socketId with
      | none => rfl
      | some link =>
        simp only
        split_ifs <;> rfl
    rw [hus]
    exact ⟨hplain, by simp [foundDisconnect, Delivery.isConnection]⟩
  | disconnect socketId reason clk =>
    cases hget : JsMap.get rt.links socketId with
    | none =>
      have hstep : rt.step (.disconnect socketId reason clk) = rt := by
        simp [Runtime.step, Runtime.handle, hget]
      rw [hstep]
      exact ⟨hplain, by simp [foundDisconnect, Runtime.listener, hget, Delivery.isConnection]⟩
    | some link =>
      by_cases hconn : link.connected = true
      · by_cases hlis : link.listening = true
        · have hid := (h.ids _ _ hget).1
          have hregd := h.live _ _ hget hconn
          obtain ⟨w, hw⟩ : ∃ w, JsMap.get rt.userStats.activeUsers socketId = some w := by
            simp only [JsMap.has] at hregd
            exact Option.isSome_iff_exists.1 hregd
          have hlen := JsMap.length_delete_of_get rt.userStats.activeUsers socketId w hw h.nodup
          have hact : (rt.step (.disconnect socketId reason clk)).userStats.activeUsers =
              JsMap.delete rt.userStats.activeUsers socketId := by
            simp [Runtime.step, Runtime.handle, hget, hconn, hlis, onDisconnect_activeUsers, hid]
          refine ⟨?_, ?_⟩
          · intro e he
            rw [hact] at he
            exact hplain e (List.mem_of_mem_filter he)
          · rw [hact]
            simp only [foundDisconnect, Runtime.listener, hget, hlis, hconn, Bool.and_self,
              if_true, Option.isSome_some, hregd, Delivery.isConnection, JsMap.size]
            simpa using hlen
        · have hlf : link.listening = false := by
            cases hb : link.listening with
            | false => rfl
            | true => exact absurd hb hlis
          have hus : (rt.step (.disconnect socketId reason clk)).userStats = rt.userStats := by
            simp [Runtime.step, Runtime.handle, hget, hconn, hlf]
          rw [hus]
          exact ⟨hplain, by
            simp [foundDisconnect, Runtime.listener, hget, hlf, Delivery.isConnection]⟩
      · have hcf : link.connected = false := by
          cases hb : link.connected with
          | false => rfl
          | true => exact absurd hb hconn
        have hstep : rt.step (.disconnect socketId reason clk) = rt := by
          simp [Runtime.step, Runtime.handle, hget, hcf]
        rw [hstep]
        exact ⟨hplain, by
          simp [foundDisconnect, Runtime.listener, hget, hcf, Delivery.isConnection]⟩
  | userConnected socketId data =>
    simp [Delivery.isConnection, Delivery.isQuerySettled, Delivery.isDisconnect] at hkind
  | userAction socketId data clk =>
    simp [Delivery.isConnection, Delivery.isQuerySettled, Delivery.isDisconnect] at hkind
  | requestUserStats socketId =>
    simp [Delivery.isConnection, Delivery.isQuerySettled, Delivery.isDisconnect] at hkind
  | ping socketId clk =>
    simp [Delivery.isConnection, Delivery.isQuerySettled, Delivery.isDisconnect] at hkind
  | requestActiveUsers socketId =>
    simp [Delivery.isConnection, Delivery.isQuerySettled, Delivery.isDisconnect] at hkind
  | cleanup clk =>
    simp [Delivery.isConnection, Delivery.isQuerySettled, Delivery.isDisconnect] at hkind
  | periodicUpdate =>
    simp [Delivery.isConnection, Delivery.isQuerySettled, Delivery.isDisconnect] at hkind

theorem Runtime.run_count (evs : List Delivery) (rt : Runtime) (h : rt.Sound)
    (hplain : ∀ e ∈ rt.userStats.activeUsers, e.2.customId = .undefined)
    (hkind : ∀ ev ∈ evs,
      ev.isConnection = true ∨ ev.isQuerySettled = true ∨ ev.isDisconnect = true)
    (hadm : rt.admitsAll evs = true) :
    (∀ e ∈ (rt.run evs).userStats.activeUsers, e.2.customId = .undefined) ∧
    JsMap.size (rt.run evs).userStats.activeUsers + foundDisconnects rt evs =
      JsMap.size rt.userStats.activeUsers + countConnections evs := by
  induction evs generalizing rt with
  | nil => exact ⟨hplain, by simp [Runtime.run, foundDisconnects, countConnections]⟩
  | cons ev evs ih =>
    simp only [Runtime.admitsAll, Bool.and_eq_true] at hadm
    obtain ⟨hp1, hstep⟩ :=
      rt.step_count ev h hplain (hkind ev (List.mem_cons_self _ _)) hadm.1
    obtain ⟨hp2, hrun⟩ := ih (rt.step ev) (rt.step_sound ev h hadm.1) hp1
      (fun e he => hkind e (List.mem_cons_of_mem _ he)) hadm.2
    have hrun2 : (rt.step ev).run evs = rt.run (ev :: evs) := by
      simp [Runtime.run]
    rw [hrun2] at hp2 hrun
    refine ⟨hp2, ?_⟩
    simp only [foundDisconnects, countConnections, List.countP_cons] at hrun ⊢
    omega

/-- Claim C8: for every sequence of connections (each with the settling of its
query, which registers the handlers of the socket) and closings of sockets that the
transport can deliver from the empty registry, the presence snapshot is computed
without error and its length plus the number of disconnects whose handler ran and
found its session present equals the number of connections. The same holds for the
snapshot the connection handler computes. -/
theorem presence_snapshot_length (evs : List Delivery)
    (hkind : ∀ ev ∈ evs,
      ev.isConnection = true ∨ ev.isQuerySettled = true ∨ ev.isDisconnect = true)
    (hadm : Runtime.init.admitsAll evs = true) :
    ∃ users, activeUsersList (Runtime.init.run evs).userStats.activeUsers = some users ∧
      users.length + foundDisconnects Runtime.init evs = countConnections evs ∧
      (activeUsersListAtConnect (Runtime.init.run evs).userStats.activeUsers).length +
        foundDisconnects Runtime.init evs = countConnections evs := by
  obtain ⟨hplain, hsize⟩ := Runtime.run_count evs Runtime.init Runtime.init_sound
    (by simp [Runtime.init, UserStats.init]) hkind hadm
  refine ⟨_, activeUsersList_of_plain _ hplain, ?_, ?_⟩
  · simpa [JsMap.size, Runtime.init, UserStats.init] using hsize
  · simpa [JsMap.size, Runtime.init, UserStats.init, activeUsersListAtConnect, JsMap.values]
      using hsize

/-- Witness of C8: `a` and `b` connect; `a` is closed after its handlers were
registered and its disconnect handler finds it; `b` is closed before its query
settles, so no handler runs and `b` stays registered: two connections, one found
disconnect, one entry in the snapshot. -/
theorem presence_snapshot_length_witness :
    (∀ ev ∈ closingTrace,
      ev.isConnection = true ∨ ev.isQuerySettled = true ∨ ev.isDisconnect = true) ∧
    Runtime.init.admitsAll closingTrace = true ∧
    countConnections closingTrace = 2 ∧
    foundDisconnects Runtime.init closingTrace = 1 ∧
    JsMap.keys (Runtime.init.run closingTrace).userStats.activeUsers = ["b"] ∧
    ∃ users, activeUsersList (Runtime.init.run closingTrace).userStats.activeUsers = some users ∧
      users.length + foundDisconnects Runtime.init closingTrace =
        countConnections closingTrace ∧
      (activeUsersListAtConnect (Runtime.init.run closingTrace).userStats.activeUsers).length +
        foundDisconnects Runtime.init closingTrace = countConnections closingTrace :=
  ⟨by decide, by decide, by decide, by decide, by decide,
    presence_snapshot_length closingTrace (by decide) (by decide)⟩

/-! ## The deliveries of the transport as handler runs -/

theorem JsMap.get_map_snd {β γ : Type} (m : JsMap β) (f : β → γ) (k : String) :
    JsMap.get (m.map (fun e => (e.1, f e.2))) k = (JsMap.get m k).map f := by
  induction m with
  | nil => rfl
  | cons e m ih =>
    obtain ⟨k0, v0⟩ := e
    by_cases h0 : k0 = k
    · simp [JsMap.get, h0]
    · simp only [List.map_cons, JsMap.get, h0, if_false]
      exact ih

theorem Runtime.toServer_get (rt : Runtime) (k : String) (link : Link)
    (hget : JsMap.get rt.links k = some link) :
    JsMap.get (List.map (fun e => (e.1, e.2.socket)) rt.links) k = some link.socket := by
  have := JsMap.get_map_snd rt.links (fun l => l.socket) k
  rw [hget] at this
  exact this

/-- Every delivery changes `userStats` as the handler run of `Server` it amounts to
does, or not at all: what holds after every event of `Server` holds after every
delivery. -/
theorem Runtime.step_userStats (rt : Runtime) (ev : Delivery) :
    (rt.step ev).userStats =
      match rt.eventOf ev with
      | none => rt.userStats
      | some e => (rt.toServer.step e).userStats := by
  cases ev with
  | connection hs clk => rfl
  | querySettled socketId latest =>
    simp only [Runtime.step, Runtime.handle, Runtime.eventOf]
    cases JsMap.get rt.links socketId with
    | none => rfl
    | some link =>
      simp only
      split_ifs <;> rfl
  | disconnect socketId reason clk =>
    simp only [Runtime.step, Runtime.handle, Runtime.eventOf]
    cases hget : JsMap.get rt.links socketId with
    | none => rfl
    | some link =>
      simp only
      have hs := rt.toServer_get socketId link hget
      cases hc : link.connected <;> cases hl : link.listening <;>
        simp [Server.step, Server.handle, hs, Runtime.toServer]
  | userConnected socketId data =>
    simp only [Runtime.step, Runtime.handle, Runtime.eventOf]
    cases hl : rt.listener socketId with
    | none => rfl
    | some link =>
      have hs := rt.toServer_get socketId link (rt.listener_some socketId link hl).1
      simp [Server.step, Server.handle, hs, Runtime.toServer]
  | userAction socketId data clk =>
    simp only [Runtime.step, Runtime.handle, Runtime.eventOf]
    cases hl : rt.listener socketId with
    | none => rfl
    | some link =>
      have hs := rt.toServer_get socketId link (rt.listener_some socketId link hl).1
      simp [Server.step, Server.handle, hs, Runtime.toServer]
  | requestUserStats socketId =>
    simp only [Runtime.step, Runtime.handle, Runtime.eventOf]
    cases hl : rt.listener socketId with
    | none => rfl
    | some link =>
      have hs := rt.toServer_get socketId link (rt.listener_some socketId link hl).1
      simp [Server.step, Server.handle, hs, Runtime.toServer]
  | ping socketId clk =>
    simp only [Runtime.step, Runtime.handle, Runtime.eventOf]
    cases hl : rt.listener socketId with
    | none => rfl
    | some link =>
      have hs := rt.toServer_get socketId link (rt.listener_some socketId link hl).1
      simp [Server.step, Server.handle, hs, Runtime.toServer]
  | requestActiveUsers socketId =>
    simp only [Runtime.step, Runtime.handle, Runtime.eventOf]
    cases hl : rt.listener socketId with
    | none => rfl
    | some link =>
      have hs := rt.toServer_get socketId link (rt.listener_some socketId link hl).1
      simp [Server.step, Server.handle, hs, Runtime.toServer]
  | cleanup clk => rfl
  | periodicUpdate => rfl

end AgenteSchwefel
